import Mathlib

/-! # SEO article generator: the in-process article store and the SEO parsers

A shallow embedding of the in-memory branch (`isMongoConnected() === false`) of
`articleController.js` and `seoController.js`, and of the pure parsing code of
`articleService.js`.

Conventions of the embedding:

* A JavaScript value is a `JsVal`. Numbers are the integer-valued ones (the model is exact
  for magnitudes below `2^53`); a `Date` object is represented by its time value in
  milliseconds, the only thing the code ever reads from it (through `new Date(x)`).
* An object is a finite map, written as an association list that is read by first match;
  an object literal or spread that lists an entry later puts it in front.
* A thrown exception is `none`; every handler turns it into a 500 response.
* The clock (`new Date()`) and the text-generation collaborator are inputs of a handler.
-/

namespace SeoArticle

/-! ## JavaScript values -/

/-- JSON-like JavaScript value; `num` is a finite integer-valued number. -/
inductive JsVal where
  | undefined : JsVal
  | null : JsVal
  | bool (b : Bool) : JsVal
  | num (n : Int) : JsVal
  | nan : JsVal
  | str (s : String) : JsVal
  | arr (xs : List JsVal) : JsVal
  | obj (kvs : List (String × JsVal)) : JsVal

/-- Plain object: association list read by first match. -/
abbrev Obj := List (String × JsVal)

/-- Property read `o[k]`: the value of the first entry with key `k`, else `undefined`. -/
def Obj.get (o : Obj) (k : String) : JsVal :=
  match o.lookup k with
  | some v => v
  | none => JsVal.undefined

/-- Own-property test. -/
def Obj.hasKey (o : Obj) (k : String) : Bool :=
  (o.lookup k).isSome

/-- Property write `o[k] = v`. -/
def Obj.set (o : Obj) (k : String) (v : JsVal) : Obj :=
  (k, v) :: o

/-- Spread `{...base, ...over}`: entries of `over` win. -/
def Obj.spread (base over : Obj) : Obj :=
  over ++ base

/-- ToBoolean. -/
def JsVal.truthy : JsVal → Bool
  | .undefined => false
  | .null => false
  | .bool b => b
  | .num n => n != 0
  | .nan => false
  | .str s => s != ""
  | .arr _ => true
  | .obj _ => true

/-- The expression `a || b`. -/
def JsVal.orElse (a b : JsVal) : JsVal :=
  if a.truthy then a else b

/-- Member read `v.k` on an arbitrary value: throws on `undefined` and `null`, reads the
own property of an object, and is `undefined` on the other values (no property that the
code reads is inherited by them). -/
def JsVal.prop (v : JsVal) (k : String) : Option JsVal :=
  match v with
  | .undefined => none
  | .null => none
  | .obj kvs => some (Obj.get kvs k)
  | _ => some JsVal.undefined

/-! ## Numbers and strings -/

/-- Decimal digit character of `d < 10`. -/
def digitChar (d : Nat) : Char := Char.ofNat (48 + d)

/-- Digits of `n`, most significant first, pushed in front of `acc`. -/
def natDigitsAux : Nat → Nat → List Char → List Char
  | 0, _, acc => acc
  | fuel + 1, n, acc =>
    if n / 10 = 0 then digitChar (n % 10) :: acc
    else natDigitsAux fuel (n / 10) (digitChar (n % 10) :: acc)

/-- Decimal digits of a natural number. -/
def natDigits (n : Nat) : List Char := natDigitsAux (n + 1) n []

/-- Number::toString for an integer-valued number. -/
def numberToString (n : Int) : String :=
  if n < 0 then String.mk ('-' :: natDigits n.natAbs) else String.mk (natDigits n.natAbs)

/-- ASCII decimal digit, the class `\d`. -/
def isDigit (c : Char) : Bool := 48 ≤ c.toNat && c.toNat ≤ 57

/-- Value of a digit character. -/
def digitVal (c : Char) : Nat := c.toNat - 48

/-- Value of a run of decimal digits. -/
def digitsVal (cs : List Char) : Nat := cs.foldl (fun acc c => acc * 10 + digitVal c) 0

/-- White space and line terminators: `StrWhiteSpaceChar`, also the class `\s`. -/
def isJsSpace (c : Char) : Bool :=
  let n := c.toNat
  n == 9 || n == 10 || n == 11 || n == 12 || n == 13 || n == 32 || n == 160 || n == 5760
    || (8192 ≤ n && n ≤ 8202) || n == 8232 || n == 8233 || n == 8239 || n == 8287
    || n == 12288 || n == 65279

/-- String.prototype.trim on a character list. -/
def jsTrim (cs : List Char) : List Char :=
  ((cs.dropWhile isJsSpace).reverse.dropWhile isJsSpace).reverse

/-- Result of `parseInt(s, 10)` on the characters of `s`; `none` is NaN. -/
def parseIntChars (cs : List Char) : Option Int :=
  let t := cs.dropWhile isJsSpace
  let neg := t.head? == some '-'
  let u := if t.head? == some '-' || t.head? == some '+' then t.tail else t
  let ds := u.takeWhile isDigit
  if ds.isEmpty then none
  else if neg then some (-(digitsVal ds : Int)) else some (digitsVal ds : Int)

/-- Numeric value of a string as far as the code can observe it. -/
inductive JsNum where
  | nan : JsNum
  | int (z : Int) : JsNum
  | other : JsNum
deriving DecidableEq

/-- Value of a digit in a radix up to 16, when the character is one. -/
def radixDigit (radix : Nat) (c : Char) : Option Nat :=
  let n := c.toNat
  let v := if 48 ≤ n && n ≤ 57 then n - 48
    else if 97 ≤ n && n ≤ 102 then n - 87
    else if 65 ≤ n && n ≤ 70 then n - 55
    else 16
  if v < radix then some v else none

/-- Value of a non-empty run of digits in the given radix. -/
def radixVal (radix : Nat) (cs : List Char) : Option Nat :=
  if cs.isEmpty then none
  else cs.foldl (fun acc c => match acc, radixDigit radix c with
    | some a, some d => some (a * radix + d)
    | _, _ => none) (some 0)

/-- Exponent part `e[+-]digits`, or nothing; `none` when malformed. -/
def parseExponent (cs : List Char) : Option Int :=
  match cs with
  | [] => some 0
  | c :: rest =>
    if c == 'e' || c == 'E' then
      let neg := rest.head? == some '-'
      let ds := if rest.head? == some '-' || rest.head? == some '+' then rest.tail else rest
      if ds.isEmpty || !ds.all isDigit then none
      else if neg then some (-(digitsVal ds : Int)) else some (digitsVal ds : Int)
    else none

/-- The number `m * 10 ^ e` with sign, classified as an integer or not. -/
def scaleDecimal (neg : Bool) (m : Nat) (e : Int) : JsNum :=
  if 0 ≤ e then JsNum.int ((if neg then -1 else 1) * (m * 10 ^ e.toNat : Nat))
  else if m % 10 ^ (-e).toNat = 0 then
    JsNum.int ((if neg then -1 else 1) * (m / 10 ^ (-e).toNat : Nat))
  else JsNum.other

/-- StrDecimalLiteral after the sign: `Infinity`, `digits[.digits][exp]` or `.digits[exp]`.
The value is computed exactly; rounding to a double is not modelled. -/
def parseDecimal (neg : Bool) (cs : List Char) : JsNum :=
  if cs == "Infinity".data then JsNum.other
  else
    let ip := cs.takeWhile isDigit
    let r1 := cs.dropWhile isDigit
    let hasDot := r1.head? == some '.'
    let r2 := if hasDot then r1.tail else r1
    let fp := if hasDot then r2.takeWhile isDigit else []
    let r3 := if hasDot then r2.dropWhile isDigit else r2
    if ip.isEmpty && fp.isEmpty then JsNum.nan
    else
      match parseExponent r3 with
      | none => JsNum.nan
      | some e => scaleDecimal neg (digitsVal (ip ++ fp)) (e - fp.length)

/-- StringToNumber: the numeric value of a string under generic coercion. -/
def stringToNumber (s : String) : JsNum :=
  let t := jsTrim s.data
  match t with
  | [] => JsNum.int 0
  | '0' :: 'x' :: rest | '0' :: 'X' :: rest =>
    match radixVal 16 rest with | some v => JsNum.int v | none => JsNum.nan
  | '0' :: 'o' :: rest | '0' :: 'O' :: rest =>
    match radixVal 8 rest with | some v => JsNum.int v | none => JsNum.nan
  | '0' :: 'b' :: rest | '0' :: 'B' :: rest =>
    match radixVal 2 rest with | some v => JsNum.int v | none => JsNum.nan
  | '-' :: rest => parseDecimal true rest
  | '+' :: rest => parseDecimal false rest
  | _ => parseDecimal false t

/-! ## Conversions and comparisons -/

mutual
/-- ToString of a value; `none` is a thrown TypeError (an object whose own `toString`
property hides the inherited method cannot be converted). -/
def JsVal.toStr : JsVal → Option String
  | .undefined => some "undefined"
  | .null => some "null"
  | .bool b => some (if b then "true" else "false")
  | .num n => some (numberToString n)
  | .nan => some "NaN"
  | .str s => some s
  | .arr xs => JsVal.joinElems "," xs
  | .obj kvs => if Obj.hasKey kvs "toString" then none else some "[object Object]"
/-- Array.prototype.join: `undefined` and `null` elements give the empty string. -/
def JsVal.joinElems (sep : String) : List JsVal → Option String
  | [] => some ""
  | [x] => JsVal.elemStr x
  | x :: y :: rest =>
    match JsVal.elemStr x, JsVal.joinElems sep (y :: rest) with
    | some a, some b => some (a ++ sep ++ b)
    | _, _ => none
/-- String of one array element inside `join`. -/
def JsVal.elemStr : JsVal → Option String
  | .undefined => some ""
  | .null => some ""
  | .bool b => some (if b then "true" else "false")
  | .num n => some (numberToString n)
  | .nan => some "NaN"
  | .str s => some s
  | .arr xs => JsVal.joinElems "," xs
  | .obj kvs => if Obj.hasKey kvs "toString" then none else some "[object Object]"
end

/-- Method call `v.toString()`: throws on `undefined` and `null`. -/
def JsVal.toStringMethod : JsVal → Option String
  | .undefined => none
  | .null => none
  | v => v.toStr

/-- Method call `v.join(sep)`: only an array has the method. -/
def JsVal.join (v : JsVal) (sep : String) : Option String :=
  match v with
  | .arr xs => JsVal.joinElems sep xs
  | _ => none

/-- The call `parseInt(v, 10)`: outer `none` is a throw, inner `none` is NaN. -/
def jsParseInt (v : JsVal) : Option (Option Int) :=
  match v.toStr with
  | some s => some (parseIntChars s.data)
  | none => none

/-- Strict equality `a === b` between a stored value and a request value. Two objects are
never the same reference here. -/
def strictEq : JsVal → JsVal → Bool
  | .undefined, .undefined => true
  | .null, .null => true
  | .bool a, .bool b => a == b
  | .num a, .num b => a == b
  | .str a, .str b => a == b
  | _, _ => false

/-- Comparison of a number with a string under `==`. -/
def numEqStr (n : Int) (s : String) : Bool :=
  stringToNumber s == JsNum.int n

/-- Comparison of a primitive (not a boolean) with a string under `==`. -/
def primEqStr (a : JsVal) (s : String) : Bool :=
  match a with
  | .num n => numEqStr n s
  | .str t => t == s
  | _ => false

/-- Loose equality `a == b` between a stored value and a request value; `none` is a throw. -/
def looseEq : JsVal → JsVal → Option Bool
  | .nan, .arr xs => (JsVal.arr xs).toStr.map (fun _ => false)
  | .nan, .obj kvs => (JsVal.obj kvs).toStr.map (fun _ => false)
  | .arr xs, .nan => (JsVal.arr xs).toStr.map (fun _ => false)
  | .obj kvs, .nan => (JsVal.obj kvs).toStr.map (fun _ => false)
  | .nan, _ => some false
  | _, .nan => some false
  | .undefined, .undefined => some true
  | .undefined, .null => some true
  | .null, .undefined => some true
  | .null, .null => some true
  | .undefined, _ => some false
  | .null, _ => some false
  | _, .undefined => some false
  | _, .null => some false
  | .bool a, .bool b => some (a == b)
  | .num a, .num b => some (a == b)
  | .str a, .str b => some (a == b)
  | .num a, .str b => some (numEqStr a b)
  | .str a, .num b => some (numEqStr b a)
  | .bool a, .num b => some ((if a then 1 else 0) == b)
  | .num a, .bool b => some (a == (if b then 1 else 0))
  | .bool a, .str b => some (numEqStr (if a then 1 else 0) b)
  | .str a, .bool b => some (numEqStr (if b then 1 else 0) a)
  | .bool a, b =>
    match b.toStr with
    | some s => some (numEqStr (if a then 1 else 0) s)
    | none => none
  | a, .bool b =>
    match a.toStr with
    | some s => some (numEqStr (if b then 1 else 0) s)
    | none => none
  | .num a, b =>
    match b.toStr with
    | some s => some (numEqStr a s)
    | none => none
  | .str a, b =>
    match b.toStr with
    | some s => some (a == s)
    | none => none
  | a, .num b =>
    match a.toStr with
    | some s => some (numEqStr b s)
    | none => none
  | a, .str b =>
    match a.toStr with
    | some s => some (s == b)
    | none => none
  | _, _ => some false

/-! ## Identifier comparison -/

/-- The lookup predicate of `getArticle`, `checkSEO` and `generateMeta`:
`a._id === id || a._id == id || String(a._id) === String(id) ||
(Number.isInteger(a._id) && a._id === numericId)`, with `numericId = parseInt(id, 10)`. -/
def idMatches (aid id : JsVal) (numericId : Option Int) : Option Bool :=
  if strictEq aid id then some true
  else
    match looseEq aid id with
    | none => none
    | some true => some true
    | some false =>
      match aid.toStr, id.toStr with
      | some s, some t =>
        if s == t then some true
        else
          match aid with
          | .num n => some (numericId == some n)
          | _ => some false
      | _, _ => none

/-- The index predicate of `updateArticle`, `deleteArticle` and `checkSEO`:
`a._id.toString() === id.toString()`. -/
def idEqByString (aid id : JsVal) : Option Bool :=
  match aid.toStringMethod, id.toStringMethod with
  | some s, some t => some (s == t)
  | _, _ => none

/-- Array.prototype.find with a predicate that may throw: outer `none` is the throw. -/
def jsFind (p : Obj → Option Bool) : List Obj → Option (Option Obj)
  | [] => some none
  | a :: rest =>
    match p a with
    | none => none
    | some true => some (some a)
    | some false => jsFind p rest

/-- Array.prototype.findIndex with a predicate that may throw; inner `none` is `-1`. -/
def jsFindIndex (p : Obj → Option Bool) : List Obj → Option (Option Nat)
  | [] => some none
  | a :: rest =>
    match p a with
    | none => none
    | some true => some (some 0)
    | some false =>
      match jsFindIndex p rest with
      | none => none
      | some none => some none
      | some (some i) => some (some (i + 1))

/-! ## Parsing of the model text (`articleService.checkSEO`) -/

/-- First alternative `(\d{1,3})\/100` at the start of `cs`: the greedy quantifier tries three
digits, then two, then one; the capture is returned. -/
def matchSlash100 (cs : List Char) : Option (List Char) :=
  [3, 2, 1].findSome? (fun k =>
    if (cs.take k).length == k && (cs.take k).all isDigit && "/100".data.isPrefixOf (cs.drop k)
    then some (cs.take k) else none)

/-- Second alternative `スコア[：:]\s*(\d{1,3})` at the start of `cs`. -/
def matchScoreLabel (cs : List Char) : Option (List Char) :=
  match cs with
  | 'ス' :: 'コ' :: 'ア' :: c :: rest =>
    if c == '：' || c == ':' then
      let ds := ((rest.dropWhile isJsSpace).takeWhile isDigit).take 3
      if ds.isEmpty then none else some ds
    else none
  | _ => none

/-- The call `analysisResult.match(/(\d{1,3})\/100|スコア[：:]\s*(\d{1,3})/)`: leftmost start
position, first alternative before the second. The result holds the two capture groups. -/
def scoreMatch : List Char → Option (Option (List Char) × Option (List Char))
  | [] => none
  | c :: cs =>
    match matchSlash100 (c :: cs) with
    | some g => some (some g, none)
    | none =>
      match matchScoreLabel (c :: cs) with
      | some g => some (none, some g)
      | none => scoreMatch cs

/-- The expression `scoreMatch[1] || scoreMatch[2]`; `none` is `undefined`. -/
def pickGroup (g1 g2 : Option (List Char)) : Option (List Char) :=
  match g1 with
  | some (c :: cs) => some (c :: cs)
  | _ => g2

/-- The statement `scoreMatch ? parseInt(scoreMatch[1] || scoreMatch[2]) : 70`; `none` is NaN.
(`parseInt` without a radix reads a run of decimal digits in base ten.) -/
def parseScore (text : String) : Option Int :=
  match scoreMatch text.data with
  | some (g1, g2) =>
    match pickGroup g1 g2 with
    | some g => parseIntChars g
    | none => none
  | none => some 70

/-- The class `[\d\-\.・\*]`. -/
def isMarker (c : Char) : Bool :=
  isDigit c || c == '-' || c == '.' || c == '・' || c == '*'

/-- The class `[\s\.]`. -/
def isSpaceOrDot (c : Char) : Bool := isJsSpace c || c == '.'

/-- The class `[^\n]`. -/
def isNotNewline (c : Char) : Bool := c != '\n'

/-- Backtracking of `[\s\.]*` before `([^\n]+)`: the largest `j` at most the given bound such
that a character other than a line feed follows the first `j` characters. -/
def backtrackRun (rest : List Char) : Nat → Option Nat
  | 0 => if (rest.head?.map isNotNewline) == some true then some 0 else none
  | j + 1 =>
    if ((rest.drop (j + 1)).head?.map isNotNewline) == some true then some (j + 1)
    else backtrackRun rest j

/-- One match of `/(?:[\d\-\.・\*][\s\.]*)([^\n]+)/` at the start of `cs`: the matched text
and what follows it. -/
def matchRecommendation (cs : List Char) : Option (List Char × List Char) :=
  match cs with
  | [] => none
  | c :: rest =>
    if isMarker c then
      match backtrackRun rest (rest.takeWhile isSpaceOrDot).length with
      | some j =>
        some (c :: (rest.take j ++ (rest.drop j).takeWhile isNotNewline),
          (rest.drop j).dropWhile isNotNewline)
      | none => none
    else none

/-- All matches of the global pattern, left to right, each search resuming where the
previous match ended. -/
def recommendationMatches : Nat → List Char → List (List Char)
  | 0, _ => []
  | _ + 1, [] => []
  | fuel + 1, c :: cs =>
    match matchRecommendation (c :: cs) with
    | some (m, rest) => m :: recommendationMatches fuel rest
    | none => recommendationMatches fuel cs

/-- The callback `rec => rec.replace(/^[\d\-\.・\*][\s\.]*/, '').trim()`. -/
def cleanRecommendation (m : List Char) : String :=
  match m with
  | [] => ""
  | c :: rest =>
    if isMarker c then String.mk (jsTrim (rest.dropWhile isSpaceOrDot))
    else String.mk (jsTrim (c :: rest))

/-- The two fixed fallback recommendations. -/
def fallbackRecommendations : List String :=
  ["メタタイトルにキーワードを追加してください", "内部リンクを増やしてください"]

/-- The recommendations extracted from the model text. -/
def parseRecommendations (text : String) : List String :=
  match recommendationMatches text.data.length text.data with
  | [] => fallbackRecommendations
  | m :: ms => (m :: ms).map cleanRecommendation

/-! ## The collaborator and the services -/

/-- Reply of the text-generation collaborator to one request: the text of
`completion.choices[0].message.content`, or `none` when the call fails. -/
abbrev LlmReply := Option String

/-- Destructuring default `{ x = d }`: used when the property is `undefined`. -/
def JsVal.withDefault (v d : JsVal) : JsVal :=
  match v with
  | .undefined => d
  | _ => v

/-- Whether the prompt of `articleService.generateArticle` can be built: every interpolation
and both `join` calls must succeed. The prompt text itself is not modelled, since the reply
of the collaborator is an input. -/
def articlePromptOk (articleData : Obj) : Bool :=
  let articleType := (articleData.get "articleType").withDefault (JsVal.str "standard")
  let wordCount := (articleData.get "wordCount").withDefault (JsVal.num 1500)
  wordCount.toStr.isSome
    && (articleData.get "title").toStr.isSome
    && ((articleData.get "targetKeywords").join ", ").isSome
    && (articleData.get "targetAudience").toStr.isSome
    && ((articleData.get "userCases").join ", ").isSome
    && articleType.toStr.isSome

/-- The service `articleService.generateArticle`: the generated `{title, content}` (or `none`
when it throws) and the number of calls made to the collaborator. -/
def articleService.generateArticle (articleData : Obj) (reply : LlmReply) :
    Option JsVal × Nat :=
  if articlePromptOk articleData then
    match reply with
    | some text =>
      (some (JsVal.obj [("title", articleData.get "title"), ("content", JsVal.str text)]), 1)
    | none => (none, 1)
  else (none, 0)

/-- Result of the SEO analysis. -/
structure SeoResult where
  seoScore : JsVal
  recommendations : List String

/-- A parsed number as a value. -/
def JsVal.ofParsed : Option Int → JsVal
  | some n => JsVal.num n
  | none => JsVal.nan

/-- The service `articleService.checkSEO(content, keywords)`: the parsed result (or `none`
when it throws) and the number of calls made to the collaborator. -/
def articleService.checkSEO (content keywords : JsVal) (reply : LlmReply) :
    Option SeoResult × Nat :=
  if content.toStr.isSome && (keywords.join ", ").isSome then
    match reply with
    | some analysisResult =>
      (some ⟨JsVal.ofParsed (parseScore analysisResult), parseRecommendations analysisResult⟩, 1)
    | none => (none, 1)
  else (none, 0)

/-! ## The in-process store and the controllers -/

/-- The process-wide state: `global.inMemoryArticles` and `global.articleIdCounter`. -/
structure Store where
  inMemoryArticles : List Obj
  articleIdCounter : Nat

/-- State at module load: no record, counter at 1. -/
def Store.init : Store := ⟨[], 1⟩

/-- Body of a JSON response. -/
inductive Body where
  | error : Body
  | created (articleId : JsVal) (generatedArticle : JsVal) : Body
  | article (article : Obj) : Body
  | articles (articles : List Obj) : Body
  | deleted : Body
  | seo (seoScore : JsVal) (recommendations : List String) : Body
  | metaTags (metaTitle : JsVal) (metaDescription : JsVal) : Body

/-- HTTP response. -/
structure Response where
  status : Nat
  body : Body

/-- What a handler leaves behind. -/
structure Outcome where
  store : Store
  response : Response
  llmCalls : Nat

/-- The controller `articleController.generateArticle`, in-memory branch. The two clock
readings are those of `createdAt: new Date()` and `updatedAt: new Date()`. -/
def articleController.generateArticle (s : Store) (articleData : Obj) (reply : LlmReply)
    (tCreated tUpdated : Int) : Outcome :=
  if !(articleData.get "title").truthy || !(articleData.get "targetKeywords").truthy
      || !(articleData.get "targetAudience").truthy then
    ⟨s, ⟨400, Body.error⟩, 0⟩
  else
    match articleService.generateArticle articleData reply with
    | (none, calls) => ⟨s, ⟨500, Body.error⟩, calls⟩
    | (some generatedArticle, calls) =>
      let newId := s.articleIdCounter
      let article : Obj :=
        [("_id", JsVal.num newId),
         ("title", articleData.get "title"),
         ("targetKeywords", articleData.get "targetKeywords"),
         ("targetAudience", articleData.get "targetAudience"),
         ("userCases", (articleData.get "userCases").orElse (JsVal.arr [])),
         ("additionalData", (articleData.get "additionalData").orElse (JsVal.obj [])),
         ("generatedArticle", generatedArticle),
         ("seoScore", JsVal.num 0),
         ("seoRecommendations", JsVal.arr []),
         ("createdAt", JsVal.num tCreated),
         ("updatedAt", JsVal.num tUpdated)]
      ⟨⟨s.inMemoryArticles ++ [article], s.articleIdCounter + 1⟩,
        ⟨201, Body.created (JsVal.num newId) generatedArticle⟩, calls⟩

/-- The controller `articleController.updateArticle`, in-memory branch. -/
def articleController.updateArticle (s : Store) (id : JsVal) (updates : Obj) (now : Int) :
    Outcome :=
  match jsFindIndex (fun a => idEqByString (a.get "_id") id) s.inMemoryArticles with
  | none => ⟨s, ⟨500, Body.error⟩, 0⟩
  | some none => ⟨s, ⟨404, Body.error⟩, 0⟩
  | some (some articleIndex) =>
    match s.inMemoryArticles[articleIndex]? with
    | none => ⟨s, ⟨500, Body.error⟩, 0⟩
    | some old =>
      let updatedArticle : Obj := Obj.set (Obj.spread old updates) "updatedAt" (JsVal.num now)
      ⟨⟨s.inMemoryArticles.set articleIndex updatedArticle, s.articleIdCounter⟩,
        ⟨200, Body.article updatedArticle⟩, 0⟩

/-- The controller `articleController.getArticle`, in-memory branch. The last conversion is
the log line that prints the title of the record found. -/
def articleController.getArticle (s : Store) (id : JsVal) : Response :=
  match jsParseInt id with
  | none => ⟨500, Body.error⟩
  | some numericId =>
    match jsFind (fun a => idMatches (a.get "_id") id numericId) s.inMemoryArticles with
    | none => ⟨500, Body.error⟩
    | some none => ⟨404, Body.error⟩
    | some (some article) =>
      match (article.get "title").toStr with
      | none => ⟨500, Body.error⟩
      | some _ => ⟨200, Body.article article⟩

/-- The controller `articleController.deleteArticle`, in-memory branch. -/
def articleController.deleteArticle (s : Store) (id : JsVal) : Outcome :=
  match jsFindIndex (fun a => idEqByString (a.get "_id") id) s.inMemoryArticles with
  | none => ⟨s, ⟨500, Body.error⟩, 0⟩
  | some none => ⟨s, ⟨404, Body.error⟩, 0⟩
  | some (some articleIndex) =>
    ⟨⟨s.inMemoryArticles.eraseIdx articleIndex, s.articleIdCounter⟩, ⟨200, Body.deleted⟩, 0⟩

/-- Largest magnitude of a time value. -/
def maxTime : Int := 8640000000000000

/-- Time value of `new Date(v)`: outer `none` is a throw, inner `none` the invalid date.
The parser of date strings is a parameter. -/
def timeOf (dateParse : String → Option Int) (v : JsVal) : Option (Option Int) :=
  match v with
  | .undefined => some none
  | .null => some (some 0)
  | .bool b => some (some (if b then 1 else 0))
  | .num n => some (if -maxTime ≤ n ∧ n ≤ maxTime then some n else none)
  | .nan => some none
  | .str s => some (dateParse s)
  | .arr xs => (JsVal.arr xs).toStr.map dateParse
  | .obj kvs => (JsVal.obj kvs).toStr.map dateParse

/-- Time value of `new Date(a.createdAt)` when no conversion throws; `none` is NaN. -/
def createdTime (dateParse : String → Option Int) (a : Obj) : Option Int :=
  (timeOf dateParse (a.get "createdAt")).join

/-- The comparator `(a, b) => new Date(b.createdAt) - new Date(a.createdAt)` on the time
values of `a` and `b`; a NaN result counts as `0`. -/
def compareCreatedAt (ta tb : Option Int) : Int :=
  match tb, ta with
  | some y, some x => y - x
  | _, _ => 0

/-- Order in which a stable sort with `compareCreatedAt` leaves `a` before `b`. -/
def createdAtOrder (time : Obj → Option Int) (a b : Obj) : Prop :=
  compareCreatedAt (time a) (time b) ≤ 0

instance (time : Obj → Option Int) : DecidableRel (createdAtOrder time) :=
  fun a b => inferInstanceAs (Decidable (compareCreatedAt (time a) (time b) ≤ 0))

/-- The expression `[...inMemoryArticles].sort(compare)`: a sort of a copy; `none` is a throw
of the comparator, which is called as soon as there are two records. When every `createdAt`
is a valid time the comparator is a consistent one and the result is that of a stable sort,
as the language prescribes. With an invalid date among the records the comparator answers
NaN, which the sort takes as `0`, and the language leaves the order to the engine: the
insertion order kept here then stands for the engine only on the lists in which every
comparison of two neighbours involves the invalid date, which every algorithm finds already
in order. -/
def sortedByCreatedAt (dateParse : String → Option Int) (l : List Obj) : Option (List Obj) :=
  if l.length < 2 then some l
  else if l.all (fun a => (timeOf dateParse (a.get "createdAt")).isSome) then
    some (l.insertionSort (createdAtOrder (createdTime dateParse)))
  else none

/-- The controller `articleController.getAllArticles`, in-memory branch. The sort works on
the copy `[...inMemoryArticles]`, so the store is left as it was. -/
def articleController.getAllArticles (dateParse : String → Option Int) (s : Store) :
    Outcome :=
  match sortedByCreatedAt dateParse s.inMemoryArticles with
  | some articles => ⟨s, ⟨200, Body.articles articles⟩, 0⟩
  | none => ⟨s, ⟨500, Body.error⟩, 0⟩

/-- The controller `seoController.checkSEO`, in-memory branch. -/
def seoController.checkSEO (s : Store) (articleId : JsVal) (reply : LlmReply) (now : Int) :
    Outcome :=
  match jsParseInt articleId with
  | none => ⟨s, ⟨500, Body.error⟩, 0⟩
  | some numericId =>
    match jsFind (fun a => idMatches (a.get "_id") articleId numericId) s.inMemoryArticles with
    | none => ⟨s, ⟨500, Body.error⟩, 0⟩
    | some none => ⟨s, ⟨404, Body.error⟩, 0⟩
    | some (some article) =>
      match (article.get "generatedArticle").prop "content" with
      | none => ⟨s, ⟨500, Body.error⟩, 0⟩
      | some content =>
        match articleService.checkSEO content (article.get "targetKeywords") reply with
        | (none, calls) => ⟨s, ⟨500, Body.error⟩, calls⟩
        | (some seoResult, calls) =>
          match jsFindIndex (fun a => idEqByString (a.get "_id") articleId)
              s.inMemoryArticles with
          | none => ⟨s, ⟨500, Body.error⟩, calls⟩
          | some none =>
            ⟨s, ⟨200, Body.seo seoResult.seoScore seoResult.recommendations⟩, calls⟩
          | some (some articleIndex) =>
            ⟨⟨s.inMemoryArticles.modify
                (fun a => Obj.set (Obj.set (Obj.set a "seoScore" seoResult.seoScore)
                  "seoRecommendations" (JsVal.arr (seoResult.recommendations.map JsVal.str)))
                  "updatedAt" (JsVal.num now)) articleIndex, s.articleIdCounter⟩,
              ⟨200, Body.seo seoResult.seoScore seoResult.recommendations⟩, calls⟩

/-! ## Meta generation (`seoController.generateMeta`) -/

/-- Line terminators, the characters that the class `.` does not match. -/
def isLineTerminator (c : Char) : Bool :=
  c.toNat == 10 || c.toNat == 13 || c.toNat == 8232 || c.toNat == 8233

/-- The class `.`. -/
def isDotChar (c : Char) : Bool := !isLineTerminator c

/-- Backtracking of `\s*` before `(.+)`: the largest `j` at most the given bound such that a
character of the class `.` follows the first `j` characters. -/
def backtrackDot (rest : List Char) : Nat → Option Nat
  | 0 => if (rest.head?.map isDotChar) == some true then some 0 else none
  | j + 1 =>
    if ((rest.drop (j + 1)).head?.map isDotChar) == some true then some (j + 1)
    else backtrackDot rest j

/-- One match of `label[：:]\s*(.+)` at the start of `cs`: the capture. -/
def matchLabelled (label : List Char) (cs : List Char) : Option (List Char) :=
  if label.isPrefixOf cs then
    match cs.drop label.length with
    | [] => none
    | c :: rest =>
      if c == '：' || c == ':' then
        match backtrackDot rest (rest.takeWhile isJsSpace).length with
        | some j => some ((rest.drop j).takeWhile isDotChar)
        | none => none
      else none
  else none

/-- The call `metaContent.match(/label[：:]\s*(.+)/)`: leftmost start position; the result is
the capture group. -/
def labelledMatch (label : List Char) : List Char → Option (List Char)
  | [] => none
  | c :: cs =>
    match matchLabelled label (c :: cs) with
    | some g => some g
    | none => labelledMatch label cs

/-- The label of the pattern for the meta title. -/
def metaTitleLabel : String := "メタタイトル"

/-- The label of the pattern for the meta description. -/
def metaDescriptionLabel : String := "メタディスクリプション"

/-- The capture after the label, trimmed: `match[1].trim()`, when the pattern matches. -/
def extractLabelled (label : String) (metaContent : String) : Option String :=
  match labelledMatch label.data metaContent.data with
  | some g => some (String.mk (jsTrim g))
  | none => none

/-- Number of UTF-16 code units of a character. -/
def utf16Units (c : Char) : Nat := if c.toNat < 65536 then 1 else 2

/-- Number of UTF-16 code units of a text, its `length`. -/
def utf16Length (cs : List Char) : Nat := (cs.map utf16Units).sum

/-- The call `s.substring(0, n)`, which counts UTF-16 code units: the longest run of leading
characters that fits in `n` code units. When the bound falls inside a surrogate pair
JavaScript keeps a lone surrogate, which a string of this model cannot hold, and the
character is left out here: the result is the one of the code exactly when the cut falls
between two characters (`CutsOnBoundary`), and the statements on it are made there. -/
def substringUnits : Nat → List Char → List Char
  | _, [] => []
  | n, c :: cs => if utf16Units c ≤ n then c :: substringUnits (n - utf16Units c) cs else []

/-- The first `n` UTF-16 code units of `cs` end between two characters, not inside a
surrogate pair: the characters kept by `substringUnits` make up all of these code units. -/
def CutsOnBoundary (n : Nat) (cs : List Char) : Prop :=
  utf16Length (substringUnits n cs) = min n (utf16Length cs)

instance (n : Nat) (cs : List Char) : Decidable (CutsOnBoundary n cs) := by
  unfold CutsOnBoundary; infer_instance

/-- The constant `metaTitle`: the trimmed capture, else `article.generatedArticle.title`. -/
def metaTitleOf (generatedArticle : Obj) (metaContent : String) : JsVal :=
  match extractLabelled metaTitleLabel metaContent with
  | some t => JsVal.str t
  | none => Obj.get generatedArticle "title"

/-- The constant `metaDescription`: the trimmed capture, else
`article.generatedArticle.content.substring(0, 160)`. -/
def metaDescriptionOf (content : String) (metaContent : String) : JsVal :=
  match extractLabelled metaDescriptionLabel metaContent with
  | some t => JsVal.str t
  | none => JsVal.str (String.mk (substringUnits 160 content.data))

/-- Index-keyed entries of an array or of the characters of a string. -/
def indexedEntries (xs : List JsVal) (start : Nat) : Obj :=
  match xs with
  | [] => []
  | x :: rest => (numberToString (start : Int), x) :: indexedEntries rest (start + 1)

/-- Own enumerable properties copied by a spread `{...v}`: those of an object, the indexed
elements of an array or of a string (one entry per character, which is one UTF-16 code unit
for the characters of the Basic Multilingual Plane), nothing for the other values. -/
def JsVal.spreadEntries : JsVal → Obj
  | .obj kvs => kvs
  | .arr xs => indexedEntries xs 0
  | .str s => indexedEntries (s.data.map (fun c => JsVal.str (String.mk [c]))) 0
  | _ => []

/-- What the prompt of `generateMeta` needs from the record found: `generatedArticle` with
a printable `title` and a string `content`, and `targetKeywords` that can be joined. The
result is the `generatedArticle` object and its content; `none` is a throw. The prompt text
itself is not modelled. -/
def metaPromptParts (article : Obj) : Option (Obj × String) :=
  match article.get "generatedArticle" with
  | .obj g =>
    match (Obj.get g "title").toStr, (article.get "targetKeywords").join ", ", Obj.get g "content" with
    | some _, some _, .str content => some (g, content)
    | _, _, _ => none
  | _ => none

/-- The assignment `article.generatedArticle.metadata = {...article.generatedArticle.metadata,
metaTitle, metaDescription}` on the record found, which is the stored record itself. -/
def assignMetadata (article g : Obj) (metaTitle metaDescription : JsVal) : Obj :=
  Obj.set article "generatedArticle"
    (JsVal.obj (Obj.set g "metadata"
      (JsVal.obj (Obj.set (Obj.set (Obj.get g "metadata").spreadEntries "metaTitle" metaTitle)
        "metaDescription" metaDescription))))

/-- The statements on `global.inMemoryArticles[articleIndex]`: `metadata` is initialised to
`{}` when falsy, `metaTitle` and `metaDescription` are written on it and `updatedAt` is
refreshed; `none` is a throw. The module is not in strict mode, so a property written on a
primitive is dropped; an array cannot hold a named property in this model, so a write on an
array is dropped as well. -/
def persistMeta (record : Obj) (metaTitle metaDescription : JsVal) (now : Int) : Option Obj :=
  match record.get "generatedArticle" with
  | .undefined => none
  | .null => none
  | .obj g =>
    match (if (Obj.get g "metadata").truthy then Obj.get g "metadata" else JsVal.obj []) with
    | .obj m =>
      some (Obj.set
        (Obj.set record "generatedArticle"
          (JsVal.obj (Obj.set g "metadata"
            (JsVal.obj (Obj.set (Obj.set m "metaTitle" metaTitle)
              "metaDescription" metaDescription)))))
        "updatedAt" (JsVal.num now))
    | _ => some (Obj.set record "updatedAt" (JsVal.num now))
  | .arr _ => some (Obj.set record "updatedAt" (JsVal.num now))
  | _ => none

/-- The controller `seoController.generateMeta`, in-memory branch. The record found by
`find` is the stored object, so the assignment to its metadata already changes the store, at
the position that `find` stopped at; the later index search compares with `==`. -/
def seoController.generateMeta (s : Store) (articleId : JsVal) (reply : LlmReply) (now : Int) :
    Outcome :=
  match jsParseInt articleId with
  | none => ⟨s, ⟨500, Body.error⟩, 0⟩
  | some numericId =>
    match jsFindIndex (fun a => idMatches (a.get "_id") articleId numericId)
        s.inMemoryArticles with
    | none => ⟨s, ⟨500, Body.error⟩, 0⟩
    | some none => ⟨s, ⟨404, Body.error⟩, 0⟩
    | some (some found) =>
      match s.inMemoryArticles[found]? with
      | none => ⟨s, ⟨500, Body.error⟩, 0⟩
      | some article =>
        match metaPromptParts article with
        | none => ⟨s, ⟨500, Body.error⟩, 0⟩
        | some (g, content) =>
          match reply with
          | none => ⟨s, ⟨500, Body.error⟩, 1⟩
          | some metaContent =>
            let metaTitle := metaTitleOf g metaContent
            let metaDescription := metaDescriptionOf content metaContent
            let articles := s.inMemoryArticles.set found
              (assignMetadata article g metaTitle metaDescription)
            match jsFindIndex (fun a => looseEq (a.get "_id") articleId) articles with
            | none => ⟨⟨articles, s.articleIdCounter⟩, ⟨500, Body.error⟩, 1⟩
            | some none =>
              ⟨⟨articles, s.articleIdCounter⟩,
                ⟨200, Body.metaTags metaTitle metaDescription⟩, 1⟩
            | some (some articleIndex) =>
              match articles[articleIndex]? with
              | none => ⟨⟨articles, s.articleIdCounter⟩, ⟨500, Body.error⟩, 1⟩
              | some record =>
                match persistMeta record metaTitle metaDescription now with
                | none => ⟨⟨articles, s.articleIdCounter⟩, ⟨500, Body.error⟩, 1⟩
                | some updated =>
                  ⟨⟨articles.set articleIndex updated, s.articleIdCounter⟩,
                    ⟨200, Body.metaTags metaTitle metaDescription⟩, 1⟩

/-! ## Sequences of requests to the article routes -/

/-- One request to the article routes that can change the store. -/
inductive Op where
  | generate (articleData : Obj) (reply : LlmReply) (tCreated tUpdated : Int) : Op
  | update (id : JsVal) (updates : Obj) (now : Int) : Op
  | delete (id : JsVal) : Op

/-- The handler of a request. -/
def step (s : Store) : Op → Outcome
  | .generate articleData reply tCreated tUpdated =>
    articleController.generateArticle s articleData reply tCreated tUpdated
  | .update id updates now => articleController.updateArticle s id updates now
  | .delete id => articleController.deleteArticle s id

/-- The store after a sequence of requests and the responses given, in order. -/
def run (s : Store) : List Op → Store × List Response
  | [] => (s, [])
  | op :: ops =>
    let r := run (step s op).store ops
    (r.1, (step s op).response :: r.2)

/-! ## Vocabulary of the statements -/

/-- The article id carried by a 201 response of `generateArticle`. -/
def Response.createdId (r : Response) : Option JsVal :=
  match r.body with
  | .created articleId _ => some articleId
  | _ => none

/-- The `_id` values of the stored records, in store order. -/
def Store.ids (s : Store) : List JsVal :=
  s.inMemoryArticles.map (fun a => a.get "_id")

/-- The records carry pairwise distinct integer ids, as `generateArticle` assigns them. -/
def Store.DistinctIds (s : Store) : Prop :=
  ∃ ns : List Nat, s.ids = ns.map (fun n : Nat => JsVal.num (n : Int)) ∧ ns.Nodup

/-- The records carry pairwise distinct integer ids, all below the counter: what every
request that leaves `_id` alone preserves. -/
def Store.IdsBelowCounter (s : Store) : Prop :=
  ∃ ns : List Nat, s.ids = ns.map (fun n : Nat => JsVal.num (n : Int)) ∧ ns.Nodup ∧
    ∀ n ∈ ns, n < s.articleIdCounter

/-- A request that leaves the `_id` of every record alone: any request but an update whose
body names `_id`. -/
def Op.keepsId : Op → Prop
  | .update _ updates _ => Obj.hasKey updates "_id" = false
  | _ => True

instance (op : Op) : Decidable op.keepsId := by
  cases op <;> unfold Op.keepsId <;> infer_instance

/-- A brief that `generateArticle` accepts: the three required fields are truthy and the
prompt can be built. -/
def briefAccepted (articleData : Obj) : Bool :=
  (articleData.get "title").truthy && (articleData.get "targetKeywords").truthy
    && (articleData.get "targetAudience").truthy && articlePromptOk articleData

/-- A create request. -/
def Op.isCreate : Op → Bool
  | .generate _ _ _ _ => true
  | _ => false

/-- A create request with an accepted brief and a reply of the collaborator, or a delete
request. -/
def Op.createsOrDeletes : Op → Bool
  | .generate articleData reply _ _ => briefAccepted articleData && reply.isSome
  | .delete _ => true
  | .update _ _ _ => false

/-- A request id that is a string (what a route parameter is) or a number. -/
def JsVal.isStrOrNum : JsVal → Bool
  | .str _ => true
  | .num _ => true
  | _ => false

/-- The title of the record can be converted to a string (the log line of `getArticle`). -/
def Obj.titlePrints (a : Obj) : Prop :=
  ((a.get "title").toStr).isSome = true

/-- A complete brief with the given title, used in the examples. -/
def exampleBrief (title : String) : Obj :=
  [("title", JsVal.str title), ("targetKeywords", JsVal.arr [JsVal.str "a"]),
   ("targetAudience", JsVal.str "y"), ("userCases", JsVal.arr [])]

/-- One to three decimal digits: what `\d{1,3}` can capture. -/
def IsScoreDigits (ds : List Char) : Prop :=
  1 ≤ ds.length ∧ ds.length ≤ 3 ∧ ∀ c ∈ ds, isDigit c = true

instance (ds : List Char) : Decidable (IsScoreDigits ds) := by
  unfold IsScoreDigits; infer_instance

/-- The text `cs` starts with a match of the pattern "NN/100". -/
def SlashMatchAt (cs : List Char) : Prop :=
  ∃ ds rest, IsScoreDigits ds ∧ cs = ds ++ "/100".data ++ rest

/-- The text `cs` starts with a match of the score-label pattern: the label, a colon,
optional white space, a digit. -/
def LabelMatchAt (cs : List Char) : Prop :=
  ∃ c ws d rest, (c = '：' ∨ c = ':') ∧ (∀ w ∈ ws, isJsSpace w = true) ∧ isDigit d = true ∧
    cs = "スコア".data ++ c :: ws ++ d :: rest

/-- The text `cs` starts with a match of one of the two score patterns. -/
def ScoreMatchAt (cs : List Char) : Prop :=
  SlashMatchAt cs ∨ LabelMatchAt cs

/-- The text `cs` starts with a match of the pattern of `generateMeta` for the given label:
the label, a colon, optional white space, a character that is not a line terminator. -/
def MetaMatchAt (label cs : List Char) : Prop :=
  ∃ c ws x rest, (c = '：' ∨ c = ':') ∧ (∀ w ∈ ws, isJsSpace w = true) ∧
    isLineTerminator x = false ∧ cs = label ++ c :: ws ++ x :: rest

/-- The record `b` is the record `a`, whose `generatedArticle` is `g`, after the two values
have been merged into its metadata: the `generatedArticle.metadata` of `b` maps `metaTitle`
and `metaDescription` to them, every other metadata key reads as in the metadata of `g`
(as in the object `m` when that metadata is an object), and the other parts of
`generatedArticle` and of the record, `updatedAt` apart, are those of `a`. -/
def MetadataMerged (a g : Obj) (metaTitle metaDescription : JsVal) (b : Obj) : Prop :=
  ∃ gb mb : Obj, b.get "generatedArticle" = JsVal.obj gb ∧
    Obj.get gb "metadata" = JsVal.obj mb ∧
    Obj.get mb "metaTitle" = metaTitle ∧ Obj.get mb "metaDescription" = metaDescription ∧
    (∀ k : String, k ≠ "metaTitle" → k ≠ "metaDescription" →
      Obj.get mb k = Obj.get (Obj.get g "metadata").spreadEntries k) ∧
    (∀ (m : Obj) (k : String), Obj.get g "metadata" = JsVal.obj m → k ≠ "metaTitle" →
      k ≠ "metaDescription" → Obj.get mb k = Obj.get m k) ∧
    (∀ k : String, k ≠ "metadata" → Obj.get gb k = Obj.get g k) ∧
    (∀ k : String, k ≠ "generatedArticle" → k ≠ "updatedAt" → b.get k = a.get k)

/-! # Lemmas -/

/-! ## Decimal strings -/

theorem digitVal_digitChar (d : Nat) (h : d < 10) : digitVal (digitChar d) = d := by
  interval_cases d <;> rfl

theorem isDigit_digitChar (d : Nat) (h : d < 10) : isDigit (digitChar d) = true := by
  interval_cases d <;> rfl

theorem digitsVal_append_single (ds : List Char) (c : Char) :
    digitsVal (ds ++ [c]) = digitsVal ds * 10 + digitVal c := by
  simp [digitsVal, List.foldl_append]

theorem natDigitsAux_spec (fuel : Nat) : ∀ (n : Nat) (acc : List Char), n < fuel →
    ∃ ds : List Char, natDigitsAux fuel n acc = ds ++ acc ∧ ds ≠ [] ∧
      (∀ c ∈ ds, isDigit c = true) ∧ digitsVal ds = n := by
  induction fuel with
  | zero => intro n acc h; omega
  | succ fuel ih =>
    intro n acc h
    unfold natDigitsAux
    by_cases h0 : n / 10 = 0
    · rw [if_pos h0]
      have hn : n < 10 := by omega
      refine ⟨[digitChar (n % 10)], rfl, by simp, ?_, ?_⟩
      · intro c hc
        simp only [List.mem_singleton] at hc
        subst hc
        exact isDigit_digitChar _ (Nat.mod_lt _ (by norm_num))
      · have : n % 10 = n := Nat.mod_eq_of_lt hn
        simp [digitsVal, this, digitVal_digitChar n hn]
    · rw [if_neg h0]
      obtain ⟨ds, hds, hne, hdig, hval⟩ := ih (n / 10) (digitChar (n % 10) :: acc) (by omega)
      refine ⟨ds ++ [digitChar (n % 10)], by simp [hds], by simp, ?_, ?_⟩
      · intro c hc
        rcases List.mem_append.1 hc with hc | hc
        · exact hdig c hc
        · simp only [List.mem_singleton] at hc
          subst hc
          exact isDigit_digitChar _ (Nat.mod_lt _ (by norm_num))
      · rw [digitsVal_append_single, hval, digitVal_digitChar _ (Nat.mod_lt _ (by norm_num))]
        omega

theorem natDigits_spec (n : Nat) :
    natDigits n ≠ [] ∧ (∀ c ∈ natDigits n, isDigit c = true) ∧ digitsVal (natDigits n) = n := by
  obtain ⟨ds, hds, hne, hdig, hval⟩ := natDigitsAux_spec (n + 1) n [] (by omega)
  have : natDigits n = ds := by simp [natDigits, hds]
  rw [this]
  exact ⟨hne, hdig, hval⟩


theorem isJsSpace_of_isDigit (c : Char) (h : isDigit c = true) : isJsSpace c = false := by
  simp only [isDigit, Bool.and_eq_true, decide_eq_true_eq] at h
  simp only [isJsSpace, Bool.or_eq_false_iff, Bool.and_eq_false_imp, beq_eq_false_iff_ne,
    decide_eq_true_eq, decide_eq_false_iff_not]
  omega

theorem dropWhile_eq_self_of_all_false (p : Char → Bool) (l : List Char)
    (h : ∀ c ∈ l, p c = false) : l.dropWhile p = l := by
  cases l with
  | nil => rfl
  | cons c cs => simp [List.dropWhile, h c (List.mem_cons_self _ _)]

theorem takeWhile_eq_self_of_all (p : Char → Bool) (l : List Char)
    (h : ∀ c ∈ l, p c = true) : l.takeWhile p = l := by
  induction l with
  | nil => rfl
  | cons c cs ih =>
    simp [List.takeWhile, h c (List.mem_cons_self _ _),
      ih (fun d hd => h d (List.mem_cons_of_mem _ hd))]

theorem jsTrim_digits (ds : List Char) (h : ∀ c ∈ ds, isDigit c = true) : jsTrim ds = ds := by
  have hs : ∀ c ∈ ds, isJsSpace c = false := fun c hc => isJsSpace_of_isDigit c (h c hc)
  unfold jsTrim
  rw [dropWhile_eq_self_of_all_false _ _ hs,
    dropWhile_eq_self_of_all_false _ _ (fun c hc => hs c (List.mem_reverse.1 hc)),
    List.reverse_reverse]

theorem parseIntChars_digits (ds : List Char) (hne : ds ≠ [])
    (h : ∀ c ∈ ds, isDigit c = true) : parseIntChars ds = some (digitsVal ds : Int) := by
  have hs : ∀ c ∈ ds, isJsSpace c = false := fun c hc => isJsSpace_of_isDigit c (h c hc)
  cases ds with
  | nil => exact absurd rfl hne
  | cons c cs =>
    have hc : isDigit c = true := h c (List.mem_cons_self _ _)
    have hm : c ≠ '-' := by rintro rfl; exact absurd hc (by decide)
    have hp : c ≠ '+' := by rintro rfl; exact absurd hc (by decide)
    unfold parseIntChars
    simp only [dropWhile_eq_self_of_all_false _ _ hs, List.head?_cons]
    simp [hm, hp, takeWhile_eq_self_of_all _ _ h]

theorem parseDecimal_digits (ds : List Char) (hne : ds ≠ [])
    (h : ∀ c ∈ ds, isDigit c = true) : parseDecimal false ds = JsNum.int (digitsVal ds) := by
  have hinf : (ds == "Infinity".data) = false := by
    cases ds with
    | nil => exact absurd rfl hne
    | cons c cs =>
      have hc : isDigit c = true := h c (List.mem_cons_self _ _)
      have : c ≠ 'I' := by rintro rfl; exact absurd hc (by decide)
      simp [this]
  have hdrop : ds.dropWhile isDigit = [] := by
    rw [List.dropWhile_eq_nil_iff]; exact h
  unfold parseDecimal
  simp [hinf, hdrop, takeWhile_eq_self_of_all _ _ h, hne, parseExponent, scaleDecimal]

theorem stringToNumber_digits (ds : List Char) (hne : ds ≠ [])
    (h : ∀ c ∈ ds, isDigit c = true) :
    stringToNumber (String.mk ds) = JsNum.int (digitsVal ds) := by
  unfold stringToNumber
  simp only [jsTrim_digits ds h]
  have key := parseDecimal_digits ds hne h
  have hd : ∀ (c : Char) (rest : List Char), ds = c :: rest → isDigit c = true :=
    fun c rest e => h c (by rw [e]; exact List.mem_cons_self _ _)
  have hd2 : ∀ (c d : Char) (rest : List Char), ds = c :: d :: rest → isDigit d = true :=
    fun c d rest e => h d (by rw [e]; simp)
  split
  · exact absurd rfl hne
  · rename_i rest; exact absurd (hd2 _ _ _ rfl) (by decide)
  · rename_i rest; exact absurd (hd2 _ _ _ rfl) (by decide)
  · rename_i rest; exact absurd (hd2 _ _ _ rfl) (by decide)
  · rename_i rest; exact absurd (hd2 _ _ _ rfl) (by decide)
  · rename_i rest; exact absurd (hd2 _ _ _ rfl) (by decide)
  · rename_i rest; exact absurd (hd2 _ _ _ rfl) (by decide)
  · rename_i rest; exact absurd (hd _ _ rfl) (by decide)
  · rename_i rest; exact absurd (hd _ _ rfl) (by decide)
  · exact key

theorem numberToString_natCast (n : Nat) :
    numberToString (n : Int) = String.mk (natDigits n) := by
  simp [numberToString]

theorem numberToString_nat_eq_iff (m : Nat) (z : Int) :
    numberToString (m : Int) = numberToString z ↔ (m : Int) = z := by
  constructor
  · intro h
    rw [numberToString_natCast] at h
    by_cases hz : z < 0
    · simp only [numberToString, hz, if_true] at h
      have hd := (natDigits_spec m).2.1
      have hne := (natDigits_spec m).1
      injection h with h
      cases hm : natDigits m with
      | nil => exact absurd hm hne
      | cons c cs =>
        rw [hm] at h hd
        injection h with h1 h2
        have := hd c (List.mem_cons_self _ _)
        rw [h1] at this
        exact absurd this (by decide)
    · simp only [numberToString, hz, if_false] at h
      injection h with h
      have h1 := (natDigits_spec m).2.2
      have h2 := (natDigits_spec z.natAbs).2.2
      rw [h] at h1
      omega
  · intro h; rw [h]

theorem numberToString_nat_inj (m n : Nat) :
    numberToString (m : Int) = numberToString (n : Int) ↔ m = n := by
  rw [numberToString_nat_eq_iff]; exact Int.ofNat_inj

theorem parseInt_numberToString (n : Nat) :
    parseIntChars (numberToString (n : Int)).data = some (n : Int) := by
  rw [numberToString_natCast]
  have h := natDigits_spec n
  rw [parseIntChars_digits _ h.1 h.2.1, h.2.2]

theorem stringToNumber_numberToString (n : Nat) :
    stringToNumber (numberToString (n : Int)) = JsNum.int n := by
  rw [numberToString_natCast]
  have h := natDigits_spec n
  rw [stringToNumber_digits _ h.1 h.2.1, h.2.2]

/-! ### The two id predicates on an integer id -/

theorem idEqByString_num_str (k : Int) (t : String) :
    idEqByString (JsVal.num k) (JsVal.str t) = some (numberToString k == t) := rfl

theorem idEqByString_num_num (k z : Int) :
    idEqByString (JsVal.num k) (JsVal.num z) = some (numberToString k == numberToString z) :=
  rfl

theorem idEqByString_canonical (k n : Nat) (id : JsVal)
    (hid : id = JsVal.str (numberToString n) ∨ id = JsVal.num n) :
    idEqByString (JsVal.num k) id = some (decide (k = n)) := by
  rcases hid with rfl | rfl
  · rw [idEqByString_num_str]
    by_cases h : k = n
    · subst h; simp
    · have : numberToString (k : Int) ≠ numberToString (n : Int) :=
        fun e => h ((numberToString_nat_inj k n).1 e)
      simp [h, this]
  · rw [idEqByString_num_num]
    by_cases h : k = n
    · subst h; simp
    · have : numberToString (k : Int) ≠ numberToString (n : Int) :=
        fun e => h ((numberToString_nat_inj k n).1 e)
      simp [h, this]

theorem canonical_of_idEqByString (k : Nat) (id : JsVal) (hid : id.isStrOrNum = true)
    (h : idEqByString (JsVal.num k) id = some true) :
    id = JsVal.str (numberToString k) ∨ id = JsVal.num k := by
  cases id with
  | str t =>
    rw [idEqByString_num_str] at h
    left
    simp at h
    rw [h]
  | num z =>
    rw [idEqByString_num_num] at h
    right
    simp at h
    rw [(numberToString_nat_eq_iff k z).1 h]
  | _ => simp [JsVal.isStrOrNum] at hid

theorem idMatches_num_str (k n : Nat) (t : String)
    (h1 : stringToNumber t = JsNum.int n) (h2 : parseIntChars t.data = some (n : Int)) :
    idMatches (JsVal.num k) (JsVal.str t) (parseIntChars t.data) = some (decide (k = n)) := by
  by_cases h : k = n
  · subst h
    simp [idMatches, strictEq, looseEq, numEqStr, h1]
  · have hne : (JsNum.int (n : Int) == JsNum.int (k : Int)) = false := by
      simp; omega
    have hs : ((numberToString (k : Int)) == t) = false := by
      simp only [beq_eq_false_iff_ne, ne_eq]
      intro e
      rw [← e, stringToNumber_numberToString] at h1
      injection h1 with h1
      exact h (by omega)
    have hp : (parseIntChars t.data == some (k : Int)) = false := by
      rw [h2]; simp; omega
    simp [idMatches, strictEq, looseEq, numEqStr, h1, hne, JsVal.toStr, hs, hp, h]

theorem idMatches_num_num (k n : Nat) :
    idMatches (JsVal.num k) (JsVal.num n) (some (n : Int)) = some (decide (k = n)) := by
  by_cases h : k = n
  · subst h
    simp [idMatches, strictEq]
  · have hs : ((numberToString (k : Int)) == numberToString (n : Int)) = false := by
      simp only [beq_eq_false_iff_ne, ne_eq]
      exact fun e => h ((numberToString_nat_inj k n).1 e)
    have hne : ((k : Int) == (n : Int)) = false := by simp; omega
    have hp : ((some (n : Int)) == some (k : Int)) = false := by simp; omega
    simp [idMatches, strictEq, looseEq, JsVal.toStr, hs, hne, hp, h]

theorem jsParseInt_canonical (n : Nat) (id : JsVal)
    (hid : id = JsVal.str (numberToString n) ∨ id = JsVal.num n) :
    jsParseInt id = some (some (n : Int)) := by
  rcases hid with rfl | rfl <;> simp [jsParseInt, JsVal.toStr, parseInt_numberToString]

theorem idMatches_canonical (k n : Nat) (id : JsVal)
    (hid : id = JsVal.str (numberToString n) ∨ id = JsVal.num n) :
    idMatches (JsVal.num k) id (some (n : Int)) = some (decide (k = n)) := by
  rcases hid with rfl | rfl
  · have := idMatches_num_str k n (numberToString n) (stringToNumber_numberToString n)
      (parseInt_numberToString n)
    rwa [parseInt_numberToString] at this
  · exact idMatches_num_num k n

/-! ### `find` and `findIndex` -/

theorem jsFind_split (p : Obj → Option Bool) (l1 : List Obj) (a : Obj) (l2 : List Obj)
    (ha : p a = some true) (h1 : ∀ b ∈ l1, p b = some false) :
    jsFind p (l1 ++ a :: l2) = some (some a) := by
  induction l1 with
  | nil => simp [jsFind, ha]
  | cons b l1 ih =>
    have hb := h1 b (List.mem_cons_self _ _)
    simp only [List.cons_append, jsFind, hb]
    exact ih (fun c hc => h1 c (List.mem_cons_of_mem _ hc))

theorem jsFind_all_false (p : Obj → Option Bool) (l : List Obj)
    (h : ∀ b ∈ l, p b = some false) : jsFind p l = some none := by
  induction l with
  | nil => rfl
  | cons b l ih =>
    simp only [jsFind, h b (List.mem_cons_self _ _)]
    exact ih (fun c hc => h c (List.mem_cons_of_mem _ hc))

theorem jsFindIndex_split (p : Obj → Option Bool) (l1 : List Obj) (a : Obj) (l2 : List Obj)
    (ha : p a = some true) (h1 : ∀ b ∈ l1, p b = some false) :
    jsFindIndex p (l1 ++ a :: l2) = some (some l1.length) := by
  induction l1 with
  | nil => simp [jsFindIndex, ha]
  | cons b l1 ih =>
    have hb := h1 b (List.mem_cons_self _ _)
    have ih' := ih (fun c hc => h1 c (List.mem_cons_of_mem _ hc))
    rw [List.cons_append, jsFindIndex, hb]
    simp only [ih', List.length_cons]

theorem jsFindIndex_all_false (p : Obj → Option Bool) (l : List Obj)
    (h : ∀ b ∈ l, p b = some false) : jsFindIndex p l = some none := by
  induction l with
  | nil => rfl
  | cons b l ih =>
    simp only [jsFindIndex, h b (List.mem_cons_self _ _),
      ih (fun c hc => h c (List.mem_cons_of_mem _ hc))]

theorem jsFindIndex_some (p : Obj → Option Bool) (l : List Obj) (i : Nat)
    (h : jsFindIndex p l = some (some i)) :
    ∃ l1 a l2, l = l1 ++ a :: l2 ∧ l1.length = i ∧ p a = some true ∧
      ∀ b ∈ l1, p b = some false := by
  induction l generalizing i with
  | nil => simp [jsFindIndex] at h
  | cons b l ih =>
    rw [jsFindIndex] at h
    cases hb : p b with
    | none => rw [hb] at h; simp at h
    | some v =>
      cases v with
      | true =>
        rw [hb] at h
        simp at h
        exact ⟨[], b, l, rfl, by simp [h], hb, by simp⟩
      | false =>
        rw [hb] at h
        simp only at h
        cases hr : jsFindIndex p l with
        | none => rw [hr] at h; simp at h
        | some r =>
          cases r with
          | none => rw [hr] at h; simp at h
          | some j =>
            rw [hr] at h
            simp at h
            obtain ⟨l1, a, l2, hl, hlen, ha, h1⟩ := ih j hr
            refine ⟨b :: l1, a, l2, by simp [hl], by simp [hlen, h], ha, ?_⟩
            intro c hc
            rcases List.mem_cons.1 hc with rfl | hc
            · exact hb
            · exact h1 c hc

theorem jsFindIndex_none (p : Obj → Option Bool) (l : List Obj)
    (h : jsFindIndex p l = some none) : ∀ b ∈ l, p b = some false := by
  induction l with
  | nil => simp
  | cons b l ih =>
    rw [jsFindIndex] at h
    cases hb : p b with
    | none => rw [hb] at h; simp at h
    | some v =>
      cases v with
      | true => rw [hb] at h; simp at h
      | false =>
        rw [hb] at h
        simp only at h
        cases hr : jsFindIndex p l with
        | none => rw [hr] at h; simp at h
        | some r =>
          cases r with
          | some j => rw [hr] at h; simp at h
          | none =>
            intro c hc
            rcases List.mem_cons.1 hc with rfl | hc
            · exact hb
            · exact ih hr c hc

/-! ### Objects -/

theorem Obj.get_set_ne (o : Obj) (k k' : String) (v : JsVal) (h : k' ≠ k) :
    Obj.get (Obj.set o k v) k' = Obj.get o k' := by
  have : (k' == k) = false := by simpa using h
  simp [Obj.get, Obj.set, List.lookup, this]

theorem Obj.get_set_self (o : Obj) (k : String) (v : JsVal) :
    Obj.get (Obj.set o k v) k = v := by
  simp [Obj.get, Obj.set, List.lookup]

theorem Obj.get_spread (base over : Obj) (k : String) :
    Obj.get (Obj.spread base over) k
      = if Obj.hasKey over k then Obj.get over k else Obj.get base k := by
  unfold Obj.get Obj.spread Obj.hasKey
  rw [List.lookup_append]
  cases h : List.lookup k over <;> simp

/-! ### Lists cut at the index found -/

theorem set_split (l1 : List Obj) (a x : Obj) (l2 : List Obj) :
    (l1 ++ a :: l2).set l1.length x = l1 ++ x :: l2 := by
  induction l1 with
  | nil => rfl
  | cons b l1 ih => simp [ih]

theorem eraseIdx_split (l1 : List Obj) (a : Obj) (l2 : List Obj) :
    (l1 ++ a :: l2).eraseIdx l1.length = l1 ++ l2 := by
  induction l1 with
  | nil => rfl
  | cons b l1 ih => simp [ih]

theorem getElem?_split (l1 : List Obj) (a : Obj) (l2 : List Obj) :
    (l1 ++ a :: l2)[l1.length]? = some a := by
  induction l1 with
  | nil => simp
  | cons b l1 ih => simpa using ih

theorem modify_split (f : Obj → Obj) (l1 : List Obj) (a : Obj) (l2 : List Obj) :
    (l1 ++ a :: l2).modify f l1.length = l1 ++ f a :: l2 := by
  induction l1 with
  | nil => simp
  | cons b l1 ih => simp [ih]

/-! ### The handlers, case by case -/

theorem updateArticle_of_split (s : Store) (id : JsVal) (updates : Obj) (now : Int)
    (l1 : List Obj) (a : Obj) (l2 : List Obj) (hl : s.inMemoryArticles = l1 ++ a :: l2)
    (ha : idEqByString (a.get "_id") id = some true)
    (h1 : ∀ b ∈ l1, idEqByString (b.get "_id") id = some false) :
    articleController.updateArticle s id updates now
      = ⟨⟨l1 ++ Obj.set (Obj.spread a updates) "updatedAt" (JsVal.num now) :: l2,
          s.articleIdCounter⟩,
        ⟨200, Body.article (Obj.set (Obj.spread a updates) "updatedAt" (JsVal.num now))⟩,
        0⟩ := by
  unfold articleController.updateArticle
  rw [hl, jsFindIndex_split (fun a => idEqByString (a.get "_id") id) l1 a l2 ha h1]
  simp only [getElem?_split, set_split]

theorem updateArticle_cases (s : Store) (id : JsVal) (updates : Obj) (now : Int) :
    (∃ l1 a l2, s.inMemoryArticles = l1 ++ a :: l2 ∧
        idEqByString (a.get "_id") id = some true ∧
        (∀ b ∈ l1, idEqByString (b.get "_id") id = some false)) ∨
      ((articleController.updateArticle s id updates now).store = s ∧
        (articleController.updateArticle s id updates now).response.status ≠ 200) := by
  cases h : jsFindIndex (fun a => idEqByString (a.get "_id") id) s.inMemoryArticles with
  | none => right; simp [articleController.updateArticle, h]
  | some r =>
    cases r with
    | none => right; simp [articleController.updateArticle, h]
    | some i =>
      left
      obtain ⟨l1, a, l2, hl, _, ha, h1⟩ := jsFindIndex_some _ _ _ h
      exact ⟨l1, a, l2, hl, ha, h1⟩

theorem deleteArticle_of_split (s : Store) (id : JsVal)
    (l1 : List Obj) (a : Obj) (l2 : List Obj) (hl : s.inMemoryArticles = l1 ++ a :: l2)
    (ha : idEqByString (a.get "_id") id = some true)
    (h1 : ∀ b ∈ l1, idEqByString (b.get "_id") id = some false) :
    articleController.deleteArticle s id
      = ⟨⟨l1 ++ l2, s.articleIdCounter⟩, ⟨200, Body.deleted⟩, 0⟩ := by
  unfold articleController.deleteArticle
  rw [hl, jsFindIndex_split (fun a => idEqByString (a.get "_id") id) l1 a l2 ha h1]
  simp only [eraseIdx_split]

theorem deleteArticle_cases (s : Store) (id : JsVal) :
    (∃ l1 a l2, s.inMemoryArticles = l1 ++ a :: l2 ∧
        idEqByString (a.get "_id") id = some true ∧
        (∀ b ∈ l1, idEqByString (b.get "_id") id = some false)) ∨
      ((articleController.deleteArticle s id).store = s ∧
        (articleController.deleteArticle s id).response.status ≠ 200) := by
  cases h : jsFindIndex (fun a => idEqByString (a.get "_id") id) s.inMemoryArticles with
  | none => right; simp [articleController.deleteArticle, h]
  | some r =>
    cases r with
    | none => right; simp [articleController.deleteArticle, h]
    | some i =>
      left
      obtain ⟨l1, a, l2, hl, _, ha, h1⟩ := jsFindIndex_some _ _ _ h
      exact ⟨l1, a, l2, hl, ha, h1⟩

/-- The record that `generateArticle` stores. -/
theorem generateArticle_cases (s : Store) (articleData : Obj) (reply : LlmReply)
    (tCreated tUpdated : Int) :
    (∃ article generated calls,
        articleController.generateArticle s articleData reply tCreated tUpdated
          = ⟨⟨s.inMemoryArticles ++ [article], s.articleIdCounter + 1⟩,
              ⟨201, Body.created (JsVal.num s.articleIdCounter) generated⟩, calls⟩ ∧
        article.get "_id" = JsVal.num s.articleIdCounter) ∨
      ((articleController.generateArticle s articleData reply tCreated tUpdated).store = s ∧
        (articleController.generateArticle s articleData reply tCreated tUpdated).response.createdId
          = none ∧
        (articleController.generateArticle s articleData reply tCreated tUpdated).response.status
          ≠ 201) := by
  unfold articleController.generateArticle
  split
  · right; simp [Response.createdId]
  · split
    · right; simp [Response.createdId]
    · left
      exact ⟨_, _, _, rfl, rfl⟩

/-! ### Stores with distinct integer ids -/

/-- Cutting a store with integer ids: the ids are cut along. -/
theorem ids_split (l1 : List Obj) (a : Obj) (l2 : List Obj) (ns : List Nat)
    (h : (l1 ++ a :: l2).map (fun a => a.get "_id") = ns.map (fun n : Nat => JsVal.num (n : Int))) :
    ∃ (ns1 : List Nat) (k : Nat) (ns2 : List Nat), ns = ns1 ++ k :: ns2 ∧
      l1.map (fun a => a.get "_id") = ns1.map (fun n : Nat => JsVal.num (n : Int)) ∧
      a.get "_id" = JsVal.num k ∧
      l2.map (fun a => a.get "_id") = ns2.map (fun n : Nat => JsVal.num (n : Int)) := by
  rw [List.map_append, List.map_cons] at h
  obtain ⟨ns1, r, hns, h1, hr⟩ := List.map_eq_append_iff.1 h.symm
  obtain ⟨k, ns2, hr2, hk, h2⟩ := List.map_eq_cons_iff.1 hr
  exact ⟨ns1, k, ns2, by rw [hns, hr2], h1.symm, hk.symm, h2.symm⟩

theorem id_of_mem (l : List Obj) (ns : List Nat)
    (h : l.map (fun a => a.get "_id") = ns.map (fun n : Nat => JsVal.num (n : Int))) (b : Obj)
    (hb : b ∈ l) : ∃ k ∈ ns, b.get "_id" = JsVal.num k := by
  have : b.get "_id" ∈ l.map (fun a => a.get "_id") := List.mem_map_of_mem _ hb
  rw [h] at this
  obtain ⟨k, hk, e⟩ := List.mem_map.1 this
  exact ⟨k, hk, e.symm⟩

theorem get_id_updated (a updates : Obj) (now : Int)
    (h : Obj.hasKey updates "_id" = false) :
    Obj.get (Obj.set (Obj.spread a updates) "updatedAt" (JsVal.num now)) "_id"
      = Obj.get a "_id" := by
  rw [Obj.get_set_ne _ _ _ _ (by decide), Obj.get_spread, h]
  simp

theorem step_keeps_invariant (s : Store) (op : Op) (hop : op.keepsId)
    (hs : s.IdsBelowCounter) : (step s op).store.IdsBelowCounter := by
  obtain ⟨ns, hids, hnd, hlt⟩ := hs
  cases op with
  | generate articleData reply tCreated tUpdated =>
    rcases generateArticle_cases s articleData reply tCreated tUpdated with
      ⟨article, generated, calls, h, hid⟩ | ⟨h1, _, _⟩
    · simp only [step, h]
      refine ⟨ns ++ [s.articleIdCounter], ?_, ?_, ?_⟩
      · simp only [Store.ids, List.map_append, List.map_cons, List.map_nil, hid]
        rw [← hids]; rfl
      · rw [List.nodup_append]
        refine ⟨hnd, by simp, ?_⟩
        intro x hx hx'
        simp only [List.mem_singleton] at hx'
        have := hlt x hx
        omega
      · intro n hn
        show n < s.articleIdCounter + 1
        rcases List.mem_append.1 hn with hn | hn
        · have := hlt n hn; omega
        · simp only [List.mem_singleton] at hn; omega
    · simp only [step, h1]
      exact ⟨ns, hids, hnd, hlt⟩
  | update id updates now =>
    rcases updateArticle_cases s id updates now with ⟨l1, a, l2, hl, ha, h1⟩ | ⟨h, _⟩
    · simp only [step, updateArticle_of_split s id updates now l1 a l2 hl ha h1]
      refine ⟨ns, ?_, hnd, hlt⟩
      rw [← hids]
      simp only [Store.ids, hl, List.map_append, List.map_cons]
      rw [get_id_updated a updates now hop]
    · simp only [step, h]
      exact ⟨ns, hids, hnd, hlt⟩
  | delete id =>
    rcases deleteArticle_cases s id with ⟨l1, a, l2, hl, ha, h1⟩ | ⟨h, _⟩
    · simp only [step, deleteArticle_of_split s id l1 a l2 hl ha h1]
      simp only [Store.ids, hl] at hids
      obtain ⟨ns1, k, ns2, hns, e1, _, e2⟩ := ids_split l1 a l2 ns hids
      subst hns
      refine ⟨ns1 ++ ns2, ?_, ?_, ?_⟩
      · simp only [Store.ids, List.map_append, e1, e2]
      · exact hnd.sublist
          (List.Sublist.append (List.Sublist.refl ns1) (List.sublist_cons_self k ns2))
      · intro n hn
        exact hlt n (by
          rcases List.mem_append.1 hn with hn | hn
          · exact List.mem_append_left _ hn
          · exact List.mem_append_right _ (List.mem_cons_of_mem _ hn))
    · simp only [step, h]
      exact ⟨ns, hids, hnd, hlt⟩

theorem run_keeps_invariant (ops : List Op) : ∀ s : Store, (∀ op ∈ ops, op.keepsId) →
    s.IdsBelowCounter → (run s ops).1.IdsBelowCounter := by
  induction ops with
  | nil => intro s _ hs; exact hs
  | cons op ops ih =>
    intro s hops hs
    simp only [run]
    exact ih _ (fun o ho => hops o (List.mem_cons_of_mem _ ho))
      (step_keeps_invariant s op (hops op (List.mem_cons_self _ _)) hs)

theorem init_invariant : Store.init.IdsBelowCounter :=
  ⟨[], rfl, List.nodup_nil, by simp⟩

/-- Reading a store with distinct integer ids by a request id that stands for `n`. -/
theorem getArticle_found (s : Store) (hs : s.DistinctIds) (l1 : List Obj) (a : Obj)
    (l2 : List Obj) (hl : s.inMemoryArticles = l1 ++ a :: l2) (n : Nat)
    (hn : a.get "_id" = JsVal.num (n : Int)) (ht : a.titlePrints) (id : JsVal)
    (hparse : jsParseInt id = some (some (n : Int)))
    (hmatch : ∀ k : Nat, idMatches (JsVal.num (k : Int)) id (some (n : Int))
      = some (decide (k = n))) :
    articleController.getArticle s id = ⟨200, Body.article a⟩ := by
  obtain ⟨ns, hids, hnd⟩ := hs
  simp only [Store.ids, hl] at hids
  obtain ⟨ns1, k, ns2, hns, e1, ek, _⟩ := ids_split l1 a l2 ns hids
  have hkn : k = n := by
    rw [hn] at ek
    injection ek with ek
    exact (Int.ofNat_inj.1 ek).symm
  subst hkn
  subst hns
  have hnot : k ∉ ns1 := by
    have := List.nodup_middle.1 hnd
    exact fun h => (List.nodup_cons.1 this).1 (List.mem_append_left _ h)
  unfold articleController.getArticle
  rw [hparse]
  simp only
  rw [hl, jsFind_split _ l1 a l2 (by simp only [hn, hmatch]; simp)]
  · unfold Obj.titlePrints at ht
    cases htt : (a.get "title").toStr with
    | none => rw [htt] at ht; simp at ht
    | some _ => simp only [htt]
  · intro b hb
    obtain ⟨k', hk', e⟩ := id_of_mem l1 ns1 e1 b hb
    simp only [e, hmatch]
    have : k' ≠ k := fun h => hnot (h ▸ hk')
    simp [this]

/-- No record of a store with integer ids other than `n` is found by a request id that
stands for `n`. -/
theorem getArticle_notFound (s : Store) (ns : List Nat)
    (hids : s.ids = ns.map (fun k : Nat => JsVal.num (k : Int))) (n : Nat) (hn : n ∉ ns)
    (id : JsVal) (hparse : jsParseInt id = some (some (n : Int)))
    (hmatch : ∀ k : Nat, idMatches (JsVal.num (k : Int)) id (some (n : Int))
      = some (decide (k = n))) :
    articleController.getArticle s id = ⟨404, Body.error⟩ := by
  unfold articleController.getArticle
  rw [hparse]
  simp only
  rw [jsFind_all_false]
  intro b hb
  obtain ⟨k', hk', e⟩ := id_of_mem s.inMemoryArticles ns hids b hb
  simp only [e, hmatch]
  have : k' ≠ n := fun h => hn (h ▸ hk')
  simp [this]

/-! # The claims -/

/-! ## C1: ids are assigned in sequence -/

theorem deleteArticle_counter (s : Store) (id : JsVal) :
    (articleController.deleteArticle s id).store.articleIdCounter = s.articleIdCounter := by
  unfold articleController.deleteArticle
  split <;> rfl

theorem updateArticle_counter (s : Store) (id : JsVal) (updates : Obj) (now : Int) :
    (articleController.updateArticle s id updates now).store.articleIdCounter
      = s.articleIdCounter := by
  unfold articleController.updateArticle
  split
  · rfl
  · rfl
  · split <;> rfl

theorem deleteArticle_createdId (s : Store) (id : JsVal) :
    (articleController.deleteArticle s id).response.createdId = none := by
  unfold articleController.deleteArticle
  split <;> rfl

theorem updateArticle_createdId (s : Store) (id : JsVal) (updates : Obj) (now : Int) :
    (articleController.updateArticle s id updates now).response.createdId = none := by
  unfold articleController.updateArticle
  split
  · rfl
  · rfl
  · split <;> rfl

theorem generateArticle_counter (s : Store) (articleData : Obj) (reply : LlmReply)
    (tCreated tUpdated : Int) :
    ((articleController.generateArticle s articleData reply tCreated tUpdated).response.status
          = 201 ∧
        (articleController.generateArticle s articleData reply tCreated tUpdated).response.createdId
          = some (JsVal.num s.articleIdCounter) ∧
        (articleController.generateArticle s articleData reply tCreated tUpdated).store.articleIdCounter
          = s.articleIdCounter + 1) ∨
      ((articleController.generateArticle s articleData reply tCreated tUpdated).response.status
          ≠ 201 ∧
        (articleController.generateArticle s articleData reply tCreated tUpdated).response.createdId
          = none ∧
        (articleController.generateArticle s articleData reply tCreated tUpdated).store = s) := by
  rcases generateArticle_cases s articleData reply tCreated tUpdated with
    ⟨article, generated, calls, h, _⟩ | ⟨h1, h2, h3⟩
  · left; rw [h]; exact ⟨rfl, rfl, rfl⟩
  · right; exact ⟨h3, h2, h1⟩

theorem step_counter (s : Store) (op : Op) :
    ((step s op).response.createdId = some (JsVal.num s.articleIdCounter) ∧
        (step s op).store.articleIdCounter = s.articleIdCounter + 1) ∨
      ((step s op).response.createdId = none ∧
        (step s op).store.articleIdCounter = s.articleIdCounter) := by
  cases op with
  | generate articleData reply tCreated tUpdated =>
    rcases generateArticle_counter s articleData reply tCreated tUpdated with h | h
    · exact Or.inl ⟨h.2.1, h.2.2⟩
    · exact Or.inr ⟨h.2.1, by rw [step, h.2.2]⟩
  | update id updates now =>
    exact Or.inr ⟨updateArticle_createdId s id updates now, updateArticle_counter s id updates now⟩
  | delete id =>
    exact Or.inr ⟨deleteArticle_createdId s id, deleteArticle_counter s id⟩

theorem run_createdIds (ops : List Op) : ∀ s : Store,
    (run s ops).2.filterMap Response.createdId
        = (List.range ((run s ops).2.filterMap Response.createdId).length).map
            (fun i => JsVal.num ((s.articleIdCounter + i : Nat) : Int)) ∧
      (run s ops).1.articleIdCounter
        = s.articleIdCounter + ((run s ops).2.filterMap Response.createdId).length := by
  induction ops with
  | nil => intro s; simp [run]
  | cons op ops ih =>
    intro s
    obtain ⟨ih1, ih2⟩ := ih (step s op).store
    simp only [run]
    rcases step_counter s op with ⟨hid, hc⟩ | ⟨hid, hc⟩
    · rw [List.filterMap_cons_some hid]
      rw [hc] at ih1 ih2
      constructor
      · rw [List.length_cons, List.range_succ_eq_map, List.map_cons, List.map_map]
        congr 1
        rw [ih1]
        simp only [List.length_map, List.length_range]
        apply List.map_congr_left
        intro i _
        simp only [Function.comp, Nat.succ_eq_add_one]
        congr 2
        omega
      · rw [ih2, List.length_cons]; omega
    · rw [List.filterMap_cons_none hid]
      rw [hc] at ih1 ih2
      exact ⟨ih1, ih2⟩

theorem generateArticle_accepted (s : Store) (articleData : Obj) (text : String)
    (tCreated tUpdated : Int) (h : briefAccepted articleData = true) :
    ∃ article generated,
      articleController.generateArticle s articleData (some text) tCreated tUpdated
        = ⟨⟨s.inMemoryArticles ++ [article], s.articleIdCounter + 1⟩,
            ⟨201, Body.created (JsVal.num s.articleIdCounter) generated⟩, 1⟩ ∧
      article.get "_id" = JsVal.num s.articleIdCounter := by
  simp only [briefAccepted, Bool.and_eq_true] at h
  obtain ⟨⟨⟨h1, h2⟩, h3⟩, h4⟩ := h
  unfold articleController.generateArticle
  rw [if_neg (by simp [h1, h2, h3])]
  simp only [articleService.generateArticle, h4, if_true]
  exact ⟨_, _, rfl, rfl⟩

theorem run_created_length (ops : List Op) : ∀ s : Store,
    (∀ op ∈ ops, op.createsOrDeletes = true) →
    ((run s ops).2.filterMap Response.createdId).length = ops.countP Op.isCreate := by
  induction ops with
  | nil => intro s _; rfl
  | cons op ops ih =>
    intro s hops
    have ih' := ih (step s op).store (fun o ho => hops o (List.mem_cons_of_mem _ ho))
    have hop := hops op (List.mem_cons_self _ _)
    simp only [run]
    cases op with
    | generate articleData reply tCreated tUpdated =>
      simp only [Op.createsOrDeletes, Bool.and_eq_true] at hop
      obtain ⟨text, rfl⟩ := Option.isSome_iff_exists.1 hop.2
      obtain ⟨article, generated, h, _⟩ :=
        generateArticle_accepted s articleData text tCreated tUpdated hop.1
      have hid : (step s (Op.generate articleData (some text) tCreated tUpdated)).response.createdId
          = some (JsVal.num s.articleIdCounter) := by
        simp only [step, h]; rfl
      rw [List.filterMap_cons_some hid, List.length_cons, ih',
        List.countP_cons_of_pos _ _ (by rfl)]
    | update id updates now => exact absurd hop (by simp [Op.createsOrDeletes])
    | delete id =>
      have hid : (step s (Op.delete id)).response.createdId = none :=
        deleteArticle_createdId s id
      rw [List.filterMap_cons_none hid, ih', List.countP_cons_of_neg _ _ (by simp [Op.isCreate])]

theorem createsOrDeletes_keepsId (op : Op) (h : op.createsOrDeletes = true) : op.keepsId := by
  cases op with
  | generate _ _ _ _ => trivial
  | update _ _ _ => exact absurd h (by simp [Op.createsOrDeletes])
  | delete _ => trivial

/-- C1. Ids of the In-Process Store. A delete leaves the counter unchanged. A create whose
brief is accepted and whose collaborator replies is answered 201 with the current counter
value as the id, appends one record whose `_id` is that value and adds one to the counter;
every create either does exactly this or leaves the store and the counter untouched and
returns no id. Hence, for every sequence of such creates and of deletes from the empty store
with the counter at 1, the k-th create returns k (the ids returned are 1, 2, ..., as many as
there are creates), the counter ends one above the number of creates, and the ids of the
stored records are pairwise distinct and below the counter; the same holds of the creates
answered 201 in any sequence of requests. And an id is not assigned again: the id of a
record held by the store at any moment is below every id returned by a later create, whether
or not the record has been deleted in between. -/
theorem create_ids_sequential :
    (∀ (s : Store) (id : JsVal),
      (articleController.deleteArticle s id).store.articleIdCounter = s.articleIdCounter) ∧
    (∀ (s : Store) (articleData : Obj) (text : String) (tCreated tUpdated : Int),
      briefAccepted articleData = true →
      ∃ article generated,
        articleController.generateArticle s articleData (some text) tCreated tUpdated
          = ⟨⟨s.inMemoryArticles ++ [article], s.articleIdCounter + 1⟩,
              ⟨201, Body.created (JsVal.num s.articleIdCounter) generated⟩, 1⟩ ∧
        article.get "_id" = JsVal.num s.articleIdCounter) ∧
    (∀ (s : Store) (articleData : Obj) (reply : LlmReply) (tCreated tUpdated : Int),
      (∃ article generated calls,
          articleController.generateArticle s articleData reply tCreated tUpdated
            = ⟨⟨s.inMemoryArticles ++ [article], s.articleIdCounter + 1⟩,
                ⟨201, Body.created (JsVal.num s.articleIdCounter) generated⟩, calls⟩ ∧
          article.get "_id" = JsVal.num s.articleIdCounter) ∨
        ((articleController.generateArticle s articleData reply tCreated tUpdated).response.status
            ≠ 201 ∧
          (articleController.generateArticle s articleData reply tCreated
            tUpdated).response.createdId = none ∧
          (articleController.generateArticle s articleData reply tCreated tUpdated).store = s)) ∧
    (∀ ops : List Op, (∀ op ∈ ops, op.createsOrDeletes = true) →
      (run Store.init ops).2.filterMap Response.createdId
          = (List.range (ops.countP Op.isCreate)).map (fun i => JsVal.num ((i + 1 : Nat) : Int)) ∧
        (run Store.init ops).1.articleIdCounter = ops.countP Op.isCreate + 1 ∧
        (run Store.init ops).1.IdsBelowCounter) ∧
    (∀ ops : List Op,
      (run Store.init ops).2.filterMap Response.createdId
          = (List.range ((run Store.init ops).2.filterMap Response.createdId).length).map
              (fun i => JsVal.num ((i + 1 : Nat) : Int)) ∧
        (run Store.init ops).1.articleIdCounter
          = ((run Store.init ops).2.filterMap Response.createdId).length + 1) ∧
    (∀ ops1 ops2 : List Op, (∀ op ∈ ops1, op.keepsId) →
      ∀ a ∈ (run Store.init ops1).1.inMemoryArticles,
      ∀ id ∈ (run (run Store.init ops1).1 ops2).2.filterMap Response.createdId,
        ∃ n m : Nat, a.get "_id" = JsVal.num (n : Int) ∧ id = JsVal.num (m : Int) ∧ n < m) := by
  have hall : ∀ ops : List Op,
      (run Store.init ops).2.filterMap Response.createdId
          = (List.range ((run Store.init ops).2.filterMap Response.createdId).length).map
              (fun i => JsVal.num ((i + 1 : Nat) : Int)) ∧
        (run Store.init ops).1.articleIdCounter
          = ((run Store.init ops).2.filterMap Response.createdId).length + 1 := by
    intro ops
    obtain ⟨h1, h2⟩ := run_createdIds ops Store.init
    constructor
    · rw [h1]
      simp only [List.length_map, List.length_range]
      apply List.map_congr_left
      intro i _
      simp [Store.init, Nat.add_comm]
    · rw [h2]; simp [Store.init, Nat.add_comm]
  refine ⟨deleteArticle_counter, generateArticle_accepted, ?_, ?_, hall, ?_⟩
  · intro s articleData reply tCreated tUpdated
    rcases generateArticle_cases s articleData reply tCreated tUpdated with h | ⟨h1, h2, h3⟩
    · exact Or.inl h
    · exact Or.inr ⟨h3, h2, h1⟩
  · intro ops hops
    obtain ⟨h1, h2⟩ := hall ops
    have hlen := run_created_length ops Store.init hops
    rw [hlen] at h1 h2
    exact ⟨h1, h2, run_keeps_invariant ops Store.init
      (fun op hop => createsOrDeletes_keepsId op (hops op hop)) init_invariant⟩
  · intro ops1 ops2 hops a ha id hid
    obtain ⟨ns, hids, _, hlt⟩ := run_keeps_invariant ops1 Store.init hops init_invariant
    obtain ⟨n, hn, hna⟩ := id_of_mem _ ns hids a ha
    obtain ⟨h1, _⟩ := run_createdIds ops2 (run Store.init ops1).1
    rw [h1] at hid
    obtain ⟨i, _, hi⟩ := List.mem_map.1 hid
    exact ⟨n, (run Store.init ops1).1.articleIdCounter + i, hna, hi.symm, by
      have := hlt n hn
      omega⟩

theorem create_ids_sequential_witness :
    ((run Store.init
        [Op.generate (exampleBrief "A") (some "a") 5 5,
         Op.generate (exampleBrief "B") (some "b") 6 6,
         Op.delete (JsVal.str "1"),
         Op.generate (exampleBrief "C") (some "c") 7 7]).2.filterMap Response.createdId
      = [JsVal.num 1, JsVal.num 2, JsVal.num 3] ∧
     (run Store.init
        [Op.generate (exampleBrief "A") (some "a") 5 5,
         Op.generate (exampleBrief "B") (some "b") 6 6,
         Op.delete (JsVal.str "1"),
         Op.generate (exampleBrief "C") (some "c") 7 7]).1.articleIdCounter = 4 ∧
     (run Store.init
        [Op.generate (exampleBrief "A") (some "a") 5 5,
         Op.generate (exampleBrief "B") (some "b") 6 6,
         Op.delete (JsVal.str "1"),
         Op.generate (exampleBrief "C") (some "c") 7 7]).1.IdsBelowCounter) ∧
    (run Store.init
        [Op.generate (exampleBrief "A") (some "a") 5 5,
         Op.generate (exampleBrief "B") (some "b") 6 6,
         Op.delete (JsVal.str "1"),
         Op.generate (exampleBrief "C") (some "c") 7 7]).1.ids = [JsVal.num 2, JsVal.num 3] ∧
    (run Store.init
        [Op.generate (exampleBrief "A") (some "a") 5 5,
         Op.generate (exampleBrief "B") (some "b") 6 6,
         Op.delete (JsVal.str "1"),
         Op.generate (exampleBrief "C") (some "c") 7 7]).2.map Response.status
      = [201, 201, 200, 201] ∧
    (∀ a ∈ (run Store.init
        [Op.generate (exampleBrief "A") (some "a") 5 5]).1.inMemoryArticles,
      ∀ id ∈ (run (run Store.init [Op.generate (exampleBrief "A") (some "a") 5 5]).1
          [Op.delete (JsVal.str "1"),
           Op.generate (exampleBrief "B") (some "b") 6 6]).2.filterMap Response.createdId,
        ∃ n m : Nat, a.get "_id" = JsVal.num (n : Int) ∧ id = JsVal.num (m : Int) ∧ n < m) ∧
    (run (run Store.init [Op.generate (exampleBrief "A") (some "a") 5 5]).1
          [Op.delete (JsVal.str "1"),
           Op.generate (exampleBrief "B") (some "b") 6 6]).1.ids = [JsVal.num 2] :=
  ⟨create_ids_sequential.2.2.2.1
      [Op.generate (exampleBrief "A") (some "a") 5 5,
       Op.generate (exampleBrief "B") (some "b") 6 6,
       Op.delete (JsVal.str "1"),
       Op.generate (exampleBrief "C") (some "c") 7 7] (by decide),
    rfl, rfl,
    create_ids_sequential.2.2.2.2.2 [Op.generate (exampleBrief "A") (some "a") 5 5]
      [Op.delete (JsVal.str "1"), Op.generate (exampleBrief "B") (some "b") 6 6] (by decide),
    rfl⟩

/-! ## C2: lookup by number or string -/

/-- C2 as stated fails twice. After an update whose body names `_id`, the store holds two
records with id 2 and a read of 2 answers with the one that was created with id 1, not the one
created with id 2. And in a store built by creates and deletes alone, holding the records 1
and 10, the string "1e1" is numerically equal to 10 but a read of it answers with record 1. -/
theorem read_by_id_counterexample :
    (∃ a b r,
      (run Store.init
        [Op.generate (exampleBrief "A") (some "Hello") 1 1,
         Op.generate (exampleBrief "B") (some "Hello") 2 2,
         Op.update (JsVal.str "1") [("_id", JsVal.num 2)] 3]).1.inMemoryArticles = [a, b] ∧
      b.get "_id" = JsVal.num 2 ∧ b.get "title" = JsVal.str "B" ∧
      articleController.getArticle
        (run Store.init
          [Op.generate (exampleBrief "A") (some "Hello") 1 1,
           Op.generate (exampleBrief "B") (some "Hello") 2 2,
           Op.update (JsVal.str "1") [("_id", JsVal.num 2)] 3]).1 (JsVal.num 2)
        = ⟨200, Body.article r⟩ ∧
      r.get "title" = JsVal.str "A") ∧
    (∃ a b,
      (run Store.init
        ((List.range 10).map (fun i => Op.generate (exampleBrief "A") (some "Hello") i i)
          ++ (List.range 8).map (fun i => Op.delete (JsVal.num (i + 2))))).1.inMemoryArticles
        = [a, b] ∧
      a.get "_id" = JsVal.num 1 ∧ b.get "_id" = JsVal.num 10 ∧
      stringToNumber "1e1" = JsNum.int 10 ∧
      articleController.getArticle
        (run Store.init
          ((List.range 10).map (fun i => Op.generate (exampleBrief "A") (some "Hello") i i)
            ++ (List.range 8).map (fun i => Op.delete (JsVal.num (i + 2))))).1 (JsVal.str "1e1")
        = ⟨200, Body.article a⟩) :=
  ⟨⟨_, _, _, rfl, rfl, rfl, rfl, rfl⟩, ⟨_, _, rfl, rfl, rfl, rfl, rfl⟩⟩

/-- C2, amended. In every store whose records carry pairwise distinct integer ids (as they do
as long as no update names `_id`), a record with id `n` whose title can be printed is what a
read answers with when the requested id is the number `n`, when it is the decimal string of
`n`, and when it is a string that both generic numeric coercion and `parseInt(_, 10)` turn
into `n`. -/
theorem read_by_number_or_string (s : Store) (hs : s.DistinctIds) (a : Obj) (n : Nat)
    (ha : a ∈ s.inMemoryArticles) (hn : a.get "_id" = JsVal.num (n : Int))
    (ht : a.titlePrints) :
    articleController.getArticle s (JsVal.num (n : Int)) = ⟨200, Body.article a⟩ ∧
    articleController.getArticle s (JsVal.str (numberToString (n : Int)))
      = ⟨200, Body.article a⟩ ∧
    ∀ t : String, stringToNumber t = JsNum.int (n : Int) →
      parseIntChars t.data = some (n : Int) →
      articleController.getArticle s (JsVal.str t) = ⟨200, Body.article a⟩ := by
  obtain ⟨l1, l2, hl⟩ := List.append_of_mem ha
  refine ⟨?_, ?_, ?_⟩
  · exact getArticle_found s hs l1 a l2 hl n hn ht _
      (jsParseInt_canonical n _ (Or.inr rfl))
      (fun k => idMatches_canonical k n _ (Or.inr rfl))
  · exact getArticle_found s hs l1 a l2 hl n hn ht _
      (jsParseInt_canonical n _ (Or.inl rfl))
      (fun k => idMatches_canonical k n _ (Or.inl rfl))
  · intro t h1 h2
    refine getArticle_found s hs l1 a l2 hl n hn ht _ (by simp [jsParseInt, JsVal.toStr, h2])
      (fun k => ?_)
    have := idMatches_num_str k n t h1 h2
    rwa [h2] at this

theorem read_by_number_or_string_witness :
    articleController.getArticle
        (run Store.init
          [Op.generate (exampleBrief "A") (some "Hello") 1 1,
           Op.generate (exampleBrief "B") (some "Hello") 2 2]).1 (JsVal.num 2)
      = ⟨200, Body.article
          ((run Store.init
            [Op.generate (exampleBrief "A") (some "Hello") 1 1,
             Op.generate (exampleBrief "B") (some "Hello") 2 2]).1.inMemoryArticles.get
              ⟨1, by decide⟩)⟩ ∧
    articleController.getArticle
        (run Store.init
          [Op.generate (exampleBrief "A") (some "Hello") 1 1,
           Op.generate (exampleBrief "B") (some "Hello") 2 2]).1 (JsVal.str "2")
      = ⟨200, Body.article
          ((run Store.init
            [Op.generate (exampleBrief "A") (some "Hello") 1 1,
             Op.generate (exampleBrief "B") (some "Hello") 2 2]).1.inMemoryArticles.get
              ⟨1, by decide⟩)⟩ ∧
    articleController.getArticle
        (run Store.init
          [Op.generate (exampleBrief "A") (some "Hello") 1 1,
           Op.generate (exampleBrief "B") (some "Hello") 2 2]).1 (JsVal.str " 02.0 ")
      = ⟨200, Body.article
          ((run Store.init
            [Op.generate (exampleBrief "A") (some "Hello") 1 1,
             Op.generate (exampleBrief "B") (some "Hello") 2 2]).1.inMemoryArticles.get
              ⟨1, by decide⟩)⟩ :=
  have h := read_by_number_or_string
    (run Store.init
      [Op.generate (exampleBrief "A") (some "Hello") 1 1,
       Op.generate (exampleBrief "B") (some "Hello") 2 2]).1
    ⟨[1, 2], rfl, by decide⟩
    ((run Store.init
      [Op.generate (exampleBrief "A") (some "Hello") 1 1,
       Op.generate (exampleBrief "B") (some "Hello") 2 2]).1.inMemoryArticles.get
        ⟨1, by decide⟩)
    2 (List.get_mem _ _ _) rfl rfl
  ⟨h.1, h.2.1, h.2.2 " 02.0 " (by decide) (by decide)⟩

/-! ## C3: delete, then read -/

/-- C3 as stated fails: an update whose body names `_id` gives the first record the id of the
second; deleting id 2 then removes the first of them and a read of id 2 still finds one. -/
theorem delete_then_read_counterexample :
    (articleController.deleteArticle
        (run Store.init
          [Op.generate (exampleBrief "A") (some "Hello") 1 1,
           Op.generate (exampleBrief "B") (some "Hello") 2 2,
           Op.update (JsVal.str "1") [("_id", JsVal.num 2)] 3]).1
        (JsVal.str "2")).response.status = 200 ∧
    (articleController.getArticle
        (articleController.deleteArticle
          (run Store.init
            [Op.generate (exampleBrief "A") (some "Hello") 1 1,
             Op.generate (exampleBrief "B") (some "Hello") 2 2,
             Op.update (JsVal.str "1") [("_id", JsVal.num 2)] 3]).1
          (JsVal.str "2")).store
        (JsVal.str "2")).status = 200 := by
  decide

/-- C3, amended. For every store reached from the empty store through generate, delete and
update requests whose bodies do not name `_id`, and every request id (a string or a number):
if the delete of that id succeeds, a read of the same id on the resulting store answers 404. -/
theorem delete_then_read_notFound (ops : List Op) (hops : ∀ op ∈ ops, op.keepsId)
    (id : JsVal) (hid : id.isStrOrNum = true)
    (hdel : (articleController.deleteArticle (run Store.init ops).1 id).response.status
      = 200) :
    (articleController.getArticle
      (articleController.deleteArticle (run Store.init ops).1 id).store id).status = 404 := by
  obtain ⟨ns, hids, hnd, _⟩ := run_keeps_invariant ops Store.init hops init_invariant
  rcases deleteArticle_cases (run Store.init ops).1 id with ⟨l1, a, l2, hl, ha, h1⟩ | ⟨_, h⟩
  · rw [deleteArticle_of_split _ id l1 a l2 hl ha h1]
    simp only [Store.ids, hl] at hids
    obtain ⟨ns1, k, ns2, hns, e1, ek, e2⟩ := ids_split l1 a l2 ns hids
    subst hns
    rw [ek] at ha
    have hcan := canonical_of_idEqByString k id hid ha
    have hnot : k ∉ ns1 ++ ns2 := (List.nodup_cons.1 (List.nodup_middle.1 hnd)).1
    rw [getArticle_notFound _ (ns1 ++ ns2) (by simp [Store.ids, e1, e2]) k hnot id
      (jsParseInt_canonical k id hcan) (fun k' => idMatches_canonical k' k id hcan)]
  · exact absurd hdel h

theorem delete_then_read_notFound_witness :
    (articleController.getArticle
      (articleController.deleteArticle
        (run Store.init
          [Op.generate (exampleBrief "A") (some "Hello") 1 1,
           Op.generate (exampleBrief "B") (some "Hello") 2 2,
           Op.update (JsVal.str "1") [("seoScore", JsVal.num 80)] 3]).1
        (JsVal.str "2")).store (JsVal.str "2")).status = 404 :=
  delete_then_read_notFound _ (by decide) (JsVal.str "2") rfl (by decide)

/-! ## C4: the update merge -/

/-- C4 as stated fails three ways. An update in the millisecond of the creation leaves
`updatedAt` equal to its previous value, not strictly greater. A body that names `updatedAt`
does not get its value stored. A body that names `_id` moves the record to another id, so a
read of the requested id no longer finds it. -/
theorem update_merge_counterexample :
    (∃ r,
      articleController.getArticle
        (articleController.updateArticle
          (run Store.init [Op.generate (exampleBrief "A") (some "Hello") 5 5]).1
          (JsVal.str "1") [("seoScore", JsVal.num 80)] 5).store (JsVal.str "1")
        = ⟨200, Body.article r⟩ ∧
      r.get "seoScore" = JsVal.num 80 ∧ r.get "updatedAt" = JsVal.num 5 ∧
      ∃ a, (run Store.init [Op.generate (exampleBrief "A") (some "Hello") 5 5]).1.inMemoryArticles
          = [a] ∧ a.get "updatedAt" = JsVal.num 5) ∧
    (∃ r,
      articleController.getArticle
        (articleController.updateArticle
          (run Store.init [Op.generate (exampleBrief "A") (some "Hello") 5 5]).1
          (JsVal.str "1") [("updatedAt", JsVal.num 1)] 9).store (JsVal.str "1")
        = ⟨200, Body.article r⟩ ∧
      r.get "updatedAt" = JsVal.num 9) ∧
    (articleController.updateArticle
        (run Store.init [Op.generate (exampleBrief "A") (some "Hello") 5 5]).1
        (JsVal.str "1") [("_id", JsVal.num 7)] 9).response.status = 200 ∧
    (articleController.getArticle
        (articleController.updateArticle
          (run Store.init [Op.generate (exampleBrief "A") (some "Hello") 5 5]).1
          (JsVal.str "1") [("_id", JsVal.num 7)] 9).store (JsVal.str "1")).status = 404 :=
  ⟨⟨_, rfl, rfl, rfl, _, rfl, rfl⟩, ⟨_, rfl, rfl⟩, by decide, by decide⟩

/-- C4, amended. In every store whose records carry pairwise distinct integer ids, for the
record with id `n`, a request id that is the number `n` or its decimal string, every body `p`
that does not name `_id` and leaves the title printable, and every clock reading: the update
replaces the record in place and leaves every other record and the counter unchanged; a read
of the same id then answers with the new record, in which every field named in `p` other than
`updatedAt` has the value of `p`, every field not named in `p` other than `updatedAt` is
unchanged, and `updatedAt` is the clock reading of the update (not necessarily greater than
before). -/
theorem update_merges_in_place (s : Store) (hs : s.DistinctIds) (l1 : List Obj) (a : Obj)
    (l2 : List Obj) (hl : s.inMemoryArticles = l1 ++ a :: l2) (n : Nat)
    (hn : a.get "_id" = JsVal.num (n : Int)) (id : JsVal)
    (hid : id = JsVal.str (numberToString (n : Int)) ∨ id = JsVal.num (n : Int))
    (p : Obj) (hp : Obj.hasKey p "_id" = false) (now : Int)
    (ht : (Obj.spread a p).titlePrints) :
    (articleController.updateArticle s id p now).store
      = ⟨l1 ++ Obj.set (Obj.spread a p) "updatedAt" (JsVal.num now) :: l2,
          s.articleIdCounter⟩ ∧
    articleController.getArticle (articleController.updateArticle s id p now).store id
      = ⟨200, Body.article (Obj.set (Obj.spread a p) "updatedAt" (JsVal.num now))⟩ ∧
    (∀ k : String, k ≠ "updatedAt" → Obj.hasKey p k = true →
      (Obj.set (Obj.spread a p) "updatedAt" (JsVal.num now)).get k = p.get k) ∧
    (∀ k : String, k ≠ "updatedAt" → Obj.hasKey p k = false →
      (Obj.set (Obj.spread a p) "updatedAt" (JsVal.num now)).get k = a.get k) ∧
    (Obj.set (Obj.spread a p) "updatedAt" (JsVal.num now)).get "updatedAt" = JsVal.num now := by
  obtain ⟨ns, hids, hnd⟩ := hs
  have hids' := hids
  simp only [Store.ids, hl] at hids'
  obtain ⟨ns1, k, ns2, hns, e1, ek, e2⟩ := ids_split l1 a l2 ns hids'
  have hkn : k = n := by
    rw [hn] at ek
    injection ek with ek
    exact (Int.ofNat_inj.1 ek).symm
  subst hkn
  subst hns
  have hnot : k ∉ ns1 := fun h =>
    (List.nodup_cons.1 (List.nodup_middle.1 hnd)).1 (List.mem_append_left _ h)
  have ha : idEqByString (a.get "_id") id = some true := by
    rw [hn, idEqByString_canonical k k id hid]; simp
  have h1 : ∀ b ∈ l1, idEqByString (b.get "_id") id = some false := by
    intro b hb
    obtain ⟨k', hk', e⟩ := id_of_mem l1 ns1 e1 b hb
    rw [e, idEqByString_canonical k' k id hid]
    have : k' ≠ k := fun h => hnot (h ▸ hk')
    simp [this]
  have hupd := updateArticle_of_split s id p now l1 a l2 hl ha h1
  have hnew : Obj.get (Obj.set (Obj.spread a p) "updatedAt" (JsVal.num now)) "_id"
      = JsVal.num (k : Int) := by rw [get_id_updated a p now hp, hn]
  refine ⟨by rw [hupd], ?_, ?_, ?_, ?_⟩
  · rw [hupd]
    refine getArticle_found _ ⟨ns1 ++ k :: ns2, ?_, hnd⟩ l1 _ l2 rfl k hnew ?_ id
      (jsParseInt_canonical k id hid) (fun k' => idMatches_canonical k' k id hid)
    · simp only [Store.ids, List.map_append, List.map_cons, hnew, e1, e2]
    · unfold Obj.titlePrints at ht ⊢
      rw [Obj.get_set_ne _ _ _ _ (by decide)]
      exact ht
  · intro key hkey hhas
    rw [Obj.get_set_ne _ _ _ _ hkey, Obj.get_spread, hhas]
    simp
  · intro key hkey hhas
    rw [Obj.get_set_ne _ _ _ _ hkey, Obj.get_spread, hhas]
    simp
  · exact Obj.get_set_self _ _ _

theorem update_merges_in_place_witness :
    (articleController.updateArticle
        (run Store.init
          [Op.generate (exampleBrief "A") (some "Hello") 1 1,
           Op.generate (exampleBrief "B") (some "Hello") 2 2,
           Op.generate (exampleBrief "C") (some "Hello") 3 3]).1
        (JsVal.str "2") [("seoScore", JsVal.num 80)] 9).store.inMemoryArticles.map
        (fun r => (r.get "title").toStr) = [some "A", some "B", some "C"] ∧
    ∃ r,
      articleController.getArticle
        (articleController.updateArticle
          (run Store.init
            [Op.generate (exampleBrief "A") (some "Hello") 1 1,
             Op.generate (exampleBrief "B") (some "Hello") 2 2,
             Op.generate (exampleBrief "C") (some "Hello") 3 3]).1
          (JsVal.str "2") [("seoScore", JsVal.num 80)] 9).store (JsVal.str "2")
        = ⟨200, Body.article r⟩ ∧
      r.get "seoScore" = JsVal.num 80 ∧ r.get "title" = JsVal.str "B" ∧
      r.get "createdAt" = JsVal.num 2 ∧ r.get "updatedAt" = JsVal.num 9 :=
  have h := update_merges_in_place
    (run Store.init
      [Op.generate (exampleBrief "A") (some "Hello") 1 1,
       Op.generate (exampleBrief "B") (some "Hello") 2 2,
       Op.generate (exampleBrief "C") (some "Hello") 3 3]).1
    ⟨[1, 2, 3], rfl, by decide⟩
    [(articleController.generateArticle ⟨[], 1⟩ (exampleBrief "A") (some "Hello") 1
      1).store.inMemoryArticles.get ⟨0, by decide⟩]
    ((articleController.generateArticle ⟨[], 2⟩ (exampleBrief "B") (some "Hello") 2
      2).store.inMemoryArticles.get ⟨0, by decide⟩)
    [(articleController.generateArticle ⟨[], 3⟩ (exampleBrief "C") (some "Hello") 3
      3).store.inMemoryArticles.get ⟨0, by decide⟩]
    rfl 2 rfl (JsVal.str "2") (Or.inl rfl) [("seoScore", JsVal.num 80)] rfl 9 rfl
  ⟨by rw [h.1]; rfl, _, h.2.1, h.2.2.1 "seoScore" (by decide) rfl,
    (h.2.2.2.1 "title" (by decide) rfl).trans rfl,
    (h.2.2.2.1 "createdAt" (by decide) rfl).trans rfl, h.2.2.2.2⟩

/-! ## C5: reading all records, newest first -/

theorem orderedInsert_congr (r r' : Obj → Obj → Prop) [DecidableRel r] [DecidableRel r']
    (a : Obj) (l : List Obj) (h : ∀ b ∈ l, (r a b ↔ r' a b)) :
    l.orderedInsert r a = l.orderedInsert r' a := by
  induction l with
  | nil => rfl
  | cons b l ih =>
    have hb := h b (List.mem_cons_self _ _)
    have ih' := ih (fun c hc => h c (List.mem_cons_of_mem _ hc))
    by_cases hr : r a b
    · simp [List.orderedInsert, hr, hb.1 hr]
    · have hr' : ¬ r' a b := fun x => hr (hb.2 x)
      simp [List.orderedInsert, hr, hr', ih']

theorem insertionSort_congr (r r' : Obj → Obj → Prop) [DecidableRel r] [DecidableRel r']
    (l : List Obj) (h : ∀ a ∈ l, ∀ b ∈ l, (r a b ↔ r' a b)) :
    l.insertionSort r = l.insertionSort r' := by
  induction l with
  | nil => rfl
  | cons a l ih =>
    have ih' := ih (fun x hx y hy => h x (List.mem_cons_of_mem _ hx) y (List.mem_cons_of_mem _ hy))
    simp only [List.insertionSort]
    rw [ih']
    apply orderedInsert_congr
    intro b hb
    have hb' : b ∈ l := (List.perm_insertionSort r' l).subset hb
    exact h a (List.mem_cons_self _ _) b (List.mem_cons_of_mem _ hb')

theorem createdAtOrder_iff (time : Obj → Option Int) (a b : Obj) (ta tb : Int)
    (ha : time a = some ta) (hb : time b = some tb) :
    createdAtOrder time a b ↔ tb ≤ ta := by
  simp only [createdAtOrder, compareCreatedAt, ha, hb]
  omega

theorem insertionSort_short (r : Obj → Obj → Prop) [DecidableRel r] (l : List Obj)
    (h : l.length < 2) : l.insertionSort r = l := by
  match l, h with
  | [], _ => rfl
  | [a], _ => rfl
  | _ :: _ :: _, h => exact absurd h (by simp)

/-- Sorting by a total key in descending order. -/
theorem insertionSort_key_sorted (key : Obj → Int) (l : List Obj) :
    (l.insertionSort (fun a b => key b ≤ key a)).Pairwise (fun a b => key b ≤ key a) := by
  haveI : IsTotal Obj (fun a b => key b ≤ key a) := ⟨fun a b => le_total (key b) (key a)⟩
  haveI : IsTrans Obj (fun a b => key b ≤ key a) := ⟨fun a b c hab hbc => le_trans hbc hab⟩
  exact List.sorted_insertionSort (fun a b => key b ≤ key a) l

theorem createdTime_num (dateParse : String → Option Int) (a : Obj) (t : Int)
    (h : a.get "createdAt" = JsVal.num t) (h1 : -maxTime ≤ t) (h2 : t ≤ maxTime) :
    createdTime dateParse a = some t := by
  simp [createdTime, timeOf, h, h1, h2]

theorem createdTime_str (dateParse : String → Option Int) (a : Obj) (d : String)
    (h : a.get "createdAt" = JsVal.str d) : createdTime dateParse a = dateParse d := by
  simp [createdTime, timeOf, h]

theorem getAllArticles_valid (dateParse : String → Option Int) (s : Store)
    (h : ∀ a ∈ s.inMemoryArticles, ∃ t : Int, createdTime dateParse a = some t) :
    ∃ l, (articleController.getAllArticles dateParse s).response = ⟨200, Body.articles l⟩ ∧
      l.Perm s.inMemoryArticles ∧
      l.Pairwise (fun a b => ∃ ta tb : Int, createdTime dateParse a = some ta ∧
        createdTime dateParse b = some tb ∧ tb ≤ ta) := by
  have hall : s.inMemoryArticles.all
      (fun a => (timeOf dateParse (a.get "createdAt")).isSome) = true := by
    rw [List.all_eq_true]
    intro a ha
    obtain ⟨t, ht⟩ := h a ha
    unfold createdTime at ht
    cases hto : timeOf dateParse (a.get "createdAt") with
    | none => rw [hto] at ht; simp at ht
    | some _ => rfl
  have hsort : sortedByCreatedAt dateParse s.inMemoryArticles
      = some (s.inMemoryArticles.insertionSort (createdAtOrder (createdTime dateParse))) := by
    unfold sortedByCreatedAt
    by_cases hlen : s.inMemoryArticles.length < 2
    · rw [if_pos hlen, insertionSort_short _ _ hlen]
    · rw [if_neg hlen, if_pos hall]
  have hcongr : s.inMemoryArticles.insertionSort (createdAtOrder (createdTime dateParse))
      = s.inMemoryArticles.insertionSort
          (fun a b => (createdTime dateParse b).getD 0 ≤ (createdTime dateParse a).getD 0) := by
    apply insertionSort_congr
    intro a ha b hb
    obtain ⟨ta, hta⟩ := h a ha
    obtain ⟨tb, htb⟩ := h b hb
    rw [createdAtOrder_iff _ a b ta tb hta htb, hta, htb]
    simp
  refine ⟨s.inMemoryArticles.insertionSort (createdAtOrder (createdTime dateParse)),
    ?_, ?_, ?_⟩
  · unfold articleController.getAllArticles
    rw [hsort]
  · exact List.perm_insertionSort _ _
  · rw [hcongr]
    have hp := insertionSort_key_sorted (fun a => (createdTime dateParse a).getD 0)
      s.inMemoryArticles
    have hmem : ∀ a ∈ s.inMemoryArticles.insertionSort
        (fun a b => (createdTime dateParse b).getD 0 ≤ (createdTime dateParse a).getD 0),
        a ∈ s.inMemoryArticles := fun a ha => (List.perm_insertionSort _ _).subset ha
    refine (List.Pairwise.and_mem.1 hp).imp ?_
    rintro a b ⟨ha, hb, hab⟩
    obtain ⟨ta, hta⟩ := h a (hmem a ha)
    obtain ⟨tb, htb⟩ := h b (hmem b hb)
    refine ⟨ta, tb, hta, htb, ?_⟩
    simpa [hta, htb] using hab

theorem getAllArticles_store (dateParse : String → Option Int) (s : Store) :
    (articleController.getAllArticles dateParse s).store = s := by
  unfold articleController.getAllArticles
  split <;> rfl

/-- C5 as stated fails: it speaks of every store state, and an update can put anything in
`createdAt`. Three records are created at the times 10, 15 and 20 and the second one is
updated with `createdAt: "garbage"`. Every comparison of two neighbours then involves the
invalid date and yields NaN, so the sort finds the list in order already: the answer is 200
with the records in store order, the one of time 10 before the one of time 20. With an object
that cannot be converted in `createdAt`, the comparator throws and the answer is 500. -/
theorem getAllArticles_sorted_counterexample :
    (∃ l, (articleController.getAllArticles (fun _ => none)
          (run Store.init
            [Op.generate (exampleBrief "A") (some "a") 10 10,
             Op.generate (exampleBrief "C") (some "c") 15 15,
             Op.generate (exampleBrief "B") (some "b") 20 20,
             Op.update (JsVal.str "2") [("createdAt", JsVal.str "garbage")] 30]).1).response
        = ⟨200, Body.articles l⟩ ∧
      l.map (fun a => a.get "title") = [JsVal.str "A", JsVal.str "C", JsVal.str "B"] ∧
      l.map (fun a => a.get "createdAt")
        = [JsVal.num 10, JsVal.str "garbage", JsVal.num 20] ∧
      ¬ l.Pairwise (fun a b => ∀ ta tb : Int, a.get "createdAt" = JsVal.num ta →
        b.get "createdAt" = JsVal.num tb → tb ≤ ta)) ∧
    (articleController.getAllArticles (fun _ => none)
        (run Store.init
          [Op.generate (exampleBrief "A") (some "a") 10 10,
           Op.generate (exampleBrief "B") (some "b") 20 20,
           Op.update (JsVal.str "2")
             [("createdAt", JsVal.obj [("toString", JsVal.num 1)])] 30]).1).response.status
      = 500 := by
  refine ⟨⟨_, rfl, rfl, rfl, ?_⟩, rfl⟩
  intro hp
  have h := (List.pairwise_cons.1 hp).1 _ (List.mem_cons_of_mem _ (List.mem_cons_self _ _))
    10 20 rfl rfl
  exact absurd h (by decide)

/-- C5, amended. Reading all records of the In-Process Store leaves the store as it was. The
time that the comparator reads from a record is the stored number when `createdAt` is a date
or a number in the range of time values, and the parsed string when it is a string. Whenever
the `createdAt` of every stored record is a valid time, the handler answers 200 with a
permutation of exactly the stored records in which `createdAt` does not increase from first to
last, whatever the order of the store; in particular when every `createdAt` is a number in
range, as a create stores it, the stored numbers themselves do not increase. -/
theorem getAllArticles_sorted (dateParse : String → Option Int) (s : Store) :
    (articleController.getAllArticles dateParse s).store = s ∧
    (∀ (a : Obj) (t : Int), a.get "createdAt" = JsVal.num t → -maxTime ≤ t → t ≤ maxTime →
      createdTime dateParse a = some t) ∧
    (∀ (a : Obj) (d : String), a.get "createdAt" = JsVal.str d →
      createdTime dateParse a = dateParse d) ∧
    ((∀ a ∈ s.inMemoryArticles, ∃ t : Int, createdTime dateParse a = some t) →
      ∃ l, (articleController.getAllArticles dateParse s).response
          = ⟨200, Body.articles l⟩ ∧
        l.Perm s.inMemoryArticles ∧
        l.Pairwise (fun a b => ∃ ta tb : Int, createdTime dateParse a = some ta ∧
          createdTime dateParse b = some tb ∧ tb ≤ ta)) ∧
    ((∀ a ∈ s.inMemoryArticles, ∃ t : Int, a.get "createdAt" = JsVal.num t ∧
        -maxTime ≤ t ∧ t ≤ maxTime) →
      ∃ l, (articleController.getAllArticles dateParse s).response
          = ⟨200, Body.articles l⟩ ∧
        l.Perm s.inMemoryArticles ∧
        l.Pairwise (fun a b => ∃ ta tb : Int, a.get "createdAt" = JsVal.num ta ∧
          b.get "createdAt" = JsVal.num tb ∧ tb ≤ ta)) := by
  refine ⟨getAllArticles_store dateParse s, createdTime_num dateParse,
    createdTime_str dateParse, getAllArticles_valid dateParse s, ?_⟩
  intro h
  obtain ⟨l, h1, h2, h3⟩ := getAllArticles_valid dateParse s (fun a ha => by
    obtain ⟨t, ht, hlo, hhi⟩ := h a ha
    exact ⟨t, createdTime_num dateParse a t ht hlo hhi⟩)
  refine ⟨l, h1, h2, ?_⟩
  refine (List.Pairwise.and_mem.1 h3).imp ?_
  rintro a b ⟨ha, hb, ta, tb, hta, htb, hle⟩
  obtain ⟨ta', hta', hlo, hhi⟩ := h a (h2.subset ha)
  obtain ⟨tb', htb', hlo', hhi'⟩ := h b (h2.subset hb)
  have e1 := createdTime_num dateParse a ta' hta' hlo hhi
  have e2 := createdTime_num dateParse b tb' htb' hlo' hhi'
  rw [hta] at e1
  rw [htb] at e2
  injection e1 with e1
  injection e2 with e2
  subst e1
  subst e2
  exact ⟨ta, tb, hta', htb', hle⟩

theorem getAllArticles_sorted_witness :
    ∃ l, (articleController.getAllArticles (fun _ => none)
          (run Store.init
            [Op.generate (exampleBrief "A") (some "Hello") 30 30,
             Op.generate (exampleBrief "B") (some "Hello") 50 50,
             Op.generate (exampleBrief "C") (some "Hello") 10 10]).1).response
        = ⟨200, Body.articles l⟩ ∧
      l.map (fun a => a.get "title") = [JsVal.str "B", JsVal.str "A", JsVal.str "C"] ∧
      l.map (fun a => a.get "createdAt") = [JsVal.num 50, JsVal.num 30, JsVal.num 10] ∧
      l.Perm (run Store.init
          [Op.generate (exampleBrief "A") (some "Hello") 30 30,
           Op.generate (exampleBrief "B") (some "Hello") 50 50,
           Op.generate (exampleBrief "C") (some "Hello") 10 10]).1.inMemoryArticles ∧
      l.Pairwise (fun a b => ∃ ta tb : Int, a.get "createdAt" = JsVal.num ta ∧
        b.get "createdAt" = JsVal.num tb ∧ tb ≤ ta) ∧
      (articleController.getAllArticles (fun _ => none)
          (run Store.init
            [Op.generate (exampleBrief "A") (some "Hello") 30 30,
             Op.generate (exampleBrief "B") (some "Hello") 50 50,
             Op.generate (exampleBrief "C") (some "Hello") 10 10]).1).store.inMemoryArticles.map
          (fun a => a.get "title") = [JsVal.str "A", JsVal.str "B", JsVal.str "C"] := by
  obtain ⟨l, h1, h2, h3⟩ := (getAllArticles_sorted (fun _ => none)
    (run Store.init
      [Op.generate (exampleBrief "A") (some "Hello") 30 30,
       Op.generate (exampleBrief "B") (some "Hello") 50 50,
       Op.generate (exampleBrief "C") (some "Hello") 10 10]).1).2.2.2.2
    (List.forall_mem_cons.2 ⟨⟨30, rfl, by decide, by decide⟩,
      List.forall_mem_cons.2 ⟨⟨50, rfl, by decide, by decide⟩,
        List.forall_mem_cons.2 ⟨⟨10, rfl, by decide, by decide⟩,
          fun _ h => absurd h (List.not_mem_nil _)⟩⟩⟩)
  have e : (articleController.getAllArticles (fun _ => none)
      (run Store.init
        [Op.generate (exampleBrief "A") (some "Hello") 30 30,
         Op.generate (exampleBrief "B") (some "Hello") 50 50,
         Op.generate (exampleBrief "C") (some "Hello") 10 10]).1).response
      = ⟨200, Body.articles
          ((run Store.init
            [Op.generate (exampleBrief "A") (some "Hello") 30 30,
             Op.generate (exampleBrief "B") (some "Hello") 50 50,
             Op.generate (exampleBrief "C") (some "Hello") 10 10]).1.inMemoryArticles.insertionSort
            (createdAtOrder (createdTime (fun _ => none))))⟩ := rfl
  have hl := h1.symm.trans e
  injection hl with _ hb
  injection hb with hl
  subst hl
  exact ⟨_, h1, rfl, rfl, h2, h3, rfl⟩

/-! ## C6: a brief without `userCases` -/

/-- C6, the code at the brief of the spec. With `userCases` left out, the service throws
while it builds the prompt (`userCases.join` on `undefined`): the answer is 500, the
collaborator is not called and nothing is stored, although the controller itself would store
`userCases || []`. The same brief with `userCases: []` is answered 201 with id 1, and a read
of that id gives the content returned by the collaborator. -/
theorem generate_without_userCases_fails :
    articleController.generateArticle Store.init
        [("title", JsVal.str "X"), ("targetKeywords", JsVal.arr [JsVal.str "a"]),
         ("targetAudience", JsVal.str "y")] (some "Hello") 5 5
      = ⟨Store.init, ⟨500, Body.error⟩, 0⟩ ∧
    (articleController.generateArticle Store.init
        [("title", JsVal.str "X"), ("targetKeywords", JsVal.arr [JsVal.str "a"]),
         ("targetAudience", JsVal.str "y"), ("userCases", JsVal.arr [])] (some "Hello") 5
        5).response
      = ⟨201, Body.created (JsVal.num 1)
          (JsVal.obj [("title", JsVal.str "X"), ("content", JsVal.str "Hello")])⟩ ∧
    ∃ r,
      articleController.getArticle
        (articleController.generateArticle Store.init
          [("title", JsVal.str "X"), ("targetKeywords", JsVal.arr [JsVal.str "a"]),
           ("targetAudience", JsVal.str "y"), ("userCases", JsVal.arr [])] (some "Hello") 5
          5).store (JsVal.num 1)
        = ⟨200, Body.article r⟩ ∧
      (r.get "generatedArticle").prop "content" = some (JsVal.str "Hello") :=
  ⟨rfl, rfl, _, rfl, rfl⟩

/-! ## C7: the score parsed from the model text -/

theorem isDigit_slash : isDigit '/' = false := by decide

theorem matchSlash100_of_digits (ds rest : List Char) (h : IsScoreDigits ds) :
    matchSlash100 (ds ++ "/100".data ++ rest) = some ds := by
  obtain ⟨h1, h3, hd⟩ := h
  match ds, h1, h3, hd with
  | [a], _, _, hd =>
    have ha : isDigit a = true := hd a (by simp)
    simp [matchSlash100, List.findSome?, ha, isDigit_slash, List.isPrefixOf]
  | [a, b], _, _, hd =>
    have ha : isDigit a = true := hd a (by simp)
    have hb : isDigit b = true := hd b (by simp)
    simp [matchSlash100, List.findSome?, ha, hb, isDigit_slash, List.isPrefixOf]
  | [a, b, c], _, _, hd =>
    have ha : isDigit a = true := hd a (by simp)
    have hb : isDigit b = true := hd b (by simp)
    have hc : isDigit c = true := hd c (by simp)
    simp [matchSlash100, List.findSome?, ha, hb, hc, List.isPrefixOf]
  | [], h1, _, _ => simp at h1
  | _ :: _ :: _ :: _ :: _, _, h3, _ => simp at h3

theorem slashAt_of_take (cs : List Char) (k : Nat) (hk1 : 1 ≤ k) (hk3 : k ≤ 3)
    (h : ((cs.take k).length == k && (cs.take k).all isDigit
      && "/100".data.isPrefixOf (cs.drop k)) = true) : SlashMatchAt cs := by
  simp only [Bool.and_eq_true, beq_iff_eq, List.all_eq_true] at h
  obtain ⟨⟨hlen, hdig⟩, hpre⟩ := h
  obtain ⟨rest, hrest⟩ := List.isPrefixOf_iff_prefix.1 hpre
  refine ⟨cs.take k, rest, ⟨by omega, by omega, hdig⟩, ?_⟩
  rw [List.append_assoc, hrest, List.take_append_drop]

theorem matchSlash100_sound (cs g : List Char) (h : matchSlash100 cs = some g) :
    SlashMatchAt cs ∧ IsScoreDigits g := by
  unfold matchSlash100 at h
  simp only [List.findSome?] at h
  split at h
  · rename_i heq
    split at heq
    · rename_i hc
      injection heq with heq; injection h with h; subst heq; subst h
      refine ⟨slashAt_of_take cs 3 (by omega) (by omega) hc, ?_⟩
      simp only [Bool.and_eq_true, beq_iff_eq, List.all_eq_true] at hc
      exact ⟨by omega, by omega, hc.1.2⟩
    · exact absurd heq (by simp)
  · split at h
    · rename_i heq
      split at heq
      · rename_i hc
        injection heq with heq; injection h with h; subst heq; subst h
        refine ⟨slashAt_of_take cs 2 (by omega) (by omega) hc, ?_⟩
        simp only [Bool.and_eq_true, beq_iff_eq, List.all_eq_true] at hc
        exact ⟨by omega, by omega, hc.1.2⟩
      · exact absurd heq (by simp)
    · split at h
      · rename_i heq
        split at heq
        · rename_i hc
          injection heq with heq; injection h with h; subst heq; subst h
          refine ⟨slashAt_of_take cs 1 (by omega) (by omega) hc, ?_⟩
          simp only [Bool.and_eq_true, beq_iff_eq, List.all_eq_true] at hc
          exact ⟨by omega, by omega, hc.1.2⟩
        · exact absurd heq (by simp)
      · exact absurd h (by simp)

theorem matchScoreLabel_sound (cs g : List Char) (h : matchScoreLabel cs = some g) :
    LabelMatchAt cs := by
  unfold matchScoreLabel at h
  split at h
  · rename_i c rest
    split at h
    · rename_i hc
      simp only at h
      split at h
      · exact absurd h (by simp)
      · rename_i hne
        have hsplit : rest = rest.takeWhile isJsSpace ++ rest.dropWhile isJsSpace :=
          (List.takeWhile_append_dropWhile _ _).symm
        cases hdw : rest.dropWhile isJsSpace with
        | nil => rw [hdw] at hne; simp at hne
        | cons d rest2 =>
          rw [hdw] at hne
          have hd : isDigit d = true := by
            by_contra hd
            simp [List.takeWhile, hd] at hne
          refine ⟨c, rest.takeWhile isJsSpace, d, rest2, ?_, ?_, hd, ?_⟩
          · simpa using hc
          · intro w hw; exact (List.mem_takeWhile_imp hw)
          · rw [hdw] at hsplit
            simp only [String.data, List.cons_append, List.nil_append]
            rw [← hsplit]
    · exact absurd h (by simp)
  · exact absurd h (by simp)

set_option maxRecDepth 4000 in
theorem matchScoreLabel_complete (cs : List Char) (h : LabelMatchAt cs) :
    (matchScoreLabel cs).isSome = true := by
  obtain ⟨c, ws, d, rest, hc, hws, hd, rfl⟩ := h
  have hds : isJsSpace d = false := isJsSpace_of_isDigit d hd
  have hdrop : (ws ++ d :: rest).dropWhile isJsSpace = d :: rest := by
    rw [List.dropWhile_append_of_pos hws]
    simp [List.dropWhile, hds]
  have : (c == '：' || c == ':') = true := by
    rcases hc with rfl | rfl <;> decide
  have e : "スコア".data = ['ス', 'コ', 'ア'] := rfl
  rw [e]
  simp only [List.cons_append, List.nil_append, List.append_assoc]
  unfold matchScoreLabel
  simp only [this, hdrop, if_true]
  simp [List.takeWhile, hd]

theorem scoreMatchAt_iff (cs : List Char) :
    ScoreMatchAt cs ↔ ((matchSlash100 cs).isSome || (matchScoreLabel cs).isSome) = true := by
  constructor
  · rintro (⟨ds, rest, hds, rfl⟩ | h)
    · rw [matchSlash100_of_digits ds rest hds]; rfl
    · rw [matchScoreLabel_complete cs h]; exact Bool.or_true _
  · intro h
    rw [Bool.or_eq_true] at h
    rcases h with h | h
    · obtain ⟨g, hg⟩ := Option.isSome_iff_exists.1 h
      exact Or.inl (matchSlash100_sound cs g hg).1
    · obtain ⟨g, hg⟩ := Option.isSome_iff_exists.1 h
      exact Or.inr (matchScoreLabel_sound cs g hg)

theorem scoreMatch_first (pre tail ds post : List Char) (hds : IsScoreDigits ds)
    (htail : tail = ds ++ "/100".data ++ post)
    (hfirst : ∀ u v, pre = u ++ v → v ≠ [] → ¬ ScoreMatchAt (v ++ tail)) :
    scoreMatch (pre ++ tail) = some (some ds, none) := by
  induction pre with
  | nil =>
    have hm := matchSlash100_of_digits ds post hds
    rw [← htail] at hm
    cases htl : tail with
    | nil =>
      rw [htl] at htail
      have := congrArg List.length htail
      simp at this
      omega
    | cons c cs =>
      rw [htl] at hm
      simp [scoreMatch, hm]
  | cons c pre ih =>
    have hno : ¬ ScoreMatchAt (c :: pre ++ tail) := hfirst [] (c :: pre) rfl (by simp)
    rw [scoreMatchAt_iff] at hno
    simp only [Bool.or_eq_true, not_or, Bool.not_eq_true, Option.not_isSome,
      Option.isNone_iff_eq_none] at hno
    have h1 : matchSlash100 (c :: (pre ++ tail)) = none := by simpa using hno.1
    have h2 : matchScoreLabel (c :: (pre ++ tail)) = none := by simpa using hno.2
    have ih' := ih (fun u v huv hv => hfirst (c :: u) v (by simp [huv]) hv)
    rw [List.cons_append, scoreMatch]
    simp only [h1, h2]
    exact ih'

theorem scoreMatch_none (cs : List Char) (h : ∀ u v, cs = u ++ v → ¬ ScoreMatchAt v) :
    scoreMatch cs = none := by
  induction cs with
  | nil => rfl
  | cons c cs ih =>
    have hno : ¬ ScoreMatchAt (c :: cs) := h [] (c :: cs) rfl
    rw [scoreMatchAt_iff] at hno
    simp only [Bool.or_eq_true, not_or, Bool.not_eq_true, Option.not_isSome,
      Option.isNone_iff_eq_none] at hno
    rw [scoreMatch]
    simp only [hno.1, hno.2]
    exact ih (fun u v huv => h (c :: u) v (by simp [huv]))

/-- C7. Score extraction of `checkSEO`: when the first match of the score patterns in the
model text is "NN/100" (NN one to three digits, no match of either pattern starting before
it), the parsed score is the number NN; when no match of either pattern starts anywhere in
the text, the parsed score is the default 70. -/
theorem parseScore_first_slash_or_default (text : String) :
    (∀ pre ds post : List Char, text.data = pre ++ ds ++ "/100".data ++ post →
      IsScoreDigits ds →
      (∀ u v, pre = u ++ v → v ≠ [] → ¬ ScoreMatchAt (v ++ ds ++ "/100".data ++ post)) →
      parseScore text = some (digitsVal ds : Int)) ∧
    ((∀ u v, text.data = u ++ v → ¬ ScoreMatchAt v) → parseScore text = some 70) := by
  constructor
  · intro pre ds post htext hds hfirst
    have hm : scoreMatch text.data = some (some ds, none) := by
      rw [htext, List.append_assoc, List.append_assoc]
      refine scoreMatch_first pre _ ds post hds (by simp) ?_
      intro u v huv hv
      have := hfirst u v huv hv
      simpa [List.append_assoc] using this
    have hne : ds ≠ [] := by
      intro h; have := hds.1; simp [h] at this
    unfold parseScore
    rw [hm]
    cases ds with
    | nil => exact absurd rfl hne
    | cons c cs =>
      simp only [pickGroup]
      exact parseIntChars_digits (c :: cs) hne hds.2.2
  · intro h
    unfold parseScore
    rw [scoreMatch_none text.data h]

theorem forall_split_iff_tails (l : List Char) (P : List Char → Prop) :
    (∀ u v, l = u ++ v → P v) ↔ ∀ v ∈ l.tails, P v := by
  constructor
  · intro h v hv
    rw [List.mem_tails] at hv
    obtain ⟨u, hu⟩ := hv
    exact h u v hu.symm
  · intro h u v huv
    exact h v (by rw [List.mem_tails]; exact ⟨u, huv.symm⟩)

theorem not_scoreMatchAt_of_eval (cs : List Char)
    (h : ((matchSlash100 cs).isSome || (matchScoreLabel cs).isSome) = false) :
    ¬ ScoreMatchAt cs := by
  rw [scoreMatchAt_iff, h]; simp

theorem parseScore_first_slash_or_default_witness :
    parseScore "SEO: 85/100 です" = some 85 ∧ parseScore "スコアなし 100 点" = some 70 :=
  ⟨(parseScore_first_slash_or_default "SEO: 85/100 です").1 "SEO: ".data "85".data " です".data
      (by decide) (by decide)
      (by
        intro u v huv hv
        have h : ∀ v ∈ ("SEO: ".data).tails, v ≠ [] →
            ((matchSlash100 (v ++ "85".data ++ "/100".data ++ " です".data)).isSome
              || (matchScoreLabel (v ++ "85".data ++ "/100".data ++ " です".data)).isSome)
              = false := by decide
        exact not_scoreMatchAt_of_eval _
          (h v (by rw [List.mem_tails]; exact ⟨u, huv.symm⟩) hv)),
    (parseScore_first_slash_or_default "スコアなし 100 点").2
      ((forall_split_iff_tails _ _).2 (fun v hv => not_scoreMatchAt_of_eval v
        ((by decide : ∀ v ∈ ("スコアなし 100 点".data).tails,
          ((matchSlash100 v).isSome || (matchScoreLabel v).isSome) = false) v hv)))⟩

/-! ## C8: the SEO check stores its result -/

/-- C8, the code at the request id "01". The lookup of `checkSEO` finds record 1 (under `==`
the number 1 equals the string "01"), the analysis succeeds and the answer is 200 with score
85, but the index search compares strings ("1" against "01") and finds nothing, so the record
keeps `seoScore` 0 and its old `updatedAt`. With the id "1" the same request stores the score
and the clock reading. -/
theorem checkSEO_loose_id_not_persisted :
    (seoController.checkSEO
        (run Store.init [Op.generate (exampleBrief "A") (some "Hello") 5 5]).1
        (JsVal.str "01") (some "総合評価: 85/100") 9).response
      = ⟨200, Body.seo (JsVal.num 85) ["5/100"]⟩ ∧
    (seoController.checkSEO
        (run Store.init [Op.generate (exampleBrief "A") (some "Hello") 5 5]).1
        (JsVal.str "01") (some "総合評価: 85/100") 9).store
      = (run Store.init [Op.generate (exampleBrief "A") (some "Hello") 5 5]).1 ∧
    (seoController.checkSEO
        (run Store.init [Op.generate (exampleBrief "A") (some "Hello") 5 5]).1
        (JsVal.str "01") (some "総合評価: 85/100") 9).store.inMemoryArticles.map
        (fun r => (r.get "seoScore", r.get "updatedAt")) = [(JsVal.num 0, JsVal.num 5)] ∧
    (seoController.checkSEO
        (run Store.init [Op.generate (exampleBrief "A") (some "Hello") 5 5]).1
        (JsVal.str "1") (some "総合評価: 85/100") 9).store.inMemoryArticles.map
        (fun r => (r.get "seoScore", r.get "updatedAt")) = [(JsVal.num 85, JsVal.num 9)] :=
  ⟨rfl, rfl, rfl, rfl⟩

/-! ## C9: what an update can change -/

/-- C9 as stated fails: an update accepts a body that names `title`, `createdAt` and `_id`,
and stores the values given. -/
theorem update_immutable_fields_counterexample :
    ∃ old new,
      (run Store.init [Op.generate (exampleBrief "A") (some "Hello") 5 5]).1.inMemoryArticles
        = [old] ∧
      articleController.updateArticle
          (run Store.init [Op.generate (exampleBrief "A") (some "Hello") 5 5]).1
          (JsVal.str "1")
          [("title", JsVal.str "Z"), ("createdAt", JsVal.num 0), ("_id", JsVal.num 7)] 9
        = ⟨⟨[new], 2⟩, ⟨200, Body.article new⟩, 0⟩ ∧
      old.get "title" = JsVal.str "A" ∧ new.get "title" = JsVal.str "Z" ∧
      old.get "createdAt" = JsVal.num 5 ∧ new.get "createdAt" = JsVal.num 0 ∧
      old.get "_id" = JsVal.num 1 ∧ new.get "_id" = JsVal.num 7 :=
  ⟨_, _, rfl, rfl, rfl, rfl, rfl, rfl, rfl, rfl⟩

/-- C9, amended. Whenever an update succeeds it replaces one record, whose id matches the
request, by a record in which every field that the body does not name, other than
`updatedAt`, has its previous value: so `_id`, `title`, `targetKeywords`, `targetAudience`,
`userCases`, `additionalData` and `createdAt` are unchanged exactly when the body leaves them
out. A field that the body names, whichever it is, takes the value of the body (except
`updatedAt`, which takes the clock reading). -/
theorem update_keeps_unnamed_fields (s : Store) (id : JsVal) (p : Obj) (now : Int)
    (h : (articleController.updateArticle s id p now).response.status = 200) :
    ∃ l1 old l2 new,
      s.inMemoryArticles = l1 ++ old :: l2 ∧
      idEqByString (old.get "_id") id = some true ∧
      articleController.updateArticle s id p now
        = ⟨⟨l1 ++ new :: l2, s.articleIdCounter⟩, ⟨200, Body.article new⟩, 0⟩ ∧
      (∀ k : String, k ≠ "updatedAt" → Obj.hasKey p k = false → new.get k = old.get k) ∧
      (∀ k : String, k ≠ "updatedAt" → Obj.hasKey p k = true → new.get k = p.get k) ∧
      new.get "updatedAt" = JsVal.num now := by
  rcases updateArticle_cases s id p now with ⟨l1, a, l2, hl, ha, h1⟩ | ⟨_, hne⟩
  · refine ⟨l1, a, l2, _, hl, ha, updateArticle_of_split s id p now l1 a l2 hl ha h1,
      ?_, ?_, Obj.get_set_self _ _ _⟩
    · intro key hkey hhas
      rw [Obj.get_set_ne _ _ _ _ hkey, Obj.get_spread, hhas]
      simp
    · intro key hkey hhas
      rw [Obj.get_set_ne _ _ _ _ hkey, Obj.get_spread, hhas]
      simp
  · exact absurd h hne

theorem update_keeps_unnamed_fields_witness :
    ∃ l1 old l2 new,
      (run Store.init [Op.generate (exampleBrief "A") (some "Hello") 5 5]).1.inMemoryArticles
        = l1 ++ old :: l2 ∧
      idEqByString (old.get "_id") (JsVal.str "1") = some true ∧
      articleController.updateArticle
          (run Store.init [Op.generate (exampleBrief "A") (some "Hello") 5 5]).1
          (JsVal.str "1") [("seoScore", JsVal.num 80)] 9
        = ⟨⟨l1 ++ new :: l2, 2⟩, ⟨200, Body.article new⟩, 0⟩ ∧
      (∀ k : String, k ≠ "updatedAt" → Obj.hasKey [("seoScore", JsVal.num 80)] k = false →
        new.get k = old.get k) ∧
      (∀ k : String, k ≠ "updatedAt" → Obj.hasKey [("seoScore", JsVal.num 80)] k = true →
        new.get k = Obj.get [("seoScore", JsVal.num 80)] k) ∧
      new.get "updatedAt" = JsVal.num 9 :=
  update_keeps_unnamed_fields
    (run Store.init [Op.generate (exampleBrief "A") (some "Hello") 5 5]).1
    (JsVal.str "1") [("seoScore", JsVal.num 80)] 9 (by decide)

/-! ## C10: validation of the brief -/

/-- C10 as stated fails: an empty `targetKeywords` array is truthy, so the brief passes the
validation, the collaborator is called and a record with no keyword is stored. -/
theorem generate_validation_counterexample :
    ∃ r generated,
      articleController.generateArticle Store.init
          [("title", JsVal.str "X"), ("targetKeywords", JsVal.arr []),
           ("targetAudience", JsVal.str "y"), ("userCases", JsVal.arr [])] (some "Hello") 5 5
        = ⟨⟨[r], 2⟩, ⟨201, Body.created (JsVal.num 1) generated⟩, 1⟩ ∧
      r.get "targetKeywords" = JsVal.arr [] :=
  ⟨_, _, rfl, rfl⟩

/-- C10, amended. A brief whose `title`, `targetKeywords` or `targetAudience` is falsy (as a
missing property and an empty string are) is answered 400 without a call to the collaborator
and with the store and the counter unchanged. An empty `targetKeywords` array is not falsy
and is accepted. Consequently every record that generate stores has the title, the keywords
and the audience of the brief, each of them truthy: a title or audience that is a string is
not empty, while the keywords may be an empty array. -/
theorem generate_validation (s : Store) (articleData : Obj) (reply : LlmReply)
    (tCreated tUpdated : Int) :
    (((articleData.get "title").truthy = false ∨ (articleData.get "targetKeywords").truthy = false
        ∨ (articleData.get "targetAudience").truthy = false) →
      articleController.generateArticle s articleData reply tCreated tUpdated
        = ⟨s, ⟨400, Body.error⟩, 0⟩) ∧
    (∀ k : String, Obj.hasKey articleData k = false → (articleData.get k).truthy = false) ∧
    (JsVal.str "").truthy = false ∧ (JsVal.arr []).truthy = true ∧
    ((articleController.generateArticle s articleData reply tCreated tUpdated).response.status
        = 201 →
      ∃ article,
        (articleController.generateArticle s articleData reply tCreated tUpdated).store
          = ⟨s.inMemoryArticles ++ [article], s.articleIdCounter + 1⟩ ∧
        article.get "title" = articleData.get "title" ∧
        article.get "targetKeywords" = articleData.get "targetKeywords" ∧
        article.get "targetAudience" = articleData.get "targetAudience" ∧
        (article.get "title").truthy = true ∧ (article.get "targetKeywords").truthy = true ∧
        (article.get "targetAudience").truthy = true ∧
        (∀ t : String, article.get "title" = JsVal.str t → t ≠ "") ∧
        (∀ t : String, article.get "targetAudience" = JsVal.str t → t ≠ "")) := by
  refine ⟨?_, ?_, rfl, rfl, ?_⟩
  · intro h
    unfold articleController.generateArticle
    rw [if_pos]
    rcases h with h | h | h <;> simp [h]
  · intro k hk
    unfold Obj.hasKey at hk
    unfold Obj.get
    cases hl : List.lookup k articleData with
    | none => rfl
    | some v => rw [hl] at hk; simp at hk
  · intro h
    unfold articleController.generateArticle at h ⊢
    split at h
    · simp at h
    · rename_i hv
      simp only [Bool.or_eq_true, Bool.not_eq_true', not_or, Bool.not_eq_false] at hv
      obtain ⟨⟨h1, h2⟩, h3⟩ := hv
      rw [if_neg (by simp [h1, h2, h3])]
      split
      · rename_i heq
        rw [heq] at h
        simp at h
      · refine ⟨_, rfl, rfl, rfl, rfl, h1, h2, h3, ?_, ?_⟩
        · intro t ht
          have e : Obj.get articleData "title" = JsVal.str t := ht
          rw [e] at h1
          simpa [JsVal.truthy] using h1
        · intro t ht
          have e : Obj.get articleData "targetAudience" = JsVal.str t := ht
          rw [e] at h3
          simpa [JsVal.truthy] using h3

theorem generate_validation_witness :
    articleController.generateArticle Store.init
        [("title", JsVal.str ""), ("targetKeywords", JsVal.arr [JsVal.str "a"]),
         ("targetAudience", JsVal.str "y")] (some "Hello") 5 5
      = ⟨Store.init, ⟨400, Body.error⟩, 0⟩ ∧
    articleController.generateArticle Store.init
        [("title", JsVal.str "X"), ("targetAudience", JsVal.str "y")] (some "Hello") 5 5
      = ⟨Store.init, ⟨400, Body.error⟩, 0⟩ ∧
    ∃ article,
      (articleController.generateArticle Store.init (exampleBrief "A") (some "Hello") 5
        5).store = ⟨[] ++ [article], 1 + 1⟩ ∧
      (article.get "title").truthy = true ∧ (article.get "targetKeywords").truthy = true ∧
      (article.get "targetAudience").truthy = true :=
  ⟨(generate_validation Store.init _ (some "Hello") 5 5).1 (Or.inl rfl),
   (generate_validation Store.init _ (some "Hello") 5 5).1
     (Or.inr (Or.inl ((generate_validation Store.init
       [("title", JsVal.str "X"), ("targetAudience", JsVal.str "y")] (some "Hello") 5 5).2.1
       "targetKeywords" rfl))),
   match (generate_validation Store.init (exampleBrief "A") (some "Hello") 5 5).2.2.2.2
     (by decide) with
   | ⟨article, h1, _, _, _, h5, h6, h7, _⟩ => ⟨article, h1, h5, h6, h7⟩⟩

/-! ## C11: the recommendations parsed from the model text -/

/-- C11, the code at model texts with a marker character inside a line. The comment of the
parser says it detects numbered lists and bullet points, but the pattern is not anchored to
the start of a line. In "総合評価: 85/100" no line begins with a list marker, yet the digit 8
starts a match and the result is the single recommendation "5/100" instead of the two
fallback recommendations. With two list lines below that line the result holds the same
extra item first. A text made of list lines alone gives their contents, and a text with no
marker character at all gives the fallback. -/
theorem parseRecommendations_not_anchored :
    parseRecommendations "総合評価: 85/100" = ["5/100"] ∧
    parseRecommendations "総合評価: 85/100\n1. キーワードを追加\n- 内部リンクを増やす"
      = ["5/100", "キーワードを追加", "内部リンクを増やす"] ∧
    parseRecommendations "1. キーワードを追加\n- 内部リンクを増やす"
      = ["キーワードを追加", "内部リンクを増やす"] ∧
    parseRecommendations "改善点はありません" = fallbackRecommendations := by
  refine ⟨by decide, by decide, by decide, by decide⟩

/-! ## C12: meta generation -/

theorem backtrackDot_hit (rest : List Char) (n : Nat)
    (h : ((rest.drop n).head?.map isDotChar) = some true) : backtrackDot rest n = some n := by
  cases n with
  | zero =>
    rw [List.drop_zero] at h
    rw [backtrackDot, if_pos (by rw [h]; rfl)]
  | succ j => rw [backtrackDot, if_pos (by rw [h]; rfl)]

theorem backtrackDot_complete (rest : List Char) (j : Nat)
    (h : ((rest.drop j).head?.map isDotChar) = some true) :
    ∀ n, j ≤ n → (backtrackDot rest n).isSome = true := by
  intro n
  induction n with
  | zero =>
    intro hj
    have : j = 0 := by omega
    subst this
    rw [backtrackDot_hit rest 0 h]; rfl
  | succ n ih =>
    intro hj
    by_cases hn : ((rest.drop (n + 1)).head?.map isDotChar) = some true
    · rw [backtrackDot_hit rest (n + 1) hn]; rfl
    · have hj' : j ≤ n := by
        rcases Nat.lt_or_ge j (n + 1) with h1 | h1
        · omega
        · have : j = n + 1 := by omega
          subst this
          exact absurd h hn
      rw [backtrackDot, if_neg (fun hc => hn (eq_of_beq hc))]
      exact ih hj'

theorem backtrackDot_sound (rest : List Char) : ∀ (n j : Nat), backtrackDot rest n = some j →
    j ≤ n ∧ ((rest.drop j).head?.map isDotChar) = some true := by
  intro n
  induction n with
  | zero =>
    intro j h
    simp only [backtrackDot] at h
    split at h
    · rename_i hc
      injection h with h
      subst h
      exact ⟨le_refl _, by rw [List.drop_zero]; exact eq_of_beq hc⟩
    · exact absurd h (by simp)
  | succ n ih =>
    intro j h
    simp only [backtrackDot] at h
    split at h
    · rename_i hc
      injection h with h
      subst h
      exact ⟨le_refl _, eq_of_beq hc⟩
    · obtain ⟨h1, h2⟩ := ih j h
      exact ⟨by omega, h2⟩

theorem isDotChar_iff (x : Char) : isDotChar x = true ↔ isLineTerminator x = false := by
  simp [isDotChar]

theorem matchLabelled_sound (label cs g : List Char) (h : matchLabelled label cs = some g) :
    MetaMatchAt label cs := by
  unfold matchLabelled at h
  split at h
  · rename_i hpre
    obtain ⟨tail, htail⟩ := List.isPrefixOf_iff_prefix.1 hpre
    subst htail
    rw [List.drop_left] at h
    split at h
    · exact absurd h (by simp)
    · rename_i c rest
      split at h
      · rename_i hc
        split at h
        · rename_i j hj
          obtain ⟨hle, hhead⟩ := backtrackDot_sound rest _ j hj
          cases hd : rest.drop j with
          | nil => rw [hd] at hhead; simp at hhead
          | cons x rest2 =>
            rw [hd] at hhead
            simp only [List.head?_cons, Option.map_some', Option.some.injEq] at hhead
            refine ⟨c, rest.take j, x, rest2, by simpa using hc, ?_,
              (isDotChar_iff x).1 hhead, ?_⟩
            · intro w hw
              have hsplit : rest = rest.takeWhile isJsSpace ++ rest.dropWhile isJsSpace :=
                (List.takeWhile_append_dropWhile _ _).symm
              rw [hsplit, List.take_append_of_le_length hle] at hw
              exact List.mem_takeWhile_imp (List.mem_of_mem_take hw)
            · rw [List.append_assoc, ← hd, List.cons_append, List.take_append_drop]
        · exact absurd h (by simp)
      · exact absurd h (by simp)
  · exact absurd h (by simp)

theorem takeWhile_length_ge (ws tail : List Char) (hws : ∀ w ∈ ws, isJsSpace w = true) :
    ws.length ≤ ((ws ++ tail).takeWhile isJsSpace).length := by
  induction ws with
  | nil => simp
  | cons w ws ih =>
    have hw := hws w (List.mem_cons_self _ _)
    simp only [List.cons_append, List.takeWhile_cons, hw, if_true, List.length_cons]
    have := ih (fun v hv => hws v (List.mem_cons_of_mem _ hv))
    omega

theorem matchLabelled_complete (label cs : List Char) (h : MetaMatchAt label cs) :
    (matchLabelled label cs).isSome = true := by
  obtain ⟨c, ws, x, rest, hc, hws, hx, rfl⟩ := h
  have hcolon : (c == '：' || c == ':') = true := by
    rcases hc with rfl | rfl <;> decide
  have hpre : label.isPrefixOf (label ++ c :: ws ++ x :: rest) = true := by
    rw [List.isPrefixOf_iff_prefix, List.append_assoc]
    exact List.prefix_append _ _
  have hhead : (((ws ++ x :: rest).drop ws.length).head?.map isDotChar) = some true := by
    rw [List.drop_left]
    simp [(isDotChar_iff x).2 hx]
  have hbt := backtrackDot_complete (ws ++ x :: rest) ws.length hhead _
    (takeWhile_length_ge ws (x :: rest) hws)
  obtain ⟨j, hj⟩ := Option.isSome_iff_exists.1 hbt
  unfold matchLabelled
  rw [if_pos hpre]
  have hdrop : (label ++ c :: ws ++ x :: rest).drop label.length = c :: (ws ++ x :: rest) := by
    rw [List.append_assoc, List.drop_left]; rfl
  rw [hdrop]
  simp only [hcolon, if_true, hj]
  rfl

theorem metaMatchAt_iff (label cs : List Char) :
    MetaMatchAt label cs ↔ (matchLabelled label cs).isSome = true := by
  constructor
  · exact matchLabelled_complete label cs
  · intro h
    obtain ⟨g, hg⟩ := Option.isSome_iff_exists.1 h
    exact matchLabelled_sound label cs g hg

theorem not_metaMatchAt_of_eval (label cs : List Char)
    (h : (matchLabelled label cs).isSome = false) : ¬ MetaMatchAt label cs := by
  rw [metaMatchAt_iff, h]; simp

theorem matchLabelled_line (label : List Char) (c : Char) (ws line post : List Char)
    (hc : c = '：' ∨ c = ':') (hws : ∀ w ∈ ws, isJsSpace w = true) (hne : line ≠ [])
    (hline : ∀ x ∈ line, isLineTerminator x = false)
    (hhead : ∀ x, line.head? = some x → isJsSpace x = false)
    (hpost : ∀ t, post.head? = some t → isLineTerminator t = true) :
    matchLabelled label (label ++ (c :: (ws ++ (line ++ post)))) = some line := by
  have hcolon : (c == '：' || c == ':') = true := by
    rcases hc with rfl | rfl <;> decide
  have hpre : label.isPrefixOf (label ++ (c :: (ws ++ (line ++ post)))) = true := by
    rw [List.isPrefixOf_iff_prefix]
    exact List.prefix_append _ _
  cases line with
  | nil => exact absurd rfl hne
  | cons x line2 =>
    have hx : isJsSpace x = false := hhead x rfl
    have hxd : isDotChar x = true := (isDotChar_iff x).2 (hline x (List.mem_cons_self _ _))
    have htw : (ws ++ (x :: line2 ++ post)).takeWhile isJsSpace = ws := by
      rw [List.takeWhile_append_of_pos hws]
      simp [List.takeWhile_cons, hx]
    have hbt : backtrackDot (ws ++ (x :: line2 ++ post)) ws.length = some ws.length := by
      apply backtrackDot_hit
      rw [List.drop_left]
      simp [hxd]
    have hcap : (x :: line2 ++ post).takeWhile isDotChar = x :: line2 := by
      rw [List.takeWhile_append_of_pos
        (fun a ha => (isDotChar_iff a).2 (hline a ha))]
      cases post with
      | nil => simp
      | cons t post2 =>
        have ht : isDotChar t = false := by
          have := hpost t rfl
          simp [isDotChar, this]
        simp [List.takeWhile_cons, ht]
    unfold matchLabelled
    rw [if_pos hpre, List.drop_left]
    simp only [hcolon, if_true, htw, hbt, List.drop_left, hcap]

theorem labelledMatch_first (label pre tail g : List Char) (hne : tail ≠ [])
    (hm : matchLabelled label tail = some g)
    (hfirst : ∀ u v, pre = u ++ v → v ≠ [] → ¬ MetaMatchAt label (v ++ tail)) :
    labelledMatch label (pre ++ tail) = some g := by
  induction pre with
  | nil =>
    cases tail with
    | nil => exact absurd rfl hne
    | cons c cs =>
      rw [List.nil_append, labelledMatch]
      simp only [hm]
  | cons c pre ih =>
    have hno : ¬ MetaMatchAt label (c :: pre ++ tail) := hfirst [] (c :: pre) rfl (by simp)
    rw [metaMatchAt_iff] at hno
    have h1 : matchLabelled label (c :: (pre ++ tail)) = none := by
      simpa using hno
    have ih2 := ih (fun u v huv hv => hfirst (c :: u) v (by simp [huv]) hv)
    rw [List.cons_append, labelledMatch]
    simp only [h1]
    exact ih2

theorem labelledMatch_none (label cs : List Char)
    (h : ∀ u v, cs = u ++ v → ¬ MetaMatchAt label v) : labelledMatch label cs = none := by
  induction cs with
  | nil => rfl
  | cons c cs ih =>
    have hno : ¬ MetaMatchAt label (c :: cs) := h [] (c :: cs) rfl
    rw [metaMatchAt_iff] at hno
    have h1 : matchLabelled label (c :: cs) = none := by simpa using hno
    rw [labelledMatch]
    simp only [h1]
    exact ih (fun u v huv => h (c :: u) v (by simp [huv]))

theorem substringUnits_eq_take (cs : List Char) (hbmp : ∀ c ∈ cs, c.toNat < 65536) :
    ∀ n, substringUnits n cs = cs.take n := by
  induction cs with
  | nil => intro n; simp [substringUnits]
  | cons c cs ih =>
    intro n
    have hc : utf16Units c = 1 := by
      simp [utf16Units, hbmp c (List.mem_cons_self _ _)]
    cases n with
    | zero => simp [substringUnits, hc]
    | succ n =>
      simp only [substringUnits, hc, List.take_succ_cons]
      rw [if_pos (by omega)]
      simp [ih (fun d hd => hbmp d (List.mem_cons_of_mem _ hd))]

theorem looseEq_canonical (k n : Nat) (id : JsVal)
    (hid : id = JsVal.str (numberToString (n : Int)) ∨ id = JsVal.num (n : Int)) :
    looseEq (JsVal.num (k : Int)) id = some (decide (k = n)) := by
  rcases hid with rfl | rfl
  · simp only [looseEq, numEqStr, stringToNumber_numberToString]
    by_cases h : k = n
    · subst h; simp
    · have : (JsNum.int (n : Int) == JsNum.int (k : Int)) = false := by
        simp; omega
      simp [this, h]
  · simp only [looseEq]
    by_cases h : k = n
    · subst h; simp
    · have : ((k : Int) == (n : Int)) = false := by simp; omega
      simp [this, h]

theorem generateMeta_of_split (s : Store) (hs : s.DistinctIds) (l1 : List Obj) (a : Obj)
    (l2 : List Obj) (hl : s.inMemoryArticles = l1 ++ a :: l2) (n : Nat)
    (hn : a.get "_id" = JsVal.num (n : Int)) (id : JsVal)
    (hid : id = JsVal.str (numberToString (n : Int)) ∨ id = JsVal.num (n : Int))
    (g : Obj) (content metaContent : String) (now : Int)
    (hg : a.get "generatedArticle" = JsVal.obj g)
    (hcontent : Obj.get g "content" = JsVal.str content)
    (htitle : ((Obj.get g "title").toStr).isSome = true)
    (hkw : ((a.get "targetKeywords").join ", ").isSome = true) :
    seoController.generateMeta s id (some metaContent) now
      = ⟨⟨l1 ++
            Obj.set
              (Obj.set
                (assignMetadata a g (metaTitleOf g metaContent)
                  (metaDescriptionOf content metaContent))
                "generatedArticle"
                (JsVal.obj (Obj.set
                  (Obj.set g "metadata"
                    (JsVal.obj (Obj.set (Obj.set (Obj.get g "metadata").spreadEntries
                      "metaTitle" (metaTitleOf g metaContent))
                      "metaDescription" (metaDescriptionOf content metaContent))))
                  "metadata"
                  (JsVal.obj (Obj.set (Obj.set
                    (Obj.set (Obj.set (Obj.get g "metadata").spreadEntries
                      "metaTitle" (metaTitleOf g metaContent))
                      "metaDescription" (metaDescriptionOf content metaContent))
                    "metaTitle" (metaTitleOf g metaContent))
                    "metaDescription" (metaDescriptionOf content metaContent))))))
              "updatedAt" (JsVal.num now) :: l2,
          s.articleIdCounter⟩,
        ⟨200, Body.metaTags (metaTitleOf g metaContent)
          (metaDescriptionOf content metaContent)⟩, 1⟩ := by
  obtain ⟨ns, hids, hnd⟩ := hs
  simp only [Store.ids, hl] at hids
  obtain ⟨ns1, k, ns2, hns, e1, ek, _⟩ := ids_split l1 a l2 ns hids
  have hkn : k = n := by
    rw [hn] at ek
    injection ek with ek
    exact (Int.ofNat_inj.1 ek).symm
  subst hkn
  subst hns
  have hnot : k ∉ ns1 := fun h =>
    (List.nodup_cons.1 (List.nodup_middle.1 hnd)).1 (List.mem_append_left _ h)
  have hfind : jsFindIndex (fun a => idMatches (a.get "_id") id (some (k : Int)))
      (l1 ++ a :: l2) = some (some l1.length) := by
    apply jsFindIndex_split
    · simp only [hn, idMatches_canonical k k id hid]; simp
    · intro b hb
      obtain ⟨k2, hk2, e⟩ := id_of_mem l1 ns1 e1 b hb
      simp only [e, idMatches_canonical k2 k id hid]
      have : k2 ≠ k := fun h => hnot (h ▸ hk2)
      simp [this]
  obtain ⟨t, ht⟩ := Option.isSome_iff_exists.1 htitle
  obtain ⟨j, hj⟩ := Option.isSome_iff_exists.1 hkw
  have hparts : metaPromptParts a = some (g, content) := by
    unfold metaPromptParts
    rw [hg]
    simp only [ht, hj, hcontent]
  have hid1 : Obj.get (assignMetadata a g (metaTitleOf g metaContent)
      (metaDescriptionOf content metaContent)) "_id" = JsVal.num (k : Int) := by
    unfold assignMetadata
    rw [Obj.get_set_ne _ _ _ _ (by decide), hn]
  have hfind2 : jsFindIndex (fun a => looseEq (a.get "_id") id)
      (l1 ++ assignMetadata a g (metaTitleOf g metaContent)
        (metaDescriptionOf content metaContent) :: l2) = some (some l1.length) := by
    apply jsFindIndex_split
    · simp only [hid1, looseEq_canonical k k id hid]; simp
    · intro b hb
      obtain ⟨k2, hk2, e⟩ := id_of_mem l1 ns1 e1 b hb
      simp only [e, looseEq_canonical k2 k id hid]
      have : k2 ≠ k := fun h => hnot (h ▸ hk2)
      simp [this]
  have hpersist : persistMeta (assignMetadata a g (metaTitleOf g metaContent)
      (metaDescriptionOf content metaContent)) (metaTitleOf g metaContent)
      (metaDescriptionOf content metaContent) now
      = some (Obj.set
              (Obj.set
                (assignMetadata a g (metaTitleOf g metaContent)
                  (metaDescriptionOf content metaContent))
                "generatedArticle"
                (JsVal.obj (Obj.set
                  (Obj.set g "metadata"
                    (JsVal.obj (Obj.set (Obj.set (Obj.get g "metadata").spreadEntries
                      "metaTitle" (metaTitleOf g metaContent))
                      "metaDescription" (metaDescriptionOf content metaContent))))
                  "metadata"
                  (JsVal.obj (Obj.set (Obj.set
                    (Obj.set (Obj.set (Obj.get g "metadata").spreadEntries
                      "metaTitle" (metaTitleOf g metaContent))
                      "metaDescription" (metaDescriptionOf content metaContent))
                    "metaTitle" (metaTitleOf g metaContent))
                    "metaDescription" (metaDescriptionOf content metaContent))))))
              "updatedAt" (JsVal.num now)) := by
    unfold persistMeta
    have e1 : Obj.get (assignMetadata a g (metaTitleOf g metaContent)
        (metaDescriptionOf content metaContent)) "generatedArticle"
        = JsVal.obj (Obj.set g "metadata"
            (JsVal.obj (Obj.set (Obj.set (Obj.get g "metadata").spreadEntries
              "metaTitle" (metaTitleOf g metaContent))
              "metaDescription" (metaDescriptionOf content metaContent)))) := by
      unfold assignMetadata
      rw [Obj.get_set_self]
    rw [e1]
    simp only [Obj.get_set_self, JsVal.truthy, if_true]
  unfold seoController.generateMeta
  rw [jsParseInt_canonical k id hid]
  simp only [hl, hfind, getElem?_split, hparts, set_split, hfind2, hpersist]

theorem extractLabelled_line (label text : String) (pre ws line post : List Char) (c : Char)
    (htext : text.data = pre ++ (label.data ++ (c :: (ws ++ (line ++ post)))))
    (hc : c = '：' ∨ c = ':') (hws : ∀ w ∈ ws, isJsSpace w = true) (hne : line ≠ [])
    (hline : ∀ x ∈ line, isLineTerminator x = false)
    (hhead : ∀ x, line.head? = some x → isJsSpace x = false)
    (hpost : ∀ t, post.head? = some t → isLineTerminator t = true)
    (hfirst : ∀ u v, pre = u ++ v → v ≠ [] →
      ¬ MetaMatchAt label.data (v ++ (label.data ++ (c :: (ws ++ (line ++ post)))))) :
    extractLabelled label text = some (String.mk (jsTrim line)) := by
  unfold extractLabelled
  rw [htext, labelledMatch_first label.data pre _ line (by simp)
    (matchLabelled_line label.data c ws line post hc hws hne hline hhead hpost) hfirst]

theorem extractLabelled_none (label text : String)
    (h : ∀ u v, text.data = u ++ v → ¬ MetaMatchAt label.data v) :
    extractLabelled label text = none := by
  unfold extractLabelled
  rw [labelledMatch_none label.data text.data h]

theorem isJsSpace_of_lineTerminator (x : Char) (h : isLineTerminator x = true) :
    isJsSpace x = true := by
  simp only [isLineTerminator, Bool.or_eq_true, beq_iff_eq] at h
  simp only [isJsSpace]
  rcases h with ((h | h) | h) | h <;> rw [h] <;> decide

theorem jsTrim_of_spaces (ws : List Char) (h : ∀ w ∈ ws, isJsSpace w = true) :
    jsTrim ws = [] := by
  have : ws.dropWhile isJsSpace = [] := List.dropWhile_eq_nil_iff.2 h
  simp [jsTrim, this]

theorem drop_takeWhile_length (rest : List Char) :
    rest.drop (rest.takeWhile isJsSpace).length = rest.dropWhile isJsSpace :=
  (congrArg (List.drop (rest.takeWhile isJsSpace).length)
    (List.takeWhile_append_dropWhile isJsSpace rest)).symm.trans (List.drop_left _ _)

/-- The value captured by a match at the start of the text, once trimmed: the rest of the
line that follows the white space after the colon. -/
theorem matchLabelled_value (label : List Char) (c : Char) (rest g : List Char)
    (h : matchLabelled label (label ++ c :: rest) = some g) :
    jsTrim g = jsTrim ((rest.dropWhile isJsSpace).takeWhile isDotChar) := by
  unfold matchLabelled at h
  rw [if_pos (by rw [List.isPrefixOf_iff_prefix]; exact List.prefix_append _ _),
    List.drop_left] at h
  simp only at h
  split at h
  · split at h
    · rename_i j hj
      injection h with h
      subst h
      obtain ⟨hle, hhead⟩ := backtrackDot_sound rest _ j hj
      cases hR : rest.dropWhile isJsSpace with
      | nil =>
        have hall : ∀ w ∈ rest, isJsSpace w = true := by
          intro w hw
          simpa using List.dropWhile_eq_nil_iff.1 hR w hw
        rw [List.takeWhile_nil, jsTrim_of_spaces [] (by simp)]
        apply jsTrim_of_spaces
        intro w hw
        exact hall w (List.mem_of_mem_drop ((List.takeWhile_prefix _).subset hw))
      | cons x R =>
        have hne : rest.dropWhile isJsSpace ≠ [] := by rw [hR]; simp
        have hx : isJsSpace x = false := by
          have := List.head_dropWhile_not isJsSpace rest hne
          simpa [hR] using this
        have hxd : isDotChar x = true := by
          cases hlt : isLineTerminator x with
          | false => simp [isDotChar, hlt]
          | true => rw [isJsSpace_of_lineTerminator x hlt] at hx; exact absurd hx (by simp)
        have hhit : backtrackDot rest (rest.takeWhile isJsSpace).length
            = some (rest.takeWhile isJsSpace).length := by
          apply backtrackDot_hit
          rw [drop_takeWhile_length, hR]
          simp [hxd]
        rw [hhit] at hj
        injection hj with hj
        subst hj
        rw [drop_takeWhile_length, hR]
    · exact absurd h (by simp)
  · exact absurd h (by simp)

theorem extractLabelled_first (label text : String) (pre ws tail : List Char) (c x : Char)
    (htext : text.data = pre ++ (label.data ++ (c :: (ws ++ x :: tail))))
    (hc : c = '：' ∨ c = ':') (hws : ∀ w ∈ ws, isJsSpace w = true)
    (hx : isLineTerminator x = false)
    (hfirst : ∀ u v, pre = u ++ v → v ≠ [] →
      ¬ MetaMatchAt label.data (v ++ (label.data ++ (c :: (ws ++ x :: tail))))) :
    extractLabelled label text
      = some (String.mk
          (jsTrim (((ws ++ x :: tail).dropWhile isJsSpace).takeWhile isDotChar))) := by
  have hm : MetaMatchAt label.data (label.data ++ (c :: (ws ++ x :: tail))) :=
    ⟨c, ws, x, tail, hc, hws, hx, by simp⟩
  obtain ⟨g, hg⟩ := Option.isSome_iff_exists.1 (matchLabelled_complete _ _ hm)
  unfold extractLabelled
  rw [htext, labelledMatch_first label.data pre _ g (by simp) hg hfirst]
  simp only
  rw [matchLabelled_value label.data c _ g hg]

theorem extractLabelled_blank (label text : String) (pre rest : List Char) (c x : Char)
    (htext : text.data = pre ++ (label.data ++ (c :: rest)))
    (hc : c = '：' ∨ c = ':') (hrest : ∀ w ∈ rest, isJsSpace w = true)
    (hmem : x ∈ rest) (hx : isLineTerminator x = false)
    (hfirst : ∀ u v, pre = u ++ v → v ≠ [] →
      ¬ MetaMatchAt label.data (v ++ (label.data ++ (c :: rest)))) :
    extractLabelled label text = some "" := by
  obtain ⟨ws, tail, rfl⟩ := List.append_of_mem hmem
  rw [extractLabelled_first label text pre ws tail c x htext hc
    (fun w hw => hrest w (List.mem_append_left _ hw)) hx hfirst]
  have : (ws ++ x :: tail).dropWhile isJsSpace = [] := List.dropWhile_eq_nil_iff.2 hrest
  rw [this, List.takeWhile_nil, jsTrim_of_spaces [] (by simp)]

theorem substringUnits_isPrefix (cs : List Char) : ∀ n, substringUnits n cs <+: cs := by
  induction cs with
  | nil => intro n; simp [substringUnits]
  | cons c cs ih =>
    intro n
    simp only [substringUnits]
    split
    · exact (List.prefix_cons_inj c).2 (ih _)
    · exact List.nil_prefix

theorem utf16Length_bmp (cs : List Char) (hbmp : ∀ c ∈ cs, c.toNat < 65536) :
    utf16Length cs = cs.length := by
  induction cs with
  | nil => rfl
  | cons c cs ih =>
    have hc : utf16Units c = 1 := by
      simp [utf16Units, hbmp c (List.mem_cons_self _ _)]
    have := ih (fun d hd => hbmp d (List.mem_cons_of_mem _ hd))
    simp only [utf16Length, List.map_cons, List.sum_cons, List.length_cons, hc] at this ⊢
    omega

theorem cutsOnBoundary_bmp (cs : List Char) (hbmp : ∀ c ∈ cs, c.toNat < 65536) (n : Nat) :
    CutsOnBoundary n cs := by
  unfold CutsOnBoundary
  rw [substringUnits_eq_take cs hbmp n, utf16Length_bmp cs hbmp,
    utf16Length_bmp (cs.take n) (fun c hc => hbmp c (List.mem_of_mem_take hc)),
    List.length_take]

theorem metaPromptParts_some (a g : Obj) (content : String)
    (h : metaPromptParts a = some (g, content)) :
    a.get "generatedArticle" = JsVal.obj g ∧ Obj.get g "content" = JsVal.str content := by
  unfold metaPromptParts at h
  split at h
  · rename_i g' hg
    split at h
    · rename_i c _ _ hc
      injection h with h
      injection h with h1 h2
      subst h1
      subst h2
      exact ⟨hg, hc⟩
    · exact absurd h (by simp)
  · exact absurd h (by simp)

theorem metadataMerged_assign (a g : Obj) (mt md : JsVal) :
    MetadataMerged a g mt md (assignMetadata a g mt md) := by
  refine ⟨_, _, by unfold assignMetadata; rw [Obj.get_set_self], by rw [Obj.get_set_self],
    ?_, ?_, ?_, ?_, ?_, ?_⟩
  · rw [Obj.get_set_ne _ _ _ _ (by decide), Obj.get_set_self]
  · rw [Obj.get_set_self]
  · intro k h1 h2
    rw [Obj.get_set_ne _ _ _ _ h2, Obj.get_set_ne _ _ _ _ h1]
  · intro m k hm h1 h2
    rw [Obj.get_set_ne _ _ _ _ h2, Obj.get_set_ne _ _ _ _ h1, hm]
    rfl
  · intro k hk
    rw [Obj.get_set_ne _ _ _ _ hk]
  · intro k h1 _
    unfold assignMetadata
    rw [Obj.get_set_ne _ _ _ _ h1]

theorem persistMeta_assign (a g : Obj) (mt md : JsVal) (now : Int) :
    ∃ b, persistMeta (assignMetadata a g mt md) mt md now = some b ∧
      MetadataMerged a g mt md b ∧ b.get "updatedAt" = JsVal.num now := by
  have e1 : Obj.get (assignMetadata a g mt md) "generatedArticle"
      = JsVal.obj (Obj.set g "metadata"
          (JsVal.obj (Obj.set (Obj.set (Obj.get g "metadata").spreadEntries
            "metaTitle" mt) "metaDescription" md))) := by
    unfold assignMetadata
    rw [Obj.get_set_self]
  have hb : persistMeta (assignMetadata a g mt md) mt md now
      = some (Obj.set
          (Obj.set (assignMetadata a g mt md) "generatedArticle"
            (JsVal.obj (Obj.set
              (Obj.set g "metadata"
                (JsVal.obj (Obj.set (Obj.set (Obj.get g "metadata").spreadEntries
                  "metaTitle" mt) "metaDescription" md)))
              "metadata"
              (JsVal.obj (Obj.set (Obj.set
                (Obj.set (Obj.set (Obj.get g "metadata").spreadEntries
                  "metaTitle" mt) "metaDescription" md)
                "metaTitle" mt) "metaDescription" md)))))
          "updatedAt" (JsVal.num now)) := by
    unfold persistMeta
    rw [e1]
    simp only [Obj.get_set_self, JsVal.truthy, if_true]
  refine ⟨_, hb, ?_, by rw [Obj.get_set_self]⟩
  refine ⟨_, _, by rw [Obj.get_set_ne _ _ _ _ (by decide), Obj.get_set_self],
    by rw [Obj.get_set_self], ?_, ?_, ?_, ?_, ?_, ?_⟩
  · rw [Obj.get_set_ne _ _ _ _ (by decide), Obj.get_set_self]
  · rw [Obj.get_set_self]
  · intro k h1 h2
    rw [Obj.get_set_ne _ _ _ _ h2, Obj.get_set_ne _ _ _ _ h1, Obj.get_set_ne _ _ _ _ h2,
      Obj.get_set_ne _ _ _ _ h1]
  · intro m k hm h1 h2
    rw [Obj.get_set_ne _ _ _ _ h2, Obj.get_set_ne _ _ _ _ h1, Obj.get_set_ne _ _ _ _ h2,
      Obj.get_set_ne _ _ _ _ h1, hm]
    rfl
  · intro k hk
    rw [Obj.get_set_ne _ _ _ _ hk, Obj.get_set_ne _ _ _ _ hk]
  · intro k h1 h2
    rw [Obj.get_set_ne _ _ _ _ h2, Obj.get_set_ne _ _ _ _ h1]
    unfold assignMetadata
    rw [Obj.get_set_ne _ _ _ _ h1]

/-- Whenever the request is answered 200, the record that the lookup found holds the two
values. -/
theorem generateMeta_ok (s : Store) (id : JsVal) (metaContent : String) (now : Int)
    (numericId : Option Int) (l1 : List Obj) (a : Obj) (l2 : List Obj) (g : Obj)
    (content : String)
    (hparse : jsParseInt id = some numericId)
    (hl : s.inMemoryArticles = l1 ++ a :: l2)
    (ha : idMatches (a.get "_id") id numericId = some true)
    (h1 : ∀ x ∈ l1, idMatches (x.get "_id") id numericId = some false)
    (hg : a.get "generatedArticle" = JsVal.obj g)
    (hcontent : Obj.get g "content" = JsVal.str content)
    (h200 : (seoController.generateMeta s id (some metaContent) now).response.status = 200) :
    (seoController.generateMeta s id (some metaContent) now).response
        = ⟨200, Body.metaTags (metaTitleOf g metaContent)
            (metaDescriptionOf content metaContent)⟩ ∧
      (seoController.generateMeta s id (some metaContent) now).store.articleIdCounter
        = s.articleIdCounter ∧
      ∃ b, (seoController.generateMeta s id (some metaContent) now).store.inMemoryArticles[
            l1.length]? = some b ∧
        MetadataMerged a g (metaTitleOf g metaContent)
          (metaDescriptionOf content metaContent) b := by
  have hfind := jsFindIndex_split (fun a => idMatches (a.get "_id") id numericId) l1 a l2 ha h1
  cases hp : metaPromptParts a with
  | none =>
    exfalso
    revert h200
    unfold seoController.generateMeta
    rw [hparse]
    simp only [hl, hfind, getElem?_split, hp]
    decide
  | some gc =>
    obtain ⟨g', c'⟩ := gc
    obtain ⟨hg', hc'⟩ := metaPromptParts_some a g' c' hp
    rw [hg] at hg'
    injection hg' with hgg
    subst hgg
    rw [hcontent] at hc'
    injection hc' with hcc
    subst hcc
    cases hf2 : jsFindIndex (fun a => looseEq (a.get "_id") id)
        (l1 ++ assignMetadata a g (metaTitleOf g metaContent)
          (metaDescriptionOf content metaContent) :: l2) with
    | none =>
      exfalso
      revert h200
      unfold seoController.generateMeta
      rw [hparse]
      simp only [hl, hfind, getElem?_split, hp, set_split, hf2]
      decide
    | some r =>
      cases r with
      | none =>
        have e : seoController.generateMeta s id (some metaContent) now
            = ⟨⟨l1 ++ assignMetadata a g (metaTitleOf g metaContent)
                  (metaDescriptionOf content metaContent) :: l2, s.articleIdCounter⟩,
                ⟨200, Body.metaTags (metaTitleOf g metaContent)
                  (metaDescriptionOf content metaContent)⟩, 1⟩ := by
          unfold seoController.generateMeta
          rw [hparse]
          simp only [hl, hfind, getElem?_split, hp, set_split, hf2]
        rw [e]
        exact ⟨rfl, rfl, _, getElem?_split _ _ _, metadataMerged_assign _ _ _ _⟩
      | some j =>
        cases hrec : (l1 ++ assignMetadata a g (metaTitleOf g metaContent)
            (metaDescriptionOf content metaContent) :: l2)[j]? with
        | none =>
          exfalso
          revert h200
          unfold seoController.generateMeta
          rw [hparse]
          simp only [hl, hfind, getElem?_split, hp, set_split, hf2, hrec]
          decide
        | some record =>
          cases hpm : persistMeta record (metaTitleOf g metaContent)
              (metaDescriptionOf content metaContent) now with
          | none =>
            exfalso
            revert h200
            unfold seoController.generateMeta
            rw [hparse]
            simp only [hl, hfind, getElem?_split, hp, set_split, hf2, hrec, hpm]
            decide
          | some updated =>
            have e : seoController.generateMeta s id (some metaContent) now
                = ⟨⟨(l1 ++ assignMetadata a g (metaTitleOf g metaContent)
                      (metaDescriptionOf content metaContent) :: l2).set j updated,
                    s.articleIdCounter⟩,
                    ⟨200, Body.metaTags (metaTitleOf g metaContent)
                      (metaDescriptionOf content metaContent)⟩, 1⟩ := by
              unfold seoController.generateMeta
              rw [hparse]
              simp only [hl, hfind, getElem?_split, hp, set_split, hf2, hrec, hpm]
            rw [e]
            refine ⟨rfl, rfl, ?_⟩
            by_cases hj : j = l1.length
            · subst hj
              rw [getElem?_split] at hrec
              injection hrec with hrec
              subst hrec
              obtain ⟨b, hb, hmerged, _⟩ := persistMeta_assign a g
                (metaTitleOf g metaContent) (metaDescriptionOf content metaContent) now
              rw [hb] at hpm
              injection hpm with hpm
              subst hpm
              refine ⟨b, ?_, hmerged⟩
              show ((l1 ++ _ :: l2).set l1.length b)[l1.length]? = some b
              rw [set_split, getElem?_split]
            · refine ⟨_, ?_, metadataMerged_assign _ _ _ _⟩
              show ((l1 ++ _ :: l2).set j updated)[l1.length]? = some _
              rw [List.getElem?_set_ne hj, getElem?_split]

/-- C12 as stated fails. A response that contains the meta-title label without a colon after
it, or with nothing after the colon, is not matched by the pattern: `metaTitle` is then the
title of the record, not the text that follows the label. And not every stored record can be
served: after an update that stores a text in `targetKeywords`, the prompt cannot be built
(`targetKeywords.join` is not a function), the answer is 500 without a call of the
collaborator and nothing is stored. -/
theorem generateMeta_extracts_and_stores_counterexample :
    ("メタタイトル SEO入門ガイド" = metaTitleLabel ++ " SEO入門ガイド" ∧
      extractLabelled metaTitleLabel "メタタイトル SEO入門ガイド" = none ∧
      metaTitleOf [("title", JsVal.str "A"), ("content", JsVal.str "Hello")]
        "メタタイトル SEO入門ガイド" = JsVal.str "A") ∧
    (extractLabelled metaTitleLabel "メタタイトル：" = none ∧
      metaTitleOf [("title", JsVal.str "A"), ("content", JsVal.str "Hello")]
        "メタタイトル：" = JsVal.str "A") ∧
    seoController.generateMeta
        (run Store.init
          [Op.generate (exampleBrief "A") (some "Hello") 5 5,
           Op.update (JsVal.str "1") [("targetKeywords", JsVal.str "seo")] 7]).1
        (JsVal.str "1") (some "メタタイトル： X\nメタディスクリプション： Y") 9
      = ⟨(run Store.init
          [Op.generate (exampleBrief "A") (some "Hello") 5 5,
           Op.update (JsVal.str "1") [("targetKeywords", JsVal.str "seo")] 7]).1,
          ⟨500, Body.error⟩, 0⟩ := by
  refine ⟨⟨?_, ?_, ?_⟩, ⟨?_, ?_⟩, ?_⟩
  · decide
  · decide
  · rfl
  · decide
  · rfl
  · rfl

/-- C12, amended. The value extracted for a label is taken at the first place where the
label is followed by a colon, optional white space and a character that is not a line
terminator: it is the rest of the line after that white space, trimmed (so it is the line
itself when a line of text follows, and the empty text when only blanks follow); when there
is no such place, nothing is extracted. `metaTitle` is the value extracted for the meta-title
label, else `generatedArticle.title` of the record; `metaDescription` is the value extracted
for the meta-description label, else the first 160 UTF-16 code units of the generated
content, stated where that cut does not split a surrogate pair (as in every text of the
Basic Multilingual Plane). For every store, every record that the lookup of the request id
finds and every response text: whenever the request is answered 200, the answer carries these
two values, the counter is unchanged and the record found holds them afterwards in its
`generatedArticle.metadata`, every other metadata key, the other parts of
`generatedArticle` and of the record (`updatedAt` apart) being as before. And the request is
answered 200, with `updatedAt` refreshed and the other records as they were, for every record
of a store with distinct integer ids, requested by its id, whose prompt can be built. -/
theorem generateMeta_extracts_and_stores :
    (∀ (label text : String) (pre ws tail : List Char) (c x : Char),
      text.data = pre ++ (label.data ++ (c :: (ws ++ x :: tail))) →
      (c = '：' ∨ c = ':') → (∀ w ∈ ws, isJsSpace w = true) → isLineTerminator x = false →
      (∀ u v, pre = u ++ v → v ≠ [] →
        ¬ MetaMatchAt label.data (v ++ (label.data ++ (c :: (ws ++ x :: tail))))) →
      extractLabelled label text
        = some (String.mk
            (jsTrim (((ws ++ x :: tail).dropWhile isJsSpace).takeWhile isDotChar)))) ∧
    (∀ (label text : String) (pre ws line post : List Char) (c : Char),
      text.data = pre ++ (label.data ++ (c :: (ws ++ (line ++ post)))) →
      (c = '：' ∨ c = ':') → (∀ w ∈ ws, isJsSpace w = true) → line ≠ [] →
      (∀ x ∈ line, isLineTerminator x = false) →
      (∀ x, line.head? = some x → isJsSpace x = false) →
      (∀ t, post.head? = some t → isLineTerminator t = true) →
      (∀ u v, pre = u ++ v → v ≠ [] →
        ¬ MetaMatchAt label.data (v ++ (label.data ++ (c :: (ws ++ (line ++ post)))))) →
      extractLabelled label text = some (String.mk (jsTrim line))) ∧
    (∀ (label text : String) (pre rest : List Char) (c x : Char),
      text.data = pre ++ (label.data ++ (c :: rest)) →
      (c = '：' ∨ c = ':') → (∀ w ∈ rest, isJsSpace w = true) →
      x ∈ rest → isLineTerminator x = false →
      (∀ u v, pre = u ++ v → v ≠ [] →
        ¬ MetaMatchAt label.data (v ++ (label.data ++ (c :: rest)))) →
      extractLabelled label text = some "") ∧
    (∀ (label text : String), (∀ u v, text.data = u ++ v → ¬ MetaMatchAt label.data v) →
      extractLabelled label text = none) ∧
    (∀ (g : Obj) (content metaContent : String),
      (∀ t, extractLabelled metaTitleLabel metaContent = some t →
        metaTitleOf g metaContent = JsVal.str t) ∧
      (extractLabelled metaTitleLabel metaContent = none →
        metaTitleOf g metaContent = Obj.get g "title") ∧
      (∀ t, extractLabelled metaDescriptionLabel metaContent = some t →
        metaDescriptionOf content metaContent = JsVal.str t) ∧
      (extractLabelled metaDescriptionLabel metaContent = none →
        CutsOnBoundary 160 content.data →
        ∃ d : List Char, metaDescriptionOf content metaContent = JsVal.str (String.mk d) ∧
          d <+: content.data ∧ utf16Length d = min 160 (utf16Length content.data)) ∧
      ((∀ c ∈ content.data, c.toNat < 65536) →
        CutsOnBoundary 160 content.data ∧
          substringUnits 160 content.data = content.data.take 160)) ∧
    (∀ (s : Store) (id : JsVal) (metaContent : String) (now : Int) (numericId : Option Int)
      (l1 : List Obj) (a : Obj) (l2 : List Obj) (g : Obj) (content : String),
      jsParseInt id = some numericId → s.inMemoryArticles = l1 ++ a :: l2 →
      idMatches (a.get "_id") id numericId = some true →
      (∀ x ∈ l1, idMatches (x.get "_id") id numericId = some false) →
      a.get "generatedArticle" = JsVal.obj g → Obj.get g "content" = JsVal.str content →
      (extractLabelled metaDescriptionLabel metaContent = none →
        CutsOnBoundary 160 content.data) →
      (seoController.generateMeta s id (some metaContent) now).response.status = 200 →
      (seoController.generateMeta s id (some metaContent) now).response
          = ⟨200, Body.metaTags (metaTitleOf g metaContent)
              (metaDescriptionOf content metaContent)⟩ ∧
        (seoController.generateMeta s id (some metaContent) now).store.articleIdCounter
          = s.articleIdCounter ∧
        ∃ b, (seoController.generateMeta s id (some metaContent)
              now).store.inMemoryArticles[l1.length]? = some b ∧
          MetadataMerged a g (metaTitleOf g metaContent)
            (metaDescriptionOf content metaContent) b) ∧
    (∀ (s : Store) (l1 : List Obj) (a : Obj) (l2 : List Obj) (n : Nat) (id : JsVal) (g : Obj)
      (content metaContent : String) (now : Int),
      s.DistinctIds → s.inMemoryArticles = l1 ++ a :: l2 →
      a.get "_id" = JsVal.num (n : Int) →
      (id = JsVal.str (numberToString (n : Int)) ∨ id = JsVal.num (n : Int)) →
      a.get "generatedArticle" = JsVal.obj g → Obj.get g "content" = JsVal.str content →
      ((Obj.get g "title").toStr).isSome = true →
      ((a.get "targetKeywords").join ", ").isSome = true →
      (extractLabelled metaDescriptionLabel metaContent = none →
        CutsOnBoundary 160 content.data) →
      ∃ (b gb mb : Obj),
        seoController.generateMeta s id (some metaContent) now
          = ⟨⟨l1 ++ b :: l2, s.articleIdCounter⟩,
              ⟨200, Body.metaTags (metaTitleOf g metaContent)
                (metaDescriptionOf content metaContent)⟩, 1⟩ ∧
        b.get "generatedArticle" = JsVal.obj gb ∧ Obj.get gb "metadata" = JsVal.obj mb ∧
        Obj.get mb "metaTitle" = metaTitleOf g metaContent ∧
        Obj.get mb "metaDescription" = metaDescriptionOf content metaContent ∧
        (∀ k : String, k ≠ "metaTitle" → k ≠ "metaDescription" →
          Obj.get mb k = Obj.get (Obj.get g "metadata").spreadEntries k) ∧
        (∀ (m : Obj) (k : String), Obj.get g "metadata" = JsVal.obj m → k ≠ "metaTitle" →
          k ≠ "metaDescription" → Obj.get mb k = Obj.get m k) ∧
        (∀ k : String, k ≠ "metadata" → Obj.get gb k = Obj.get g k) ∧
        (∀ k : String, k ≠ "generatedArticle" → k ≠ "updatedAt" → b.get k = a.get k) ∧
        b.get "updatedAt" = JsVal.num now) := by
  refine ⟨extractLabelled_first, extractLabelled_line, extractLabelled_blank,
    extractLabelled_none, ?_, ?_, ?_⟩
  · intro g content metaContent
    refine ⟨?_, ?_, ?_, ?_, ?_⟩
    · intro t ht; simp only [metaTitleOf, ht]
    · intro ht; simp only [metaTitleOf, ht]
    · intro t ht; simp only [metaDescriptionOf, ht]
    · intro ht hcut
      exact ⟨substringUnits 160 content.data, by simp only [metaDescriptionOf, ht],
        substringUnits_isPrefix content.data 160, hcut⟩
    · intro hbmp
      exact ⟨cutsOnBoundary_bmp content.data hbmp 160,
        substringUnits_eq_take content.data hbmp 160⟩
  · intro s id metaContent now numericId l1 a l2 g content hparse hl ha h1 hg hcontent _ h200
    exact generateMeta_ok s id metaContent now numericId l1 a l2 g content hparse hl ha h1 hg
      hcontent h200
  · intro s l1 a l2 n id g content metaContent now hs hl hn hid hg hcontent htitle hkw _
    have hother : ∀ k : String, k ≠ "metaTitle" → k ≠ "metaDescription" →
        Obj.get (Obj.set (Obj.set
          (Obj.set (Obj.set (Obj.get g "metadata").spreadEntries
            "metaTitle" (metaTitleOf g metaContent))
            "metaDescription" (metaDescriptionOf content metaContent))
          "metaTitle" (metaTitleOf g metaContent))
          "metaDescription" (metaDescriptionOf content metaContent)) k
          = Obj.get (Obj.get g "metadata").spreadEntries k := by
      intro k h1 h2
      rw [Obj.get_set_ne _ _ _ _ h2, Obj.get_set_ne _ _ _ _ h1, Obj.get_set_ne _ _ _ _ h2,
        Obj.get_set_ne _ _ _ _ h1]
    refine ⟨_, (Obj.set (Obj.set g "metadata" (JsVal.obj (Obj.set (Obj.set (Obj.get g "metadata").spreadEntries "metaTitle"
        (metaTitleOf g metaContent)) "metaDescription" (metaDescriptionOf content metaContent)))) "metadata"
        (JsVal.obj (Obj.set (Obj.set (Obj.set (Obj.set (Obj.get g "metadata").spreadEntries "metaTitle"
        (metaTitleOf g metaContent)) "metaDescription" (metaDescriptionOf content metaContent))
        "metaTitle" (metaTitleOf g metaContent))
        "metaDescription" (metaDescriptionOf content metaContent)))),
      (Obj.set (Obj.set (Obj.set (Obj.set (Obj.get g "metadata").spreadEntries "metaTitle"
        (metaTitleOf g metaContent)) "metaDescription" (metaDescriptionOf content metaContent))
        "metaTitle" (metaTitleOf g metaContent))
        "metaDescription" (metaDescriptionOf content metaContent)),
      generateMeta_of_split s hs l1 a l2 hl n hn id hid g content metaContent
      now hg hcontent htitle hkw, ?_, ?_, ?_, ?_, hother, ?_, ?_, ?_, ?_⟩
    · rw [Obj.get_set_ne _ _ _ _ (by decide), Obj.get_set_self]
    · rw [Obj.get_set_self]
    · rw [Obj.get_set_ne _ _ _ _ (by decide), Obj.get_set_self]
    · rw [Obj.get_set_self]
    · intro m k hm h1 h2
      rw [hother k h1 h2, hm]
      rfl
    · intro k hk
      rw [Obj.get_set_ne _ _ _ _ hk, Obj.get_set_ne _ _ _ _ hk]
    · intro k h1 h2
      rw [Obj.get_set_ne _ _ _ _ h2, Obj.get_set_ne _ _ _ _ h1]
      unfold assignMetadata
      rw [Obj.get_set_ne _ _ _ _ h1]
    · rw [Obj.get_set_self]

set_option maxRecDepth 8000 in
theorem generateMeta_extracts_and_stores_witness :
    extractLabelled metaTitleLabel "提案です。\nメタタイトル： SEO入門ガイド \nメタディスクリプション： 初心者向けの解説です。" = some "SEO入門ガイド" ∧
    extractLabelled metaDescriptionLabel "提案です。\nメタタイトル： SEO入門ガイド \nメタディスクリプション： 初心者向けの解説です。" = some "初心者向けの解説です。" ∧
    extractLabelled metaTitleLabel "メタタイトル： " = some "" ∧
    extractLabelled metaTitleLabel "よい記事です。" = none ∧
    metaTitleOf [("title", JsVal.str "A"), ("content", JsVal.str "Hello")] "よい記事です。" = JsVal.str "A" ∧
    (∃ d : List Char, metaDescriptionOf "Hello" "よい記事です。" = JsVal.str (String.mk d) ∧
      d <+: "Hello".data ∧ utf16Length d = min 160 (utf16Length "Hello".data)) ∧
    metaDescriptionOf "Hello" "よい記事です。" = JsVal.str "Hello" ∧
    ((seoController.generateMeta (run Store.init [Op.generate (exampleBrief "A") (some "Hello") 5 5]).1 (JsVal.str "01") (some "提案です。\nメタタイトル： SEO入門ガイド \nメタディスクリプション： 初心者向けの解説です。") 9).response
        = ⟨200, Body.metaTags (JsVal.str "SEO入門ガイド") (JsVal.str "初心者向けの解説です。")⟩ ∧
      (seoController.generateMeta (run Store.init [Op.generate (exampleBrief "A") (some "Hello") 5 5]).1 (JsVal.str "01") (some "提案です。\nメタタイトル： SEO入門ガイド \nメタディスクリプション： 初心者向けの解説です。") 9).store.articleIdCounter
        = 2 ∧
      ∃ b, (seoController.generateMeta (run Store.init [Op.generate (exampleBrief "A") (some "Hello") 5 5]).1 (JsVal.str "01") (some "提案です。\nメタタイトル： SEO入門ガイド \nメタディスクリプション： 初心者向けの解説です。")
            9).store.inMemoryArticles[0]? = some b ∧
        MetadataMerged ((run Store.init [Op.generate (exampleBrief "A") (some "Hello") 5 5]).1.inMemoryArticles.get ⟨0, by decide⟩) [("title", JsVal.str "A"), ("content", JsVal.str "Hello")]
          (JsVal.str "SEO入門ガイド") (JsVal.str "初心者向けの解説です。") b) ∧
    ∃ (b gb mb : Obj),
      seoController.generateMeta (run Store.init [Op.generate (exampleBrief "A") (some "Hello") 5 5]).1 (JsVal.str "1") (some "提案です。\nメタタイトル： SEO入門ガイド \nメタディスクリプション： 初心者向けの解説です。") 9
        = ⟨⟨[] ++ b :: [], 2⟩,
            ⟨200, Body.metaTags (JsVal.str "SEO入門ガイド") (JsVal.str "初心者向けの解説です。")⟩,
            1⟩ ∧
      b.get "generatedArticle" = JsVal.obj gb ∧ Obj.get gb "metadata" = JsVal.obj mb ∧
      Obj.get mb "metaTitle" = JsVal.str "SEO入門ガイド" ∧
      Obj.get mb "metaDescription" = JsVal.str "初心者向けの解説です。" ∧
      Obj.get gb "content" = JsVal.str "Hello" ∧ b.get "title" = JsVal.str "A" ∧
      b.get "updatedAt" = JsVal.num 9 :=
  have h := generateMeta_extracts_and_stores
  have hno : ∀ v ∈ ("よい記事です。".data).tails,
      (matchLabelled metaTitleLabel.data v).isSome = false := by decide
  have hnone : extractLabelled metaTitleLabel "よい記事です。" = none :=
    h.2.2.2.1 metaTitleLabel "よい記事です。"
      (fun u v huv => not_metaMatchAt_of_eval _ _
        (hno v (by rw [List.mem_tails]; exact ⟨u, huv.symm⟩)))
  ⟨h.2.1 metaTitleLabel "提案です。\nメタタイトル： SEO入門ガイド \nメタディスクリプション： 初心者向けの解説です。" "提案です。\n".data " ".data "SEO入門ガイド ".data
      "\nメタディスクリプション： 初心者向けの解説です。".data '：' (by decide) (Or.inl rfl)
      (by decide) (by decide) (by decide) (by decide) (by decide)
      (fun u v huv hv => not_metaMatchAt_of_eval _ _
        ((by decide : ∀ v ∈ ("提案です。\n".data).tails, v ≠ [] →
          (matchLabelled metaTitleLabel.data
            (v ++ (metaTitleLabel.data ++ ('：' :: (" ".data ++ ("SEO入門ガイド ".data
              ++ "\nメタディスクリプション： 初心者向けの解説です。".data)))))).isSome = false)
          v (by rw [List.mem_tails]; exact ⟨u, huv.symm⟩) hv)),
    h.1 metaDescriptionLabel "提案です。\nメタタイトル： SEO入門ガイド \nメタディスクリプション： 初心者向けの解説です。" "提案です。\nメタタイトル： SEO入門ガイド \n".data " ".data
      "心者向けの解説です。".data '：' '初' (by decide) (Or.inl rfl) (by decide) (by decide)
      (fun u v huv hv => not_metaMatchAt_of_eval _ _
        ((by decide : ∀ v ∈ ("提案です。\nメタタイトル： SEO入門ガイド \n".data).tails, v ≠ [] →
          (matchLabelled metaDescriptionLabel.data
            (v ++ (metaDescriptionLabel.data ++ ('：' :: (" ".data
              ++ '初' :: "心者向けの解説です。".data))))).isSome = false)
          v (by rw [List.mem_tails]; exact ⟨u, huv.symm⟩) hv)),
    h.2.2.1 metaTitleLabel "メタタイトル： " [] " ".data '：' ' ' (by decide) (Or.inl rfl)
      (by decide) (by decide) (by decide)
      (fun u v huv hv => absurd (List.append_eq_nil.1 huv.symm).2 hv),
    hnone,
    (h.2.2.2.2.1 [("title", JsVal.str "A"), ("content", JsVal.str "Hello")] "Hello" "よい記事です。").2.1 hnone,
    (h.2.2.2.2.1 [("title", JsVal.str "A"), ("content", JsVal.str "Hello")] "Hello" "よい記事です。").2.2.2.1 (by decide) (by decide),
    rfl,
    h.2.2.2.2.2.1 (run Store.init [Op.generate (exampleBrief "A") (some "Hello") 5 5]).1 (JsVal.str "01") "提案です。\nメタタイトル： SEO入門ガイド \nメタディスクリプション： 初心者向けの解説です。" 9 (some 1) [] ((run Store.init [Op.generate (exampleBrief "A") (some "Hello") 5 5]).1.inMemoryArticles.get ⟨0, by decide⟩) [] [("title", JsVal.str "A"), ("content", JsVal.str "Hello")] "Hello"
      rfl rfl rfl (fun x hx => absurd hx (List.not_mem_nil x)) rfl rfl (fun _ => by decide) rfl,
    match h.2.2.2.2.2.2 (run Store.init [Op.generate (exampleBrief "A") (some "Hello") 5 5]).1 [] ((run Store.init [Op.generate (exampleBrief "A") (some "Hello") 5 5]).1.inMemoryArticles.get ⟨0, by decide⟩) [] 1 (JsVal.str "1") [("title", JsVal.str "A"), ("content", JsVal.str "Hello")]
        "Hello" "提案です。\nメタタイトル： SEO入門ガイド \nメタディスクリプション： 初心者向けの解説です。" 9 ⟨[1], rfl, by decide⟩ rfl rfl (Or.inl rfl) rfl rfl rfl rfl
        (fun _ => by decide) with
    | ⟨b, gb, mb, h1, h2, h3, h4, h5, _, _, h8, h9, h10⟩ =>
      ⟨b, gb, mb, h1, h2, h3, h4, h5, (h8 "content" (by decide)).trans rfl,
        (h9 "title" (by decide) (by decide)).trans rfl, h10⟩⟩

/-! ## C13: the range of the parsed score -/

theorem matchScoreLabel_digits (cs g : List Char) (h : matchScoreLabel cs = some g) :
    IsScoreDigits g := by
  unfold matchScoreLabel at h
  split at h
  · split at h
    · simp only at h
      split at h
      · exact absurd h (by simp)
      · rename_i rest _ hne
        injection h with h
        subst h
        refine ⟨?_, ?_, ?_⟩
        · cases hl : List.take 3 (List.takeWhile isDigit (List.dropWhile isJsSpace rest)) with
          | nil => rw [hl] at hne; simp at hne
          | cons _ _ => simp
        · rw [List.length_take]; omega
        · intro c hc
          exact List.mem_takeWhile_imp (List.mem_of_mem_take hc)
    · exact absurd h (by simp)
  · exact absurd h (by simp)

theorem scoreMatch_groups (cs : List Char) (g1 g2 : Option (List Char))
    (h : scoreMatch cs = some (g1, g2)) :
    ∃ g, IsScoreDigits g ∧ pickGroup g1 g2 = some g := by
  induction cs with
  | nil => simp [scoreMatch] at h
  | cons c cs ih =>
    rw [scoreMatch] at h
    cases h1 : matchSlash100 (c :: cs) with
    | some g =>
      rw [h1] at h
      simp only [Option.some.injEq, Prod.mk.injEq] at h
      obtain ⟨rfl, rfl⟩ := h
      have hg := (matchSlash100_sound _ g h1).2
      refine ⟨g, hg, ?_⟩
      cases g with
      | nil => have := hg.1; simp at this
      | cons _ _ => rfl
    | none =>
      rw [h1] at h
      simp only at h
      cases h2 : matchScoreLabel (c :: cs) with
      | some g =>
        rw [h2] at h
        simp only [Option.some.injEq, Prod.mk.injEq] at h
        obtain ⟨rfl, rfl⟩ := h
        exact ⟨g, matchScoreLabel_digits _ g h2, rfl⟩
      | none =>
        rw [h2] at h
        exact ih h

theorem digitVal_le_nine (c : Char) (h : isDigit c = true) : digitVal c ≤ 9 := by
  simp only [isDigit, Bool.and_eq_true, decide_eq_true_eq] at h
  unfold digitVal
  omega

theorem digitsVal_le_999 (g : List Char) (h : IsScoreDigits g) : digitsVal g ≤ 999 := by
  obtain ⟨h1, h3, hd⟩ := h
  match g, h1, h3, hd with
  | [a], _, _, hd =>
    have := digitVal_le_nine a (hd a (by simp))
    simp [digitsVal]; omega
  | [a, b], _, _, hd =>
    have := digitVal_le_nine a (hd a (by simp))
    have := digitVal_le_nine b (hd b (by simp))
    simp [digitsVal]; omega
  | [a, b, c], _, _, hd =>
    have := digitVal_le_nine a (hd a (by simp))
    have := digitVal_le_nine b (hd b (by simp))
    have := digitVal_le_nine c (hd c (by simp))
    simp [digitsVal]; omega
  | [], h1, _, _ => simp at h1
  | _ :: _ :: _ :: _ :: _, _, h3, _ => simp at h3

theorem parseScore_range (text : String) :
    ∃ n : Int, parseScore text = some n ∧ 0 ≤ n ∧ n ≤ 999 := by
  unfold parseScore
  cases h : scoreMatch text.data with
  | none => exact ⟨70, rfl, by omega, by omega⟩
  | some p =>
    obtain ⟨g1, g2⟩ := p
    obtain ⟨g, hg, hp⟩ := scoreMatch_groups _ g1 g2 h
    have hne : g ≠ [] := by
      intro e; have := hg.1; simp [e] at this
    simp only [hp]
    refine ⟨(digitsVal g : Int), parseIntChars_digits g hne hg.2.2, by omega, ?_⟩
    have := digitsVal_le_999 g hg
    omega

/-- C13, the code at a model text with a three-digit number before "/100". The comment of
the parser says it detects a number from 0 to 100, but `\d{1,3}` takes any one to three
digits: the text "キーワード密度: 250/1000" is parsed to the score 250 (and a text with the
score label followed by 850 to 850), and the SEO check stores 250 on the record. What the
parser does guarantee for every text is an integer from 0 to 999. -/
theorem parseScore_above_100 :
    parseScore "キーワード密度: 250/1000" = some 250 ∧
    parseScore "スコア: 850" = some 850 ∧
    (seoController.checkSEO
        (run Store.init [Op.generate (exampleBrief "A") (some "Hello") 5 5]).1
        (JsVal.str "1") (some "キーワード密度: 250/1000") 9).store.inMemoryArticles.map
        (fun r => r.get "seoScore") = [JsVal.num 250] ∧
    ∀ text : String, ∃ n : Int, parseScore text = some n ∧ 0 ≤ n ∧ n ≤ 999 :=
  ⟨by decide, by decide, rfl, parseScore_range⟩

end SeoArticle
